import Mathlib

/-!
# Peddle debugger: instruction log, guards and soft stops

A shallow embedding of `src/Peddle/PeddleDebugger.cpp` (with the declarations of
`PeddleDebugger.h` and `Peddle.h`) and the properties proved about it.

Conventions of the embedding.

* Unsigned machine integers (`u8`, `u16`, `u32`, `u64`) are natural numbers. A value
  that is only copied keeps its width, so no reduction is applied; where the source
  computes (`pc + 1`, a cast) the reduction modulo the width is written out.
* Signed 64 bit integers (`long`, `isize`) are integers; increments are followed by
  `wrapLong`, the wrap-around of the two-complement representation.
* A C array is a list of the array length; reading or writing outside of it is
  reported as `none` resp. leaves the list as it is.
* A method of a class holding a reference to the CPU takes the object and the CPU state
  and returns the new object and CPU state.
-/

namespace peddle

/-! ## Configuration constants -/

/-- Compile-time constants declared in `PeddleConfig.h` and `PeddleTypes.h`. Both headers
are included by the sources but are not among them, so the constants are parameters. -/
structure Config where
  /-- Number of entries of the instruction log (`LOG_BUFFER_CAPACITY`). -/
  LOG_BUFFER_CAPACITY : Nat
  /-- Bit mask in `Peddle::flags`: instructions are logged. -/
  CPU_LOG_INSTRUCTION : Nat
  /-- Bit mask in `Peddle::flags`: breakpoints have to be checked. -/
  CPU_CHECK_BP : Nat
  /-- Bit mask in `Peddle::flags`: watchpoints have to be checked. -/
  CPU_CHECK_WP : Nat

/-! ## Machine integers -/

/-- Largest value of a `u64` (`UINT64_MAX`). -/
def UINT64_MAX : Nat := 2 ^ 64 - 1

/-- Result of a `long` / `isize` computation whose exact value is `x`: the value modulo
`2 ^ 64` that lies in `[-2 ^ 63, 2 ^ 63)`. -/
def wrapLong (x : Int) : Int := (x + 2 ^ 63) % 2 ^ 64 - 2 ^ 63

/-- Element `i` of a C array, for a signed index. -/
def readAt {α : Type} (arr : List α) (i : Int) : Option α :=
  if 0 ≤ i then arr[i.toNat]? else none

/-- Assignment `arr[i] = v` to a C array, for a signed index. -/
def writeAt {α : Type} (arr : List α) (i : Int) (v : α) : List α :=
  if 0 ≤ i then arr.set i.toNat v else arr

/-! ## CPU state (`Peddle.h`) -/

/-- Status flags `reg.sr`. -/
structure StatusRegister where
  n : Bool
  v : Bool
  b : Bool
  d : Bool
  i : Bool
  z : Bool
  c : Bool
deriving DecidableEq, Repr, Inhabited

/-- Processor port registers `reg.pport`. -/
structure ProcessorPort where
  data : Nat
  direction : Nat
deriving DecidableEq, Repr, Inhabited

/-- Register file `Peddle::reg`, with the members the sources access. -/
structure Registers where
  pc : Nat
  pc0 : Nat
  sp : Nat
  a : Nat
  x : Nat
  y : Nat
  sr : StatusRegister
  pport : ProcessorPort
deriving DecidableEq, Repr, Inhabited

/-- State of the CPU as far as the debugger reads or writes it. `mem` is the host
callback behind the virtual `readDasm`. -/
structure Peddle where
  /-- Elapsed clock cycles since power up (`u64 clock`). -/
  clock : Nat
  /-- State flags (`isize flags`), as a bit pattern. -/
  flags : Nat
  reg : Registers
  mem : Nat → Nat

/-- Source: `u16 getPC0() const { return reg.pc0; }`. -/
def Peddle.getPC0 (cpu : Peddle) : Nat := cpu.reg.pc0

/-- Source: `virtual u8 readDasm(u16 addr) const`, overridden by the host, e.g. by
`return ram[addr]` in `main.cpp`. The argument is converted to `u16`; the method is
`const` and the result depends on the address only. -/
def Peddle.readDasm (cpu : Peddle) (addr : Nat) : Nat := cpu.mem (addr % 65536)

/-- Modelled from the spec: `Peddle::getP` is declared in `Peddle.h`, its body is not
among the sources. The spec serialises the flags in the order N V - B D I Z C, with
bit 5 constantly 1. -/
def Peddle.getP (cpu : Peddle) : Nat :=
  (if cpu.reg.sr.n then 128 else 0) + (if cpu.reg.sr.v then 64 else 0) + 32 +
  (if cpu.reg.sr.b then 16 else 0) + (if cpu.reg.sr.d then 8 else 0) +
  (if cpu.reg.sr.i then 4 else 0) + (if cpu.reg.sr.z then 2 else 0) +
  (if cpu.reg.sr.c then 1 else 0)

/-! ## Instruction table and log records -/

/-- Addressing modes, as they occur in `getLengthOfInstruction` and `disassembleInstr`. -/
inductive AddressingMode where
  | ADDR_IMPLIED
  | ADDR_ACCUMULATOR
  | ADDR_IMMEDIATE
  | ADDR_ZERO_PAGE
  | ADDR_ZERO_PAGE_X
  | ADDR_ZERO_PAGE_Y
  | ADDR_ABSOLUTE
  | ADDR_ABSOLUTE_X
  | ADDR_ABSOLUTE_Y
  | ADDR_DIRECT
  | ADDR_INDIRECT
  | ADDR_INDIRECT_X
  | ADDR_INDIRECT_Y
  | ADDR_RELATIVE
deriving DecidableEq, Repr, Inhabited

open AddressingMode

/-- One entry of the instruction log, with the members `logInstruction` assigns. -/
structure RecordedInstruction where
  cycle : Nat
  pc : Nat
  sp : Nat
  byte1 : Nat
  byte2 : Nat
  byte3 : Nat
  a : Nat
  x : Nat
  y : Nat
  flags : Nat
deriving DecidableEq, Repr, Inhabited

/-! ## Guards (`PeddleDebugger.h`) -/

/-- Base structure for a single breakpoint or watchpoint. -/
structure Guard where
  /-- The observed address (`u32`). -/
  addr : Nat
  /-- Disabled guards never trigger. -/
  enabled : Bool
  /-- Counts the number of hits (`long`). -/
  hits : Int
  /-- Number of skipped hits before a match is signalled (`long`). -/
  skip : Int
deriving DecidableEq, Repr, Inhabited

/-- Base class for a collection of guards. `capacity` and `count` are `long` in the
source; they start as 1 and 0 and are only doubled, incremented, reset to 0, or
decremented after a stored guard was found, so they are natural numbers here. -/
structure Guards where
  /-- Capacity of the guards array. -/
  capacity : Nat
  /-- Array holding all guards. -/
  guards : List Guard
  /-- Number of currently stored guards. -/
  count : Nat
deriving DecidableEq, Repr

/-! ## Debugger state -/

/-- Members of `class Debugger`, together with the instruction tables that
`registerInstruction` fills. -/
structure Debugger where
  /-- Log buffer, an array of `LOG_BUFFER_CAPACITY` records. -/
  logBuffer : List RecordedInstruction
  /-- Breakpoint storage. -/
  breakpoints : Guards
  /-- Watchpoint storage. -/
  watchpoints : Guards
  /-- Saved program counters (`i32`). -/
  breakpointPC : Int
  watchpointPC : Int
  /-- Number of logged instructions (`isize`). -/
  logCnt : Int
  /-- Soft breakpoint for implementing single-stepping (`u64`). -/
  softStop : Nat
  /-- Number format of the disassembler. -/
  hex : Bool
  /-- Mnemonic of each opcode. -/
  mnemonic : Nat → List Char
  /-- Addressing mode of each opcode. -/
  addressingMode : Nat → AddressingMode

/-! ## Instruction log (`PeddleDebugger.cpp`, lines 305 to 383) -/

/-- Source: `Debugger::getLengthOfInstruction`. The `return 1` behind the `switch` is
reached only by a value outside of the enumeration, which the type excludes. -/
def Debugger.getLengthOfInstruction (d : Debugger) (opcode : Nat) : Int :=
  match d.addressingMode opcode with
  | ADDR_IMPLIED | ADDR_ACCUMULATOR => 1
  | ADDR_IMMEDIATE | ADDR_ZERO_PAGE | ADDR_ZERO_PAGE_X | ADDR_ZERO_PAGE_Y
  | ADDR_INDIRECT_X | ADDR_INDIRECT_Y | ADDR_RELATIVE => 2
  | ADDR_ABSOLUTE | ADDR_ABSOLUTE_X | ADDR_ABSOLUTE_Y | ADDR_DIRECT | ADDR_INDIRECT => 3

/-- Source: `Debugger::loggedInstructions`. -/
def Debugger.loggedInstructions (cfg : Config) (d : Debugger) : Int :=
  if d.logCnt < cfg.LOG_BUFFER_CAPACITY then d.logCnt else cfg.LOG_BUFFER_CAPACITY

/-- The ten values that `Debugger::logInstruction` assigns to the members of
`logBuffer[i]`, as one record. -/
def Debugger.recordedInstruction (d : Debugger) (cpu : Peddle) : RecordedInstruction :=
  let pc := cpu.getPC0
  let opcode := cpu.readDasm pc
  let length := d.getLengthOfInstruction opcode
  { cycle := cpu.clock
    pc := pc
    sp := cpu.reg.sp
    byte1 := opcode
    byte2 := if length > 1 then cpu.readDasm (pc + 1) else 0
    byte3 := if length > 2 then cpu.readDasm (pc + 2) else 0
    a := cpu.reg.a
    x := cpu.reg.x
    y := cpu.reg.y
    flags := cpu.getP }

/-- Source: `Debugger::logInstruction`. The slot is `logCnt++ % LOG_BUFFER_CAPACITY`,
the remainder of the C++ division, which truncates. -/
def Debugger.logInstruction (cfg : Config) (d : Debugger) (cpu : Peddle) :
    Debugger × Peddle :=
  let i := Int.tmod d.logCnt cfg.LOG_BUFFER_CAPACITY
  ({ d with
      logCnt := wrapLong (d.logCnt + 1)
      logBuffer := writeAt d.logBuffer i (d.recordedInstruction cpu) }, cpu)

/-- Source: `Debugger::logEntryRel`. A failed assertion gives `none`. -/
def Debugger.logEntryRel (cfg : Config) (d : Debugger) (n : Int) :
    Option RecordedInstruction :=
  if n < d.loggedInstructions cfg then
    readAt d.logBuffer (Int.tmod (wrapLong (d.logCnt - 1 - n)) cfg.LOG_BUFFER_CAPACITY)
  else none

/-- Source: `Debugger::logEntryAbs`. -/
def Debugger.logEntryAbs (cfg : Config) (d : Debugger) (n : Int) :
    Option RecordedInstruction :=
  if n < d.loggedInstructions cfg then
    d.logEntryRel cfg (wrapLong (d.loggedInstructions cfg - n - 1))
  else none

/-- Source: `Debugger::loggedPC0Rel`. -/
def Debugger.loggedPC0Rel (cfg : Config) (d : Debugger) (n : Int) : Option Nat :=
  if n < d.loggedInstructions cfg then
    (readAt d.logBuffer
      (Int.tmod (wrapLong (d.logCnt - 1 - n)) cfg.LOG_BUFFER_CAPACITY)).map (·.pc)
  else none

/-- Source: `Debugger::loggedPC0Abs`. -/
def Debugger.loggedPC0Abs (cfg : Config) (d : Debugger) (n : Int) : Option Nat :=
  if n < d.loggedInstructions cfg then
    d.loggedPC0Rel cfg (wrapLong (d.loggedInstructions cfg - n - 1))
  else none

/-- Source: `Debugger::clearLog`. -/
def Debugger.clearLog (d : Debugger) : Debugger := { d with logCnt := 0 }

/-- The debugger after `logInstruction` was called once for each CPU state of `cs`, in
this order. Between two calls the CPU may have changed in any way; the log is only
touched by `logInstruction`. -/
def Debugger.logAll (cfg : Config) (d : Debugger) (cs : List Peddle) : Debugger :=
  cs.foldl (fun acc cpu => (acc.logInstruction cfg cpu).1) d

/-! ## Guards (`PeddleDebugger.cpp`, lines 70 to 237)

The loops of the source run over `i = 0, ..., count - 1`. They are written here as
recursions over the number of iterations that are left, so the loop that starts at
index `i` is called with `count - i` iterations. The loop counters of the source are
`int`, which is wide enough for collections of fewer than `2 ^ 31` guards. -/

/-- Source: `Guard::eval`. Returns the result and the guard with its hit counter. -/
def Guard.eval (g : Guard) (addr : Nat) : Bool × Guard :=
  if g.addr = addr ∧ g.enabled = true then
    let g1 : Guard := { g with hits := wrapLong (g.hits + 1) }
    if g1.hits > g1.skip then (true, g1) else (false, g1)
  else (false, g)

/-- Source: `Guards::elements`. -/
def Guards.elements (g : Guards) : Nat := g.count

/-- Source: `Guards::guardWithNr`; the guard the returned pointer refers to. -/
def Guards.guardWithNr (g : Guards) (nr : Int) : Option Guard :=
  if nr < g.count then readAt g.guards nr else none

/-- Loop of `Guards::guardAtAddr`, started at index `i` with `left` iterations to go. The
result is the index of the guard the returned pointer refers to. -/
def Guards.guardAtAddrLoop (guards : List Guard) (addr : Nat) : Nat → Nat → Option Nat
  | 0, _ => none
  | left + 1, i =>
    match guards[i]? with
    | some x => if x.addr = addr then some i else guardAtAddrLoop guards addr left (i + 1)
    | none => none

/-- Source: `Guards::guardAtAddr`. -/
def Guards.guardAtAddr (g : Guards) (addr : Nat) : Option Nat :=
  Guards.guardAtAddrLoop g.guards addr g.count 0

/-- Source: `Guards::guardAddr`. -/
def Guards.guardAddr (g : Guards) (nr : Int) : Nat :=
  if nr < g.count then
    match readAt g.guards nr with
    | some x => x.addr
    | none => 0
  else 0

/-- Source: `Guards::isSetAt`. -/
def Guards.isSetAt (g : Guards) (addr : Nat) : Bool :=
  (g.guardAtAddr addr).isSome

/-- Source: `Guards::isSetAndEnabledAt`. -/
def Guards.isSetAndEnabledAt (g : Guards) (addr : Nat) : Bool :=
  match g.guardAtAddr addr with
  | some i => match g.guards[i]? with
    | some x => x.enabled
    | none => false
  | none => false

/-- Source: `Guards::isSetAndDisabledAt`. -/
def Guards.isSetAndDisabledAt (g : Guards) (addr : Nat) : Bool :=
  match g.guardAtAddr addr with
  | some i => match g.guards[i]? with
    | some x => !x.enabled
    | none => false
  | none => false

/-- Source: `Guards::isSetAndConditionalAt`. -/
def Guards.isSetAndConditionalAt (g : Guards) (addr : Nat) : Bool :=
  match g.guardAtAddr addr with
  | some i => match g.guards[i]? with
    | some x => x.skip != 0
    | none => false
  | none => false

/-- Loop `for (long i = 0; i < capacity; i++) newguards[i] = guards[i]` of
`Guards::addAt`, started at index `i` with `left` iterations to go. -/
def Guards.copyLoop (guards : List Guard) : Nat → Nat → List Guard → List Guard
  | 0, _, newguards => newguards
  | left + 1, i, newguards =>
    match guards[i]? with
    | some x => copyLoop guards left (i + 1) (newguards.set i x)
    | none => newguards

/-- Source: `Guards::addAt`. The cells of `new Guard[2 * capacity]` hold indeterminate
values; the model fills them with the default guard. -/
def Guards.addAt (setNeedsCheck : Peddle → Bool → Peddle) (g : Guards) (cpu : Peddle)
    (addr : Nat) (skip : Int) : Guards × Peddle :=
  if g.isSetAt addr then (g, cpu)
  else
    let g1 : Guards :=
      if g.count ≥ g.capacity then
        { g with
            guards := Guards.copyLoop g.guards g.capacity 0
              (List.replicate (2 * g.capacity) default)
            capacity := g.capacity * 2 }
      else g
    let g2 : Guards :=
      { g1 with
          guards := g1.guards.set g1.count { addr := addr, enabled := true, hits := 0, skip := skip }
          count := g1.count + 1 }
    (g2, setNeedsCheck cpu true)

/-- Loop `for (int j = i; j + 1 < count; j++) guards[j] = guards[j + 1]` of
`Guards::removeAt`, at index `j` with `left` iterations to go. -/
def Guards.shiftLoop : Nat → Nat → List Guard → List Guard
  | 0, _, guards => guards
  | left + 1, j, guards =>
    match guards[j + 1]? with
    | some x => shiftLoop left (j + 1) (guards.set j x)
    | none => guards

/-- Outer loop of `Guards::removeAt`, at index `i` with `left` iterations to go. -/
def Guards.removeLoop (g : Guards) (addr : Nat) : Nat → Nat → Guards
  | 0, _ => g
  | left + 1, i =>
    match g.guards[i]? with
    | some x =>
      if x.addr = addr then
        { g with
            guards := Guards.shiftLoop (g.count - (i + 1)) i g.guards
            count := g.count - 1 }
      else removeLoop g addr left (i + 1)
    | none => g

/-- Source: `Guards::removeAt`. -/
def Guards.removeAt (setNeedsCheck : Peddle → Bool → Peddle) (g : Guards) (cpu : Peddle)
    (addr : Nat) : Guards × Peddle :=
  let g1 := Guards.removeLoop g addr g.count 0
  (g1, setNeedsCheck cpu (g1.count != 0))

/-- Source: `Guards::remove`. -/
def Guards.remove (setNeedsCheck : Peddle → Bool → Peddle) (g : Guards) (cpu : Peddle)
    (nr : Int) : Guards × Peddle :=
  if nr < g.count then
    match readAt g.guards nr with
    | some x => g.removeAt setNeedsCheck cpu x.addr
    | none => (g, cpu)
  else (g, cpu)

/-- Source: `Guards::removeAll`. -/
def Guards.removeAll (setNeedsCheck : Peddle → Bool → Peddle) (g : Guards) (cpu : Peddle) :
    Guards × Peddle :=
  ({ g with count := 0 }, setNeedsCheck cpu false)

/-- Source: `Guards::replace`. -/
def Guards.replace (g : Guards) (nr : Int) (addr : Nat) : Guards :=
  if nr ≥ g.count ∨ g.isSetAt addr = true then g
  else
    match readAt g.guards nr with
    | some x => { g with guards := writeAt g.guards nr { x with addr := addr, hits := 0 } }
    | none => g

/-- Source: `Guards::isEnabled`. -/
def Guards.isEnabled (g : Guards) (nr : Int) : Bool :=
  if nr < g.count then
    match readAt g.guards nr with
    | some x => x.enabled
    | none => false
  else false

/-- Source: `Guards::setEnable`. -/
def Guards.setEnable (g : Guards) (nr : Int) (val : Bool) : Guards :=
  if nr < g.count then
    match readAt g.guards nr with
    | some x => { g with guards := writeAt g.guards nr { x with enabled := val } }
    | none => g
  else g

/-- Source: `Guards::setEnableAt`. -/
def Guards.setEnableAt (g : Guards) (addr : Nat) (value : Bool) : Guards :=
  match g.guardAtAddr addr with
  | some i =>
    match g.guards[i]? with
    | some x => { g with guards := g.guards.set i { x with enabled := value } }
    | none => g
  | none => g

/-- Loop of `Guards::eval`, at index `i` with `left` iterations to go. Each evaluated
guard is stored back with its hit counter. -/
def Guards.evalLoop (addr : Nat) : Nat → Nat → List Guard → Bool × List Guard
  | 0, _, guards => (false, guards)
  | left + 1, i, guards =>
    match guards[i]? with
    | some x =>
      let r := x.eval addr
      if r.1 then (true, guards.set i r.2)
      else evalLoop addr left (i + 1) (guards.set i r.2)
    | none => (false, guards)

/-- Source: `Guards::eval`. -/
def Guards.eval (g : Guards) (addr : Nat) : Bool × Guards :=
  let r := Guards.evalLoop addr g.count 0 g.guards
  (r.1, { g with guards := r.2 })

/-- Source: `Breakpoints::setNeedsCheck`. The complement `~CPU_CHECK_BP` is taken in the
64 bits of `flags`. -/
def Breakpoints.setNeedsCheck (cfg : Config) (cpu : Peddle) (value : Bool) : Peddle :=
  if value then { cpu with flags := cpu.flags ||| cfg.CPU_CHECK_BP }
  else { cpu with flags := cpu.flags &&& (UINT64_MAX - cfg.CPU_CHECK_BP) }

/-- Source: `Watchpoints::setNeedsCheck`. -/
def Watchpoints.setNeedsCheck (cfg : Config) (cpu : Peddle) (value : Bool) : Peddle :=
  if value then { cpu with flags := cpu.flags ||| cfg.CPU_CHECK_WP }
  else { cpu with flags := cpu.flags &&& (UINT64_MAX - cfg.CPU_CHECK_WP) }

/-- State of a guard collection created by the constructor: `capacity = 1`, an array of
one guard, `count = 0`. -/
def Guards.init : Guards := { capacity := 1, guards := [default], count := 0 }

/-! ## Breakpoints and soft stops (`PeddleDebugger.cpp`, lines 243 to 291) -/

/-- Source: `Debugger::reset`. -/
def Debugger.reset (cfg : Config) (d : Debugger) (cpu : Peddle) : Debugger × Peddle :=
  let cpu1 := Breakpoints.setNeedsCheck cfg cpu (d.breakpoints.elements != 0)
  let cpu2 := Watchpoints.setNeedsCheck cfg cpu1 (d.watchpoints.elements != 0)
  (d.clearLog, cpu2)

/-- Source: `Debugger::registerInstruction`. -/
def Debugger.registerInstruction (d : Debugger) (opcode : Nat) (mnemonic : List Char)
    (mode : AddressingMode) : Debugger :=
  { d with
      mnemonic := Function.update d.mnemonic opcode mnemonic
      addressingMode := Function.update d.addressingMode opcode mode }

/-- Source: `Debugger::setSoftStop`. -/
def Debugger.setSoftStop (cfg : Config) (d : Debugger) (cpu : Peddle) (addr : Nat) :
    Debugger × Peddle :=
  ({ d with softStop := addr }, Breakpoints.setNeedsCheck cfg cpu true)

/-- Source: `Debugger::breakpointMatches`. -/
def Debugger.breakpointMatches (cfg : Config) (d : Debugger) (cpu : Peddle) (addr : Nat) :
    Bool × Debugger × Peddle :=
  if addr = d.softStop ∨ d.softStop = UINT64_MAX then
    (true, { d with softStop := UINT64_MAX - 1 },
      Breakpoints.setNeedsCheck cfg cpu (d.breakpoints.elements != 0))
  else
    let r := d.breakpoints.eval addr
    let d1 : Debugger := { d with breakpoints := r.2 }
    if !r.1 then (false, d1, cpu)
    else (true, { d1 with breakpointPC := cpu.reg.pc }, cpu)

/-- Source: `Debugger::watchpointMatches`. -/
def Debugger.watchpointMatches (d : Debugger) (cpu : Peddle) (addr : Nat) :
    Bool × Debugger × Peddle :=
  let r := d.watchpoints.eval addr
  let d1 : Debugger := { d with watchpoints := r.2 }
  if !r.1 then (false, d1, cpu)
  else (true, { d1 with watchpointPC := cpu.reg.pc0 }, cpu)

/-- Source: `Debugger::enableLogging`. -/
def Debugger.enableLogging (cfg : Config) (cpu : Peddle) : Peddle :=
  { cpu with flags := cpu.flags ||| cfg.CPU_LOG_INSTRUCTION }

/-- Source: `Debugger::disableLogging`. -/
def Debugger.disableLogging (cfg : Config) (cpu : Peddle) : Peddle :=
  { cpu with flags := cpu.flags &&& (UINT64_MAX - cfg.CPU_LOG_INSTRUCTION) }

/-! ## Printing (`PeddleDebugger.cpp`, lines 17 to 63)

A character array is a list of characters of the array length; a `char *` into it is
the array together with an offset. The C string at a pointer consists of the characters
before the first NUL. -/

/-- The terminating character of a C string. -/
def NUL : Char := Char.ofNat 0

/-- The C string that starts at index 0 of the character array `arr`. -/
def cstr (arr : List Char) : List Char := arr.takeWhile (fun c => c != NUL)

/-- Assignments `arr[pos] = c0; arr[pos + 1] = c1; ...` for the characters of `cs`. -/
def writeChars : List Char → Nat → List Char → List Char
  | arr, _, [] => arr
  | arr, pos, c :: cs => writeChars (arr.set pos c) (pos + 1) cs

/-- Library function `strcpy(dst, src)` for a string literal `src`: copies the
characters of `src` and the terminating NUL. -/
def strcpy (dst : List Char) (src : List Char) : List Char :=
  writeChars dst 0 (src ++ [NUL])

/-- Library function `memcpy(&dst[pos], src, n)`. -/
def memcpy (dst : List Char) (pos : Nat) (src : List Char) (n : Nat) : List Char :=
  writeChars dst pos (src.take n)

/-- Library function `strncpy(dst, src, n)` for the C string `src`: copies at most `n`
characters and fills up with NUL if `src` is shorter than `n`. -/
def strncpy (dst : List Char) (src : List Char) (n : Nat) : List Char :=
  writeChars dst 0 (src.take n ++ List.replicate (n - src.length) NUL)

/-- Source: `'0' + digit`. -/
def decChar (digit : Nat) : Char := Char.ofNat (48 + digit)

/-- Source: `(digit <= 9) ? ('0' + digit) : ('A' + digit - 10)`. -/
def hexChar (digit : Nat) : Char :=
  if digit ≤ 9 then Char.ofNat (48 + digit) else Char.ofNat (65 + digit - 10)

/-- Loop of the four `sprint` functions,
`for (int i = n - 1; i >= 0; i--) { digit = value % base; s[i] = ...; value /= base; }`,
where `s` points to index `off` of `arr`. The loop is at index `i` when `i + 1`
iterations are left. -/
def sprintLoop (digitChar : Nat → Char) (base : Nat) (off : Nat) :
    Nat → Nat → List Char → List Char
  | 0, _, arr => arr
  | i + 1, value, arr =>
    sprintLoop digitChar base off i (value / base)
      (arr.set (off + i) (digitChar (value % base)))

/-- Source: `sprint8d(char *s, u8 value)`. -/
def sprint8d (arr : List Char) (off : Nat) (value : Nat) : List Char :=
  (sprintLoop decChar 10 off 3 value arr).set (off + 3) NUL

/-- Source: `sprint8x(char *s, u8 value)`. -/
def sprint8x (arr : List Char) (off : Nat) (value : Nat) : List Char :=
  (sprintLoop hexChar 16 off 2 value arr).set (off + 2) NUL

/-- Source: `sprint16d(char *s, u16 value)`. -/
def sprint16d (arr : List Char) (off : Nat) (value : Nat) : List Char :=
  (sprintLoop decChar 10 off 5 value arr).set (off + 5) NUL

/-- Source: `sprint16x(char *s, u16 value)`. -/
def sprint16x (arr : List Char) (off : Nat) (value : Nat) : List Char :=
  (sprintLoop hexChar 16 off 4 value arr).set (off + 4) NUL

/-- Source: macro `LO_HI(x,y)`, `(u16)((y) << 8 | (x))` (`PeddleMacros.h`). -/
def LO_HI (x y : Nat) : Nat := ((y <<< 8) ||| x) % 65536

/-- Cast `(i8)b` of a `u8`: the value modulo 256 that lies in `[-128, 128)`. -/
def toI8 (b : Nat) : Int := if b % 256 < 128 then (b % 256 : Nat) else ((b % 256 : Nat) : Int) - 256

/-- Cast `(u16)x` of an `int`. -/
def toU16 (x : Int) : Nat := (x % 65536).toNat

/-! ## Disassembler (`PeddleDebugger.cpp`, lines 452 to 658)

The functions return a pointer to a `static` character array. They take the content
the array has before the call (`result`) and return its content after the call. -/

/-- Modelled from the spec: the masks `N_FLAG`, ..., `C_FLAG` of the status byte are
declared in `PeddleTypes.h`, which is not among the sources. The spec lays the flags
out as N V - B D I Z C from bit 7 down to bit 0, bit 5 being constant and bit 4 being
B. -/
def N_FLAG : Nat := 128

/-- Modelled from the spec: see `N_FLAG`. -/
def V_FLAG : Nat := 64

/-- Modelled from the spec: see `N_FLAG`. -/
def B_FLAG : Nat := 16

/-- Modelled from the spec: see `N_FLAG`. -/
def D_FLAG : Nat := 8

/-- Modelled from the spec: see `N_FLAG`. -/
def I_FLAG : Nat := 4

/-- Modelled from the spec: see `N_FLAG`. -/
def Z_FLAG : Nat := 2

/-- Modelled from the spec: see `N_FLAG`. -/
def C_FLAG : Nat := 1

/-- Source: `Debugger::disassembleAddr`, with `static char result[6]`. -/
def Debugger.disassembleAddr (d : Debugger) (result : List Char) (addr : Nat) : List Char :=
  if d.hex then sprint16x result 0 addr else sprint16d result 0 addr

/-- First `switch` of `Debugger::disassembleInstr<hex>`: the content of `char operand[6]`
after the operand was converted. The array is not initialised in the source; the model
starts with NUL characters. -/
def Debugger.convertOperand (hex : Bool) (d : Debugger) (instr : RecordedInstruction) :
    List Char :=
  let operand : List Char := List.replicate 6 NUL
  match d.addressingMode instr.byte1 with
  | ADDR_IMMEDIATE | ADDR_ZERO_PAGE | ADDR_ZERO_PAGE_X | ADDR_ZERO_PAGE_Y
  | ADDR_INDIRECT_X | ADDR_INDIRECT_Y =>
    let value := instr.byte2
    if hex then sprint8x operand 0 value else sprint8d operand 0 value
  | ADDR_DIRECT | ADDR_INDIRECT | ADDR_ABSOLUTE | ADDR_ABSOLUTE_X | ADDR_ABSOLUTE_Y =>
    let value := LO_HI instr.byte2 instr.byte3
    if hex then sprint16x operand 0 value else sprint16d operand 0 value
  | ADDR_RELATIVE =>
    let value := toU16 ((instr.pc : Int) + 2 + toI8 instr.byte2)
    if hex then sprint16x operand 0 value else sprint16d operand 0 value
  | ADDR_IMPLIED | ADDR_ACCUMULATOR => operand

/-- Second `switch` of `Debugger::disassembleInstr<hex>`: the pattern is copied to
`result` and the operand is copied into it. The `default` branch is reached only by a
value outside of the enumeration, which the type excludes. -/
def Debugger.fillPattern (hex : Bool) (d : Debugger) (result : List Char)
    (operand : List Char) (instr : RecordedInstruction) : List Char :=
  match d.addressingMode instr.byte1 with
  | ADDR_IMPLIED | ADDR_ACCUMULATOR =>
    strcpy result ['x', 'x', 'x']
  | ADDR_IMMEDIATE =>
    memcpy (strcpy result (if hex then ['x', 'x', 'x', ' ', '#', 'h', 'h']
      else ['x', 'x', 'x', ' ', '#', 'd', 'd', 'd'])) 5 operand (if hex then 2 else 3)
  | ADDR_ZERO_PAGE =>
    memcpy (strcpy result (if hex then ['x', 'x', 'x', ' ', 'h', 'h']
      else ['x', 'x', 'x', ' ', 'd', 'd', 'd'])) 4 operand (if hex then 2 else 3)
  | ADDR_ZERO_PAGE_X =>
    memcpy (strcpy result (if hex then ['x', 'x', 'x', ' ', 'h', 'h', ',', 'X']
      else ['x', 'x', 'x', ' ', 'd', 'd', 'd', ',', 'X'])) 4 operand (if hex then 2 else 3)
  | ADDR_ZERO_PAGE_Y =>
    memcpy (strcpy result (if hex then ['x', 'x', 'x', ' ', 'h', 'h', ',', 'Y']
      else ['x', 'x', 'x', ' ', 'd', 'd', 'd', ',', 'Y'])) 4 operand (if hex then 2 else 3)
  | ADDR_ABSOLUTE | ADDR_DIRECT =>
    memcpy (strcpy result (if hex then ['x', 'x', 'x', ' ', 'h', 'h', 'h', 'h']
      else ['x', 'x', 'x', ' ', 'd', 'd', 'd', 'd', 'd'])) 4 operand (if hex then 4 else 5)
  | ADDR_ABSOLUTE_X =>
    memcpy (strcpy result (if hex then ['x', 'x', 'x', ' ', 'h', 'h', 'h', 'h', ',', 'X']
      else ['x', 'x', 'x', ' ', 'd', 'd', 'd', 'd', 'd', ',', 'X'])) 4 operand
      (if hex then 4 else 5)
  | ADDR_ABSOLUTE_Y =>
    memcpy (strcpy result (if hex then ['x', 'x', 'x', ' ', 'h', 'h', 'h', 'h', ',', 'Y']
      else ['x', 'x', 'x', ' ', 'd', 'd', 'd', 'd', 'd', ',', 'Y'])) 4 operand
      (if hex then 4 else 5)
  | ADDR_INDIRECT =>
    memcpy (strcpy result (if hex then ['x', 'x', 'x', ' ', '(', 'h', 'h', 'h', 'h', ')']
      else ['x', 'x', 'x', ' ', '(', 'd', 'd', 'd', 'd', 'd', ')'])) 5 operand
      (if hex then 4 else 5)
  | ADDR_INDIRECT_X =>
    memcpy (strcpy result (if hex then ['x', 'x', 'x', ' ', '(', 'h', 'h', ',', 'X', ')']
      else ['x', 'x', 'x', ' ', '(', 'd', 'd', 'd', ',', 'X', ')'])) 5 operand
      (if hex then 2 else 3)
  | ADDR_INDIRECT_Y =>
    memcpy (strcpy result (if hex then ['x', 'x', 'x', ' ', '(', 'h', 'h', ')', ',', 'Y']
      else ['x', 'x', 'x', ' ', '(', 'd', 'd', 'd', ')', ',', 'Y'])) 5 operand
      (if hex then 2 else 3)
  | ADDR_RELATIVE =>
    memcpy (strcpy result (if hex then ['x', 'x', 'x', ' ', 'h', 'h', 'h', 'h']
      else ['x', 'x', 'x', ' ', 'd', 'd', 'd', 'd', 'd'])) 4 operand (if hex then 4 else 5)

/-- Source: `template <bool hex> Debugger::disassembleInstr(const RecordedInstruction &,
long *len)`, with `static char result[16]`. Returns the array and the value stored to
`*len` for a non-null `len`. -/
def Debugger.disassembleInstrT (hex : Bool) (d : Debugger) (result : List Char)
    (instr : RecordedInstruction) : List Char × Int :=
  let opcode := instr.byte1
  let len := d.getLengthOfInstruction opcode
  let operand := d.convertOperand hex instr
  let result1 := d.fillPattern hex result operand instr
  (strncpy result1 (d.mnemonic opcode) 3, len)

/-- Source: `Debugger::disassembleInstr(const RecordedInstruction &instr, long *len)`. -/
def Debugger.disassembleInstr (d : Debugger) (result : List Char)
    (instr : RecordedInstruction) : List Char × Int :=
  if d.hex then d.disassembleInstrT true result instr
  else d.disassembleInstrT false result instr

/-- One of the three steps of `Debugger::disassembleBytes`, for the hexadecimal format:
`if (len >= k) { sprint8x(ptr, byte); ptr[2] = ' '; ptr += 3; }`. The state is the
array and the offset of `ptr`. -/
def Debugger.bytesStepX (len : Int) (k : Int) (byte : Nat) (st : List Char × Nat) :
    List Char × Nat :=
  if len ≥ k then ((sprint8x st.1 st.2 byte).set (st.2 + 2) ' ', st.2 + 3) else st

/-- One of the three steps of `Debugger::disassembleBytes`, for the decimal format:
`if (len >= k) { sprint8d(ptr, byte); ptr[3] = ' '; ptr += 4; }`. -/
def Debugger.bytesStepD (len : Int) (k : Int) (byte : Nat) (st : List Char × Nat) :
    List Char × Nat :=
  if len ≥ k then ((sprint8d st.1 st.2 byte).set (st.2 + 3) ' ', st.2 + 4) else st

/-- Source: `Debugger::disassembleBytes(const RecordedInstruction &instr)`, with
`static char result[13]`. -/
def Debugger.disassembleBytes (d : Debugger) (result : List Char)
    (instr : RecordedInstruction) : List Char :=
  let len := d.getLengthOfInstruction instr.byte1
  let st : List Char × Nat :=
    if d.hex then
      Debugger.bytesStepX len 3 instr.byte3
        (Debugger.bytesStepX len 2 instr.byte2
          (Debugger.bytesStepX len 1 instr.byte1 (result, 0)))
    else
      Debugger.bytesStepD len 3 instr.byte3
        (Debugger.bytesStepD len 2 instr.byte2
          (Debugger.bytesStepD len 1 instr.byte1 (result, 0)))
  st.1.set st.2 NUL

/-- Source: `Debugger::disassembleRecordedFlags(const RecordedInstruction &instr)`, with
`static char result[9]`. -/
def Debugger.disassembleRecordedFlags (result : List Char) (instr : RecordedInstruction) :
    List Char :=
  let r0 := result.set 0 (if instr.flags &&& N_FLAG ≠ 0 then 'N' else 'n')
  let r1 := r0.set 1 (if instr.flags &&& V_FLAG ≠ 0 then 'V' else 'v')
  let r2 := r1.set 2 '-'
  let r3 := r2.set 3 (if instr.flags &&& B_FLAG ≠ 0 then 'B' else 'b')
  let r4 := r3.set 4 (if instr.flags &&& D_FLAG ≠ 0 then 'D' else 'd')
  let r5 := r4.set 5 (if instr.flags &&& I_FLAG ≠ 0 then 'I' else 'i')
  let r6 := r5.set 6 (if instr.flags &&& Z_FLAG ≠ 0 then 'Z' else 'z')
  let r7 := r6.set 7 (if instr.flags &&& C_FLAG ≠ 0 then 'C' else 'c')
  r7.set 8 NUL

/-- The debugger whose mnemonics are cut to the three characters that
`strncpy(result, mnemonic[opcode], 3)` reads. -/
def Debugger.truncateMnemonics (d : Debugger) : Debugger :=
  { d with mnemonic := fun opcode => (d.mnemonic opcode).take 3 }

/-! ## Processor port (`Peddle.h`, lines 357 to 370) -/

/-- Source: `virtual u8 readPortDir() const { return reg.pport.direction; }`. -/
def Peddle.readPortDir (cpu : Peddle) : Nat := cpu.reg.pport.direction

/-- Source: `virtual void writePort(u8 val) { reg.pport.data = val; }`. -/
def Peddle.writePort (cpu : Peddle) (val : Nat) : Peddle :=
  { cpu with reg := { cpu.reg with pport := { cpu.reg.pport with data := val } } }

/-- Source: `virtual void writePortDir(u8 val) { reg.pport.direction = val; }`. -/
def Peddle.writePortDir (cpu : Peddle) (val : Nat) : Peddle :=
  { cpu with reg := { cpu.reg with pport := { cpu.reg.pport with direction := val } } }

/-! ## Sequences of calls and representation invariants -/

/-- The guard after it was evaluated at each address of `addrs`, in this order. -/
def Guard.evalAll (g : Guard) (addrs : List Nat) : Guard :=
  addrs.foldl (fun acc a => (acc.eval a).2) g

/-- The stored guards in the order of their numbers:
`guardWithNr(0), ..., guardWithNr(elements() - 1)`. -/
def Guards.stored (g : Guards) : List Guard :=
  (List.range g.elements).filterMap (fun (nr : Nat) => g.guardWithNr (nr : Int))

/-- Representation invariant of `Guards`: the array has `capacity` cells, at least one,
and `count` of them are in use. -/
def Guards.WellFormed (g : Guards) : Prop :=
  1 ≤ g.capacity ∧ g.guards.length = g.capacity ∧ g.count ≤ g.capacity

instance (g : Guards) : Decidable g.WellFormed := by
  unfold Guards.WellFormed
  infer_instance

/-- No address is guarded twice: the stored guards observe pairwise distinct addresses. -/
def Guards.DistinctAddrs (g : Guards) : Prop :=
  (g.stored.map (fun x => x.addr)).Nodup

/-- Guard collections that arise from the constructed one by the operations of `Guards`.
`setNeedsCheck` and the CPU state passed to an operation are arbitrary. -/
inductive Guards.Reachable : Guards → Prop
  | init : Guards.Reachable Guards.init
  | addAt (g : Guards) (snc : Peddle → Bool → Peddle) (cpu : Peddle) (addr : Nat)
      (skip : Int) : Guards.Reachable g → Guards.Reachable (g.addAt snc cpu addr skip).1
  | removeAt (g : Guards) (snc : Peddle → Bool → Peddle) (cpu : Peddle) (addr : Nat) :
      Guards.Reachable g → Guards.Reachable (g.removeAt snc cpu addr).1
  | remove (g : Guards) (snc : Peddle → Bool → Peddle) (cpu : Peddle) (nr : Int) :
      Guards.Reachable g → Guards.Reachable (g.remove snc cpu nr).1
  | removeAll (g : Guards) (snc : Peddle → Bool → Peddle) (cpu : Peddle) :
      Guards.Reachable g → Guards.Reachable (g.removeAll snc cpu).1
  | replace (g : Guards) (nr : Int) (addr : Nat) :
      Guards.Reachable g → Guards.Reachable (g.replace nr addr)
  | setEnable (g : Guards) (nr : Int) (val : Bool) :
      Guards.Reachable g → Guards.Reachable (g.setEnable nr val)
  | setEnableAt (g : Guards) (addr : Nat) (value : Bool) :
      Guards.Reachable g → Guards.Reachable (g.setEnableAt addr value)
  | eval (g : Guards) (addr : Nat) :
      Guards.Reachable g → Guards.Reachable (g.eval addr).2

/-! ## Check flags and calls of the debugger -/

/-- The test `flags & mask` of a state flag of the CPU. -/
def Peddle.flagSet (cpu : Peddle) (mask : Nat) : Bool := cpu.flags &&& mask != 0

/-- A call that changes the breakpoints, the watchpoints or the soft stop of the debugger
of a CPU. -/
inductive DebuggerCall
  | bpAddAt (addr : Nat) (skip : Int)
  | bpRemoveAt (addr : Nat)
  | bpRemove (nr : Int)
  | bpRemoveAll
  | bpReplace (nr : Int) (addr : Nat)
  | wpAddAt (addr : Nat) (skip : Int)
  | wpRemoveAt (addr : Nat)
  | wpRemove (nr : Int)
  | wpRemoveAll
  | wpReplace (nr : Int) (addr : Nat)
  | setSoftStop (addr : Nat)
  | breakpointMatches (addr : Nat)
  | reset
  deriving DecidableEq, Repr

/-- The debugger and the CPU state after one call: `debugger.breakpoints.addAt(addr, skip)`,
`debugger.breakpoints.removeAt(addr)`, ..., the same on `debugger.watchpoints`,
`debugger.setSoftStop(addr)`, `debugger.breakpointMatches(addr)` and `debugger.reset()`. -/
def Debugger.call (cfg : Config) (c : DebuggerCall) (s : Debugger × Peddle) :
    Debugger × Peddle :=
  match c with
  | DebuggerCall.bpAddAt addr skip =>
    let r := s.1.breakpoints.addAt (Breakpoints.setNeedsCheck cfg) s.2 addr skip
    ({ s.1 with breakpoints := r.1 }, r.2)
  | DebuggerCall.bpRemoveAt addr =>
    let r := s.1.breakpoints.removeAt (Breakpoints.setNeedsCheck cfg) s.2 addr
    ({ s.1 with breakpoints := r.1 }, r.2)
  | DebuggerCall.bpRemove nr =>
    let r := s.1.breakpoints.remove (Breakpoints.setNeedsCheck cfg) s.2 nr
    ({ s.1 with breakpoints := r.1 }, r.2)
  | DebuggerCall.bpRemoveAll =>
    let r := s.1.breakpoints.removeAll (Breakpoints.setNeedsCheck cfg) s.2
    ({ s.1 with breakpoints := r.1 }, r.2)
  | DebuggerCall.bpReplace nr addr =>
    ({ s.1 with breakpoints := s.1.breakpoints.replace nr addr }, s.2)
  | DebuggerCall.wpAddAt addr skip =>
    let r := s.1.watchpoints.addAt (Watchpoints.setNeedsCheck cfg) s.2 addr skip
    ({ s.1 with watchpoints := r.1 }, r.2)
  | DebuggerCall.wpRemoveAt addr =>
    let r := s.1.watchpoints.removeAt (Watchpoints.setNeedsCheck cfg) s.2 addr
    ({ s.1 with watchpoints := r.1 }, r.2)
  | DebuggerCall.wpRemove nr =>
    let r := s.1.watchpoints.remove (Watchpoints.setNeedsCheck cfg) s.2 nr
    ({ s.1 with watchpoints := r.1 }, r.2)
  | DebuggerCall.wpRemoveAll =>
    let r := s.1.watchpoints.removeAll (Watchpoints.setNeedsCheck cfg) s.2
    ({ s.1 with watchpoints := r.1 }, r.2)
  | DebuggerCall.wpReplace nr addr =>
    ({ s.1 with watchpoints := s.1.watchpoints.replace nr addr }, s.2)
  | DebuggerCall.setSoftStop addr => s.1.setSoftStop cfg s.2 addr
  | DebuggerCall.breakpointMatches addr => (s.1.breakpointMatches cfg s.2 addr).2
  | DebuggerCall.reset => s.1.reset cfg s.2

/-- The debugger and the CPU state after the calls of `cs`, made in this order. -/
def Debugger.calls (cfg : Config) (cs : List DebuggerCall) (s : Debugger × Peddle) :
    Debugger × Peddle :=
  cs.foldl (fun acc c => Debugger.call cfg c acc) s

/-- The calls that leave `softStop` as it is and act on the breakpoints or on both
collections: the operations on the breakpoints and `Debugger::reset`. -/
def DebuggerCall.keepsSoftStop : DebuggerCall → Bool
  | DebuggerCall.bpAddAt _ _ | DebuggerCall.bpRemoveAt _ | DebuggerCall.bpRemove _
  | DebuggerCall.bpRemoveAll | DebuggerCall.bpReplace _ _ | DebuggerCall.reset => true
  | _ => false

/-! ## Execution of instructions (`Peddle.h`, lines 219 to 243, and `main.cpp`) -/

/-- Source: `u8 read(u16 addr) override { return ram[addr]; }` of `main.cpp`. -/
def CPU.read (cpu : Peddle) (addr : Nat) : Nat := cpu.mem (addr % 65536)

/-- Modelled from the spec: a read cycle of the engine, whose code is not among the
sources. All memory traffic goes through the callbacks of the host; the model is the
constructed one (`cpuModel = MOS_6510`, which `main.cpp` keeps), so reads of `$0000`
return the direction register and reads of `$0001` return
`(data & direction) | (externalPortBits() & ~direction)`, where `externalPortBits()`
returns 0 (`Peddle.h`, line 370). -/
def Peddle.busRead (cpu : Peddle) (addr : Nat) : Nat :=
  if addr % 65536 = 0 then cpu.reg.pport.direction % 256
  else if addr % 65536 = 1 then
    ((cpu.reg.pport.data &&& cpu.reg.pport.direction) |||
      (0 &&& (255 - cpu.reg.pport.direction % 256))) % 256
  else CPU.read cpu addr

/-- Modelled from the spec: `Peddle::reset` is declared in `Peddle.h`, its body is not
among the sources. The reset sequence loads PCL from `$FFFC` and PCH from `$FFFD`;
afterwards `I = 1`, `D = 0`, `B = 1`, SP is its prior value decremented by 3, and A, X, Y
and the remaining flags are unchanged. The CPU is in the fetch phase afterwards and the
next instruction is the one at the reset vector; PC0 is loaded like PC, so that the test
`ram[cpu.getPC0()]`, which `main` makes right after `reset()`, reads the opcode of this
instruction. The cycle counter is not modelled. -/
def Peddle.reset (cpu : Peddle) : Peddle :=
  let vector := cpu.busRead 65532 + 256 * cpu.busRead 65533
  { cpu with reg := { cpu.reg with
      pc := vector
      pc0 := vector
      sp := (cpu.reg.sp + 253) % 256
      sr := { cpu.reg.sr with
        i := true
        d := false
        b := true } } }

/-- The digit a character of `0-9` or `A-F` stands for. -/
def digitValue (c : Char) : Option Nat :=
  if 48 ≤ c.toNat ∧ c.toNat ≤ 57 then some (c.toNat - 48)
  else if 65 ≤ c.toNat ∧ c.toNat ≤ 70 then some (c.toNat - 55)
  else none

/-- The number that the numeral `cs` denotes in base `base`, read from the left, with
the value `acc` of the digits read so far; `none` if a character is not a digit of the
base. -/
def numeralValueFrom (base : Nat) : Nat → List Char → Option Nat
  | acc, [] => some acc
  | acc, c :: cs =>
    match digitValue c with
    | some v => if v < base then numeralValueFrom base (acc * base + v) cs else none
    | none => none

/-- The number that the numeral `cs` denotes in base `base`. -/
def numeralValue (base : Nat) (cs : List Char) : Option Nat := numeralValueFrom base 0 cs

/-- What precedes the digits of the operand in 6502 syntax. -/
def operandPrefix : AddressingMode → List Char
  | ADDR_IMMEDIATE => ['#']
  | ADDR_INDIRECT | ADDR_INDIRECT_X | ADDR_INDIRECT_Y => ['(']
  | _ => []

/-- What follows the digits of the operand in 6502 syntax. -/
def operandSuffix : AddressingMode → List Char
  | ADDR_ZERO_PAGE_X | ADDR_ABSOLUTE_X => [',', 'X']
  | ADDR_ZERO_PAGE_Y | ADDR_ABSOLUTE_Y => [',', 'Y']
  | ADDR_INDIRECT => [')']
  | ADDR_INDIRECT_X => [',', 'X', ')']
  | ADDR_INDIRECT_Y => [')', ',', 'Y']
  | _ => []

/-- Number of characters the operand of an instruction is printed with: the number of
digits that `disassembleInstr` copies from the operand array. -/
def operandWidth (hex : Bool) : AddressingMode → Nat
  | ADDR_IMPLIED | ADDR_ACCUMULATOR => 0
  | ADDR_IMMEDIATE | ADDR_ZERO_PAGE | ADDR_ZERO_PAGE_X | ADDR_ZERO_PAGE_Y
  | ADDR_INDIRECT_X | ADDR_INDIRECT_Y => if hex then 2 else 3
  | _ => if hex then 4 else 5

/-! ## Concrete inputs used to instantiate the theorems -/

/-- A configuration with a log of three entries. -/
def exampleConfig : Config :=
  { LOG_BUFFER_CAPACITY := 3, CPU_LOG_INSTRUCTION := 1, CPU_CHECK_BP := 2, CPU_CHECK_WP := 4 }

/-- Memory holding the first bytes of the sample program of `main.cpp` at `0x600`:
`LDX #$01`, `STX $0200`. -/
def exampleMem (a : Nat) : Nat :=
  if a = 1536 then 162 else if a = 1537 then 1 else if a = 1538 then 142 else
  if a = 1539 then 0 else if a = 1540 then 2 else 0

/-- A CPU state at clock `n` whose current instruction starts at `0x600 + n`. -/
def exampleCpu (n : Nat) : Peddle :=
  { clock := n
    flags := 0
    reg := { pc := 1536 + n + 1, pc0 := 1536 + n, sp := 253, a := n, x := 0, y := 0,
             sr := { n := false, v := false, b := true, d := false, i := true,
                     z := false, c := false },
             pport := { data := 0, direction := 0 } }
    mem := exampleMem }

/-- Instruction table knowing `LDX #` (0xA2) and `STX abs` (0x8E); all other opcodes
count as implied. -/
def exampleModes (opcode : Nat) : AddressingMode :=
  if opcode = 162 then ADDR_IMMEDIATE else if opcode = 142 then ADDR_ABSOLUTE
  else ADDR_IMPLIED

/-- A debugger as constructed, with an empty log of three entries. -/
def exampleDebugger : Debugger :=
  { logBuffer := [default, default, default]
    breakpoints := Guards.init
    watchpoints := Guards.init
    breakpointPC := -1
    watchpointPC := -1
    logCnt := 0
    softStop := UINT64_MAX - 1
    hex := true
    mnemonic := fun _ => []
    addressingMode := exampleModes }

/-- Five CPU states, logged one after the other. -/
def exampleRun : List Peddle :=
  [exampleCpu 0, exampleCpu 2, exampleCpu 5, exampleCpu 8, exampleCpu 9]

/-- A guard at `0x609` that skips two hits. -/
def exampleGuard : Guard := { addr := 1545, enabled := true, hits := 0, skip := 2 }

/-- A disabled guard at `0x609`. -/
def exampleDisabledGuard : Guard := { addr := 1545, enabled := false, hits := 1, skip := 0 }

/-- The breakpoint collection after three calls of `addAt` on the constructed one. -/
def exampleGuards : Guards :=
  (((Guards.init.addAt (Breakpoints.setNeedsCheck exampleConfig) (exampleCpu 0) 1545 2).1.addAt
    (Breakpoints.setNeedsCheck exampleConfig) (exampleCpu 0) 1538 0).1.addAt
    (Breakpoints.setNeedsCheck exampleConfig) (exampleCpu 0) 1541 1).1

/-- A collection whose array is full, so that the next `addAt` regrows it. -/
def exampleFullGuards : Guards :=
  { capacity := 2
    guards := [{ addr := 1545, enabled := true, hits := 0, skip := 2 },
               { addr := 1538, enabled := false, hits := 3, skip := 0 }]
    count := 2 }

/-- A debugger with breakpoints and a soft stop at `0x609` (step over). -/
def exampleStepOver : Debugger :=
  { exampleDebugger with breakpoints := exampleGuards, softStop := 1545 }

/-- A debugger with breakpoints and the soft stop `UINT64_MAX` (step into). -/
def exampleStepInto : Debugger :=
  { exampleDebugger with breakpoints := exampleGuards, softStop := UINT64_MAX }

/-- Addressing modes of the opcodes of the sample program of `main.cpp`. -/
def sampleModes (opcode : Nat) : AddressingMode :=
  if opcode = 162 ∨ opcode = 224 then ADDR_IMMEDIATE
  else if opcode = 142 then ADDR_ABSOLUTE
  else if opcode = 189 ∨ opcode = 125 ∨ opcode = 157 then ADDR_ABSOLUTE_X
  else if opcode = 208 ∨ opcode = 240 then ADDR_RELATIVE
  else ADDR_IMPLIED

/-- Mnemonics of the opcodes of the sample program of `main.cpp`. -/
def sampleMnemonics (opcode : Nat) : List Char :=
  if opcode = 162 then ['L', 'D', 'X']
  else if opcode = 224 then ['C', 'P', 'X']
  else if opcode = 142 then ['S', 'T', 'X']
  else if opcode = 189 then ['L', 'D', 'A']
  else if opcode = 125 then ['A', 'D', 'C']
  else if opcode = 157 then ['S', 'T', 'A']
  else if opcode = 208 then ['B', 'N', 'E']
  else if opcode = 240 then ['B', 'E', 'Q']
  else if opcode = 202 then ['D', 'E', 'X']
  else if opcode = 232 then ['I', 'N', 'X']
  else ['B', 'R', 'K']

/-- A debugger with the instruction tables of the sample program, printing hexadecimal
numbers. -/
def sampleDebugger : Debugger :=
  { exampleDebugger with mnemonic := sampleMnemonics, addressingMode := sampleModes }

/-- The same debugger printing decimal numbers. -/
def sampleDebuggerDec : Debugger :=
  { sampleDebugger with hex := false }

/-- The debugger of the sample program after `registerInstruction(0xA2, "LX",
ADDR_IMMEDIATE)` and `registerInstruction(0xD0, "J", ADDR_RELATIVE)`: two opcodes with
mnemonics of less than three characters. -/
def shortMnemonics : Debugger :=
  (sampleDebugger.registerInstruction 162 ['L', 'X'] ADDR_IMMEDIATE).registerInstruction
    208 ['J'] ADDR_RELATIVE

/-- The debugger of the sample program, printing hexadecimal numbers, after
`registerInstruction(0x8E, "STX*", ADDR_ABSOLUTE)` and
`registerInstruction(0xD0, "BNE*", ADDR_RELATIVE)`: two opcodes with mnemonics of four
characters. -/
def longMnemonics : Debugger :=
  (sampleDebugger.registerInstruction 142 ['S', 'T', 'X', '*'] ADDR_ABSOLUTE).registerInstruction
    208 ['B', 'N', 'E', '*'] ADDR_RELATIVE

/-- A record with the given program counter and instruction bytes. -/
def sampleRecord (pc byte1 byte2 byte3 : Nat) : RecordedInstruction :=
  { cycle := 0, pc := pc, sp := 253, byte1 := byte1, byte2 := byte2, byte3 := byte3,
    a := 0, x := 0, y := 0, flags := 52 }

/-- Content of `static char result[16]` left behind by an earlier call. -/
def sampleResult16 : List Char :=
  ['S', 'T', 'A', ' ', '0', '2', '0', '2', ',', 'X', NUL, NUL, NUL, NUL, NUL, NUL]

/-- Content of `static char result[13]` before the first call. -/
def sampleResult13 : List Char := List.replicate 13 NUL

/-- Content of `static char result[9]` before the first call. -/
def sampleResult9 : List Char := List.replicate 9 NUL

/-- Content of `static char result[6]` before the first call. -/
def sampleResult6 : List Char := List.replicate 6 NUL

/-- The breakpoint collection after one call of `addAt` on the constructed one: its
array of one cell is full. -/
def exampleOneGuard : Guards :=
  (Guards.init.addAt (Breakpoints.setNeedsCheck exampleConfig) (exampleCpu 0) 1545 2).1

theorem wrapLong_of_range (x : Int) (h1 : -2 ^ 63 ≤ x) (h2 : x < 2 ^ 63) : wrapLong x = x := by
  unfold wrapLong
  omega

theorem readAt_natCast {α : Type} (arr : List α) (i : Nat) : readAt arr (i : Int) = arr[i]? := by
  simp [readAt]

theorem writeAt_natCast {α : Type} (arr : List α) (i : Nat) (v : α) :
    writeAt arr (i : Int) v = arr.set i v := by
  simp [writeAt]

theorem tmod_natCast (a b : Nat) : Int.tmod (a : Int) (b : Int) = ((a % b : Nat) : Int) := by
  rw [Int.tmod_eq_emod (Int.ofNat_nonneg a) (Int.ofNat_nonneg b)]
  norm_cast

/-! ## Instruction log: facts about single calls -/

theorem recordedInstruction_congr (d d1 : Debugger) (cpu : Peddle)
    (h : d1.addressingMode = d.addressingMode) :
    d1.recordedInstruction cpu = d.recordedInstruction cpu := by
  simp [Debugger.recordedInstruction, Debugger.getLengthOfInstruction, h]

theorem logAll_nil (cfg : Config) (d : Debugger) : d.logAll cfg [] = d := rfl

theorem logAll_snoc (cfg : Config) (d : Debugger) (cs : List Peddle) (c : Peddle) :
    d.logAll cfg (cs ++ [c]) = ((d.logAll cfg cs).logInstruction cfg c).1 := by
  simp [Debugger.logAll, List.foldl_append]

theorem logInstruction_natCast (cfg : Config) (d : Debugger) (cpu : Peddle) (n : Nat)
    (hn : d.logCnt = (n : Int)) (hlt : (n : Int) + 1 < 2 ^ 63) :
    (d.logInstruction cfg cpu).1.logCnt = ((n + 1 : Nat) : Int) ∧
    (d.logInstruction cfg cpu).1.logBuffer =
      d.logBuffer.set (n % cfg.LOG_BUFFER_CAPACITY) (d.recordedInstruction cpu) ∧
    (d.logInstruction cfg cpu).1.addressingMode = d.addressingMode := by
  refine ⟨?_, ?_, rfl⟩
  · simp only [Debugger.logInstruction, hn]
    rw [wrapLong_of_range _ (by omega) (by omega)]
    push_cast
    rfl
  · simp only [Debugger.logInstruction, hn, tmod_natCast, writeAt_natCast]

/-- State of the log after the instructions of `cs` were logged into an empty log: the
counter is the number of calls, and the slot `j % capacity` holds the record of call
`j` as long as fewer than `capacity` calls followed it. -/
theorem logAll_state (cfg : Config) (d0 : Debugger) (cs : List Peddle)
    (hcap : 0 < cfg.LOG_BUFFER_CAPACITY)
    (hlen : d0.logBuffer.length = cfg.LOG_BUFFER_CAPACITY)
    (h0 : d0.logCnt = 0) (hn : (cs.length : Int) < 2 ^ 63) :
    (d0.logAll cfg cs).logCnt = (cs.length : Int) ∧
    (d0.logAll cfg cs).logBuffer.length = cfg.LOG_BUFFER_CAPACITY ∧
    (d0.logAll cfg cs).addressingMode = d0.addressingMode ∧
    ∀ (j : Nat) (c : Peddle), cs[j]? = some c → cs.length ≤ j + cfg.LOG_BUFFER_CAPACITY →
      (d0.logAll cfg cs).logBuffer[j % cfg.LOG_BUFFER_CAPACITY]? =
        some (d0.recordedInstruction c) := by
  induction cs using List.reverseRecOn with
  | nil => simp [logAll_nil, h0, hlen]
  | append_singleton cs c ih =>
    have hn1 : (cs.length : Int) + 1 < 2 ^ 63 := by
      simp only [List.length_append, List.length_singleton] at hn
      push_cast at hn
      exact hn
    obtain ⟨ihc, ihl, iha, ihb⟩ := ih (by omega)
    obtain ⟨sc, sb, sa⟩ := logInstruction_natCast cfg (d0.logAll cfg cs) c cs.length ihc hn1
    rw [logAll_snoc]
    refine ⟨?_, ?_, ?_, ?_⟩
    · rw [sc]; simp
    · rw [sb, List.length_set, ihl]
    · rw [sa, iha]
    · intro j r hj hwin
      rw [sb, recordedInstruction_congr d0 _ c iha]
      simp only [List.length_append, List.length_singleton] at hwin
      rcases Nat.lt_or_ge j cs.length with hlt | hge
      · rw [List.getElem?_append_left hlt] at hj
        have hne : cs.length % cfg.LOG_BUFFER_CAPACITY ≠ j % cfg.LOG_BUFFER_CAPACITY := by
          intro heq
          have h1 : (cs.length - j) % cfg.LOG_BUFFER_CAPACITY = 0 :=
            Nat.sub_mod_eq_zero_of_mod_eq heq
          have h2 : cfg.LOG_BUFFER_CAPACITY ∣ cs.length - j := Nat.dvd_of_mod_eq_zero h1
          have h3 := Nat.le_of_dvd (by omega) h2
          omega
        rw [List.getElem?_set_ne hne]
        exact ihb j r hj (by omega)
      · have hjl : j < (cs ++ [c]).length := by
          by_contra hcon
          rw [List.getElem?_eq_none (by omega)] at hj
          exact absurd hj (by simp)
        simp only [List.length_append, List.length_singleton] at hjl
        have hje : j = cs.length := by omega
        subst hje
        simp at hj
        subst hj
        rw [List.getElem?_set_self]
        rw [ihl]
        exact Nat.mod_lt _ hcap
theorem loggedInstructions_natCast (cfg : Config) (d : Debugger) (n : Nat)
    (hn : d.logCnt = (n : Int)) :
    d.loggedInstructions cfg = ((min n cfg.LOG_BUFFER_CAPACITY : Nat) : Int) := by
  unfold Debugger.loggedInstructions
  rw [hn]
  split <;> rename_i h <;> norm_cast at h ⊢ <;> omega

theorem logSlot_natCast (cfg : Config) (d : Debugger) (n k : Nat)
    (hn : d.logCnt = (n : Int)) (hlt : (n : Int) < 2 ^ 63) (hk : k < n) :
    Int.tmod (wrapLong (d.logCnt - 1 - (k : Int))) cfg.LOG_BUFFER_CAPACITY =
      (((n - 1 - k) % cfg.LOG_BUFFER_CAPACITY : Nat) : Int) := by
  have h1 : d.logCnt - 1 - (k : Int) = ((n - 1 - k : Nat) : Int) := by
    rw [hn]; omega
  rw [h1, wrapLong_of_range _ (by omega) (by omega), tmod_natCast]

/-- Reading relative to the newest entry, after `cs` was logged into an empty log. -/
theorem logEntryRel_logAll_aux (cfg : Config) (d0 : Debugger) (cs : List Peddle) (k : Nat)
    (c : Peddle) (hcap : 0 < cfg.LOG_BUFFER_CAPACITY)
    (hlen : d0.logBuffer.length = cfg.LOG_BUFFER_CAPACITY)
    (h0 : d0.logCnt = 0) (hn : (cs.length : Int) < 2 ^ 63)
    (hk : k < min cs.length cfg.LOG_BUFFER_CAPACITY)
    (hc : cs[cs.length - 1 - k]? = some c) :
    (d0.logAll cfg cs).logEntryRel cfg (k : Int) = some (d0.recordedInstruction c) ∧
    (d0.logAll cfg cs).loggedPC0Rel cfg (k : Int) = some (d0.recordedInstruction c).pc := by
  obtain ⟨hcnt, _, _, hbuf⟩ := logAll_state cfg d0 cs hcap hlen h0 hn
  have hkn : k < cs.length := by omega
  have hslot := logSlot_natCast cfg (d0.logAll cfg cs) cs.length k hcnt hn hkn
  have hcond : (k : Int) < (d0.logAll cfg cs).loggedInstructions cfg := by
    rw [loggedInstructions_natCast cfg _ cs.length hcnt]
    exact_mod_cast hk
  have hread := hbuf (cs.length - 1 - k) c hc (by omega)
  constructor
  · unfold Debugger.logEntryRel
    rw [if_pos hcond, hslot, readAt_natCast, hread]
  · unfold Debugger.loggedPC0Rel
    rw [if_pos hcond, hslot, readAt_natCast, hread]
    rfl

/-- Reading relative to the oldest entry, after `cs` was logged into an empty log. -/
theorem logEntryAbs_logAll_aux (cfg : Config) (d0 : Debugger) (cs : List Peddle) (k : Nat)
    (c : Peddle) (hcap : 0 < cfg.LOG_BUFFER_CAPACITY)
    (hlen : d0.logBuffer.length = cfg.LOG_BUFFER_CAPACITY)
    (h0 : d0.logCnt = 0) (hn : (cs.length : Int) < 2 ^ 63)
    (hk : k < min cs.length cfg.LOG_BUFFER_CAPACITY)
    (hc : cs[cs.length - min cs.length cfg.LOG_BUFFER_CAPACITY + k]? = some c) :
    (d0.logAll cfg cs).logEntryAbs cfg (k : Int) = some (d0.recordedInstruction c) ∧
    (d0.logAll cfg cs).loggedPC0Abs cfg (k : Int) = some (d0.recordedInstruction c).pc ∧
    (d0.logAll cfg cs).logEntryAbs cfg (k : Int) =
      (d0.logAll cfg cs).logEntryRel cfg
        (((min cs.length cfg.LOG_BUFFER_CAPACITY - 1 - k : Nat)) : Int) := by
  obtain ⟨hcnt, _, _, _⟩ := logAll_state cfg d0 cs hcap hlen h0 hn
  have hm := loggedInstructions_natCast cfg _ cs.length hcnt
  have hcond : (k : Int) < (d0.logAll cfg cs).loggedInstructions cfg := by
    rw [hm]
    exact_mod_cast hk
  have hidx : wrapLong ((d0.logAll cfg cs).loggedInstructions cfg - (k : Int) - 1) =
      ((min cs.length cfg.LOG_BUFFER_CAPACITY - 1 - k : Nat) : Int) := by
    rw [hm, wrapLong_of_range _ (by omega) (by omega)]
    omega
  have hc1 : cs[cs.length - 1 - (min cs.length cfg.LOG_BUFFER_CAPACITY - 1 - k)]? = some c := by
    have : cs.length - 1 - (min cs.length cfg.LOG_BUFFER_CAPACITY - 1 - k) =
        cs.length - min cs.length cfg.LOG_BUFFER_CAPACITY + k := by omega
    rw [this]; exact hc
  obtain ⟨hrel, hpc⟩ := logEntryRel_logAll_aux cfg d0 cs
    (min cs.length cfg.LOG_BUFFER_CAPACITY - 1 - k) c hcap hlen h0 hn (by omega) hc1
  refine ⟨?_, ?_, ?_⟩
  · unfold Debugger.logEntryAbs
    rw [if_pos hcond, hidx, hrel]
  · unfold Debugger.loggedPC0Abs
    rw [if_pos hcond, hidx, hpc]
  · unfold Debugger.logEntryAbs
    rw [if_pos hcond, hidx]
theorem logAll_logCnt (cfg : Config) (d0 : Debugger) (cs : List Peddle)
    (h0 : d0.logCnt = 0) (hn : (cs.length : Int) < 2 ^ 63) :
    (d0.logAll cfg cs).logCnt = (cs.length : Int) := by
  induction cs using List.reverseRecOn with
  | nil => simp [logAll_nil, h0]
  | append_singleton cs c ih =>
    have hn1 : (cs.length : Int) + 1 < 2 ^ 63 := by
      simp only [List.length_append, List.length_singleton] at hn
      push_cast at hn
      exact hn
    rw [logAll_snoc, (logInstruction_natCast cfg _ c cs.length (ih (by omega)) hn1).1]
    simp

/-! ## Instruction log: the claims -/

/-- C1: starting from an empty log (`logCnt = 0`), after the calls of `logInstruction`
for the CPU states `cs = [c_1, ..., c_n]` (fewer than `2 ^ 63`, the range of `isize`),
`logEntryRel k` returns for every `k < min n LOG_BUFFER_CAPACITY` the record written by
call `n - k`, so index 0 is the most recently recorded entry. Once the log is full
(`n ≥ LOG_BUFFER_CAPACITY`), a further call writes exactly one slot, the one that held the
oldest retained entry `logEntryAbs 0`, and leaves all other slots as they are. -/
theorem logEntryRel_most_recent_first (cfg : Config) (d0 : Debugger) (cs : List Peddle)
    (k : Nat) (hcap : 0 < cfg.LOG_BUFFER_CAPACITY)
    (hlen : d0.logBuffer.length = cfg.LOG_BUFFER_CAPACITY)
    (h0 : d0.logCnt = 0) (hn : (cs.length : Int) < 2 ^ 63)
    (hk : k < min cs.length cfg.LOG_BUFFER_CAPACITY) :
    (∃ c, cs[cs.length - 1 - k]? = some c ∧
      (d0.logAll cfg cs).logEntryRel cfg (k : Int) = some (d0.recordedInstruction c)) ∧
    (∀ c : Peddle, cfg.LOG_BUFFER_CAPACITY ≤ cs.length → (cs.length : Int) + 1 < 2 ^ 63 →
      ∃ old slot, cs[cs.length - cfg.LOG_BUFFER_CAPACITY]? = some old ∧
        (d0.logAll cfg cs).logEntryAbs cfg 0 = some (d0.recordedInstruction old) ∧
        (d0.logAll cfg cs).logBuffer[slot]? = some (d0.recordedInstruction old) ∧
        (d0.logAll cfg (cs ++ [c])).logBuffer =
          (d0.logAll cfg cs).logBuffer.set slot (d0.recordedInstruction c)) := by
  constructor
  · have hidx : cs.length - 1 - k < cs.length := by omega
    exact ⟨cs[cs.length - 1 - k], List.getElem?_eq_getElem hidx,
      (logEntryRel_logAll_aux cfg d0 cs k _ hcap hlen h0 hn hk
        (List.getElem?_eq_getElem hidx)).1⟩
  · intro c hfull hn1
    obtain ⟨hcnt, _, hmode, hbuf⟩ := logAll_state cfg d0 cs hcap hlen h0 hn
    have hidx : cs.length - cfg.LOG_BUFFER_CAPACITY < cs.length := by omega
    have hold := List.getElem?_eq_getElem hidx
    have hmin : min cs.length cfg.LOG_BUFFER_CAPACITY = cfg.LOG_BUFFER_CAPACITY := by omega
    have habs := (logEntryAbs_logAll_aux cfg d0 cs 0 _ hcap hlen h0 hn (by omega)
      (by rw [hmin, Nat.add_zero]; exact hold)).1
    obtain ⟨_, sb, _⟩ := logInstruction_natCast cfg (d0.logAll cfg cs) c cs.length hcnt hn1
    refine ⟨cs[cs.length - cfg.LOG_BUFFER_CAPACITY], cs.length % cfg.LOG_BUFFER_CAPACITY,
      hold, ?_, ?_, ?_⟩
    · exact_mod_cast habs
    · have h := hbuf (cs.length - cfg.LOG_BUFFER_CAPACITY) _ hold (by omega)
      have hmod : (cs.length - cfg.LOG_BUFFER_CAPACITY) % cfg.LOG_BUFFER_CAPACITY =
          cs.length % cfg.LOG_BUFFER_CAPACITY := by
        conv_rhs => rw [← Nat.sub_add_cancel hfull]
        rw [Nat.add_mod_right]
      rw [← hmod]
      exact h
    · rw [logAll_snoc, sb, recordedInstruction_congr d0 _ c hmode]

theorem logEntryRel_most_recent_first_witness :
    (0 < exampleConfig.LOG_BUFFER_CAPACITY ∧
      exampleDebugger.logBuffer.length = exampleConfig.LOG_BUFFER_CAPACITY ∧
      exampleDebugger.logCnt = 0 ∧ (exampleRun.length : Int) < 2 ^ 63 ∧
      2 < min exampleRun.length exampleConfig.LOG_BUFFER_CAPACITY) ∧
    ((∃ c, exampleRun[exampleRun.length - 1 - 2]? = some c ∧
      (exampleDebugger.logAll exampleConfig exampleRun).logEntryRel exampleConfig
        ((2 : Nat) : Int) = some (exampleDebugger.recordedInstruction c)) ∧
    (∀ c : Peddle, exampleConfig.LOG_BUFFER_CAPACITY ≤ exampleRun.length →
      (exampleRun.length : Int) + 1 < 2 ^ 63 →
      ∃ old slot, exampleRun[exampleRun.length - exampleConfig.LOG_BUFFER_CAPACITY]? = some old ∧
        (exampleDebugger.logAll exampleConfig exampleRun).logEntryAbs exampleConfig 0 =
          some (exampleDebugger.recordedInstruction old) ∧
        (exampleDebugger.logAll exampleConfig exampleRun).logBuffer[slot]? =
          some (exampleDebugger.recordedInstruction old) ∧
        (exampleDebugger.logAll exampleConfig (exampleRun ++ [c])).logBuffer =
          (exampleDebugger.logAll exampleConfig exampleRun).logBuffer.set slot
            (exampleDebugger.recordedInstruction c))) :=
  ⟨⟨by decide, rfl, rfl, by decide, by decide⟩,
    logEntryRel_most_recent_first exampleConfig exampleDebugger exampleRun 2
      (by decide) rfl rfl (by decide) (by decide)⟩

/-- C2: starting from an empty log, after `n` calls of `logInstruction` (with `n` below
`2 ^ 63`, the range of `isize`) `loggedInstructions` returns `min n LOG_BUFFER_CAPACITY`,
which is at most the capacity, while the counter `logCnt` itself is `n`. -/
theorem loggedInstructions_eq_min (cfg : Config) (d0 : Debugger) (cs : List Peddle)
    (h0 : d0.logCnt = 0) (hn : (cs.length : Int) < 2 ^ 63) :
    (d0.logAll cfg cs).loggedInstructions cfg =
      ((min cs.length cfg.LOG_BUFFER_CAPACITY : Nat) : Int) ∧
    (d0.logAll cfg cs).loggedInstructions cfg ≤ (cfg.LOG_BUFFER_CAPACITY : Int) ∧
    (d0.logAll cfg cs).logCnt = (cs.length : Int) := by
  have hcnt := logAll_logCnt cfg d0 cs h0 hn
  have hm := loggedInstructions_natCast cfg _ cs.length hcnt
  refine ⟨hm, ?_, hcnt⟩
  rw [hm]
  exact_mod_cast Nat.min_le_right _ _

theorem loggedInstructions_eq_min_witness :
    (exampleDebugger.logCnt = 0 ∧ (exampleRun.length : Int) < 2 ^ 63) ∧
    ((exampleDebugger.logAll exampleConfig exampleRun).loggedInstructions exampleConfig =
      ((min exampleRun.length exampleConfig.LOG_BUFFER_CAPACITY : Nat) : Int) ∧
    (exampleDebugger.logAll exampleConfig exampleRun).loggedInstructions exampleConfig ≤
      (exampleConfig.LOG_BUFFER_CAPACITY : Int) ∧
    (exampleDebugger.logAll exampleConfig exampleRun).logCnt = (exampleRun.length : Int)) :=
  ⟨⟨rfl, by decide⟩,
    loggedInstructions_eq_min exampleConfig exampleDebugger exampleRun rfl (by decide)⟩

/-- C3: let `m = loggedInstructions()` after the calls of `logInstruction` for
`cs = [c_1, ..., c_n]` into an empty log. For every `k < m`, `logEntryAbs k` returns the
record of call `n - m + 1 + k` (so `logEntryAbs 0` is the oldest retained entry and the
entries follow in the order they were logged), `logEntryAbs k = logEntryRel (m - 1 - k)`,
and `loggedPC0Abs k` and `loggedPC0Rel k` return the `pc` member of the records that
`logEntryAbs k` and `logEntryRel k` return. -/
theorem logEntryAbs_oldest_first (cfg : Config) (d0 : Debugger) (cs : List Peddle) (k : Nat)
    (hcap : 0 < cfg.LOG_BUFFER_CAPACITY)
    (hlen : d0.logBuffer.length = cfg.LOG_BUFFER_CAPACITY)
    (h0 : d0.logCnt = 0) (hn : (cs.length : Int) < 2 ^ 63)
    (hk : (k : Int) < (d0.logAll cfg cs).loggedInstructions cfg) :
    ∃ c r,
      cs[cs.length - ((d0.logAll cfg cs).loggedInstructions cfg).toNat + k]? = some c ∧
      (d0.logAll cfg cs).logEntryAbs cfg (k : Int) = some (d0.recordedInstruction c) ∧
      (d0.logAll cfg cs).logEntryAbs cfg (k : Int) =
        (d0.logAll cfg cs).logEntryRel cfg
          ((d0.logAll cfg cs).loggedInstructions cfg - 1 - (k : Int)) ∧
      (d0.logAll cfg cs).loggedPC0Abs cfg (k : Int) = some (d0.recordedInstruction c).pc ∧
      (d0.logAll cfg cs).logEntryRel cfg (k : Int) = some r ∧
      (d0.logAll cfg cs).loggedPC0Rel cfg (k : Int) = some r.pc := by
  have hm := loggedInstructions_natCast cfg _ cs.length (logAll_logCnt cfg d0 cs h0 hn)
  rw [hm] at hk ⊢
  have hk1 : k < min cs.length cfg.LOG_BUFFER_CAPACITY := by exact_mod_cast hk
  rw [Int.toNat_ofNat]
  have hidx : cs.length - min cs.length cfg.LOG_BUFFER_CAPACITY + k < cs.length := by omega
  have hidx2 : cs.length - 1 - k < cs.length := by omega
  obtain ⟨ha, hb, hc⟩ := logEntryAbs_logAll_aux cfg d0 cs k _ hcap hlen h0 hn hk1
    (List.getElem?_eq_getElem hidx)
  obtain ⟨hd, he⟩ := logEntryRel_logAll_aux cfg d0 cs k _ hcap hlen h0 hn hk1
    (List.getElem?_eq_getElem hidx2)
  refine ⟨_, _, List.getElem?_eq_getElem hidx, ha, ?_, hb, hd, he⟩
  rw [hc]
  congr 1
  omega

theorem logEntryAbs_oldest_first_witness :
    (0 < exampleConfig.LOG_BUFFER_CAPACITY ∧
      exampleDebugger.logBuffer.length = exampleConfig.LOG_BUFFER_CAPACITY ∧
      exampleDebugger.logCnt = 0 ∧ (exampleRun.length : Int) < 2 ^ 63 ∧
      ((1 : Nat) : Int) <
        (exampleDebugger.logAll exampleConfig exampleRun).loggedInstructions exampleConfig) ∧
    ∃ c r,
      exampleRun[exampleRun.length -
        ((exampleDebugger.logAll exampleConfig exampleRun).loggedInstructions
          exampleConfig).toNat + 1]? = some c ∧
      (exampleDebugger.logAll exampleConfig exampleRun).logEntryAbs exampleConfig
        ((1 : Nat) : Int) = some (exampleDebugger.recordedInstruction c) ∧
      (exampleDebugger.logAll exampleConfig exampleRun).logEntryAbs exampleConfig
        ((1 : Nat) : Int) =
        (exampleDebugger.logAll exampleConfig exampleRun).logEntryRel exampleConfig
          ((exampleDebugger.logAll exampleConfig exampleRun).loggedInstructions exampleConfig
            - 1 - ((1 : Nat) : Int)) ∧
      (exampleDebugger.logAll exampleConfig exampleRun).loggedPC0Abs exampleConfig
        ((1 : Nat) : Int) = some (exampleDebugger.recordedInstruction c).pc ∧
      (exampleDebugger.logAll exampleConfig exampleRun).logEntryRel exampleConfig
        ((1 : Nat) : Int) = some r ∧
      (exampleDebugger.logAll exampleConfig exampleRun).loggedPC0Rel exampleConfig
        ((1 : Nat) : Int) = some r.pc :=
  ⟨⟨by decide, rfl, rfl, by decide, by decide⟩,
    logEntryAbs_oldest_first exampleConfig exampleDebugger exampleRun 1
      (by decide) rfl rfl (by decide) (by decide)⟩

/-- C4: `logInstruction` stores in the slot `logCnt % LOG_BUFFER_CAPACITY` it writes a
record holding the current clock, PC0, SP, A, X, Y, the packed P byte, `byte1` = the
opcode at PC0, `byte2` = the memory byte at PC0 + 1 if the instruction length is at
least 2 and 0 otherwise, `byte3` = the memory byte at PC0 + 2 if the length is 3 and 0
otherwise, the addresses being taken modulo `2 ^ 16`; the CPU state (registers, flags,
clock, memory callback) is returned as it was. -/
theorem logInstruction_stores (cfg : Config) (d : Debugger) (cpu : Peddle)
    (hcap : 0 < cfg.LOG_BUFFER_CAPACITY)
    (hlen : d.logBuffer.length = cfg.LOG_BUFFER_CAPACITY) (hcnt : 0 ≤ d.logCnt) :
    (∃ r, readAt (d.logInstruction cfg cpu).1.logBuffer
          (Int.tmod d.logCnt cfg.LOG_BUFFER_CAPACITY) = some r ∧
      r.cycle = cpu.clock ∧ r.pc = cpu.reg.pc0 ∧ r.sp = cpu.reg.sp ∧ r.a = cpu.reg.a ∧
      r.x = cpu.reg.x ∧ r.y = cpu.reg.y ∧ r.flags = cpu.getP ∧
      r.byte1 = cpu.mem (cpu.reg.pc0 % 2 ^ 16) ∧
      r.byte2 = (if 2 ≤ d.getLengthOfInstruction r.byte1
        then cpu.mem ((cpu.reg.pc0 + 1) % 2 ^ 16) else 0) ∧
      r.byte3 = (if d.getLengthOfInstruction r.byte1 = 3
        then cpu.mem ((cpu.reg.pc0 + 2) % 2 ^ 16) else 0)) ∧
    (d.logInstruction cfg cpu).2 = cpu := by
  refine ⟨⟨d.recordedInstruction cpu, ?_, rfl, rfl, rfl, rfl, rfl, rfl, rfl, rfl, ?_, ?_⟩, rfl⟩
  · obtain ⟨n, hn⟩ := Int.eq_ofNat_of_zero_le hcnt
    simp only [Debugger.logInstruction, hn, tmod_natCast, writeAt_natCast, readAt_natCast]
    rw [List.getElem?_set_self]
    rw [hlen]
    exact Nat.mod_lt _ hcap
  · simp only [Debugger.recordedInstruction, Peddle.getPC0, Peddle.readDasm]
    have hl : ∀ x : Int, (x > 1) = (2 ≤ x) := fun x => by
      apply propext; constructor <;> intro h <;> omega
    simp only [hl]
    rfl
  · simp only [Debugger.recordedInstruction, Peddle.getPC0, Peddle.readDasm]
    have hl : ∀ o : Nat, (d.getLengthOfInstruction o > 2) = (d.getLengthOfInstruction o = 3) :=
      fun o => by
        apply propext
        unfold Debugger.getLengthOfInstruction
        cases d.addressingMode o <;> simp
    simp only [hl]
    rfl

theorem logInstruction_stores_witness :
    (0 < exampleConfig.LOG_BUFFER_CAPACITY ∧
      exampleDebugger.logBuffer.length = exampleConfig.LOG_BUFFER_CAPACITY ∧
      0 ≤ exampleDebugger.logCnt) ∧
    ((∃ r, readAt (exampleDebugger.logInstruction exampleConfig (exampleCpu 2)).1.logBuffer
          (Int.tmod exampleDebugger.logCnt exampleConfig.LOG_BUFFER_CAPACITY) = some r ∧
      r.cycle = (exampleCpu 2).clock ∧ r.pc = (exampleCpu 2).reg.pc0 ∧
      r.sp = (exampleCpu 2).reg.sp ∧ r.a = (exampleCpu 2).reg.a ∧
      r.x = (exampleCpu 2).reg.x ∧ r.y = (exampleCpu 2).reg.y ∧
      r.flags = (exampleCpu 2).getP ∧
      r.byte1 = (exampleCpu 2).mem ((exampleCpu 2).reg.pc0 % 2 ^ 16) ∧
      r.byte2 = (if 2 ≤ exampleDebugger.getLengthOfInstruction r.byte1
        then (exampleCpu 2).mem (((exampleCpu 2).reg.pc0 + 1) % 2 ^ 16) else 0) ∧
      r.byte3 = (if exampleDebugger.getLengthOfInstruction r.byte1 = 3
        then (exampleCpu 2).mem (((exampleCpu 2).reg.pc0 + 2) % 2 ^ 16) else 0)) ∧
    (exampleDebugger.logInstruction exampleConfig (exampleCpu 2)).2 = exampleCpu 2) :=
  ⟨⟨by decide, rfl, by decide⟩,
    logInstruction_stores exampleConfig exampleDebugger (exampleCpu 2) (by decide) rfl
      (by decide)⟩

/-! ## Single guards -/

theorem Guard.eval_of_ne (g : Guard) (addr : Nat) (h : g.addr ≠ addr) :
    g.eval addr = (false, g) := by
  simp [Guard.eval, h]

theorem Guard.eval_of_disabled (g : Guard) (addr : Nat) (h : g.enabled = false) :
    g.eval addr = (false, g) := by
  simp [Guard.eval, h]

theorem Guard.eval_own (g : Guard) (h : g.enabled = true) :
    g.eval g.addr =
      (decide (g.skip < wrapLong (g.hits + 1)), { g with hits := wrapLong (g.hits + 1) }) := by
  unfold Guard.eval
  by_cases hc : g.skip < wrapLong (g.hits + 1) <;> simp [h, hc]

theorem Guard.eval_addr (g : Guard) (addr : Nat) : (g.eval addr).2.addr = g.addr := by
  simp only [Guard.eval]
  split
  · split <;> rfl
  · rfl

theorem Guard.eval_enabled (g : Guard) (addr : Nat) : (g.eval addr).2.enabled = g.enabled := by
  simp only [Guard.eval]
  split
  · split <;> rfl
  · rfl

theorem Guard.eval_skip (g : Guard) (addr : Nat) : (g.eval addr).2.skip = g.skip := by
  simp only [Guard.eval]
  split
  · split <;> rfl
  · rfl

theorem Guard.evalAll_snoc (g : Guard) (addrs : List Nat) (a : Nat) :
    g.evalAll (addrs ++ [a]) = ((g.evalAll addrs).eval a).2 := by
  simp [Guard.evalAll, List.foldl_append]

/-- An enabled guard counts the evaluations at its own address. -/
theorem Guard.evalAll_enabled (g : Guard) (addrs : List Nat) (he : g.enabled = true)
    (hr : (addrs.count g.addr : Int) < 2 ^ 63) (hh : g.hits = 0) :
    g.evalAll addrs = { g with hits := (addrs.count g.addr : Int) } := by
  induction addrs using List.reverseRecOn with
  | nil =>
    cases g
    simp only [Guard.evalAll, List.foldl_nil, List.count_nil, Nat.cast_zero] at hh ⊢
    simp_all
  | append_singleton addrs a ih =>
    rw [Guard.evalAll_snoc]
    by_cases ha : a = g.addr
    · subst ha
      simp only [List.count_append, List.count_singleton_self, Nat.cast_add, Nat.cast_one] at hr ⊢
      rw [ih (by omega)]
      have h1 := Guard.eval_own { g with hits := (addrs.count g.addr : Int) } he
      simp only at h1
      rw [h1]
      simp only
      rw [wrapLong_of_range _ (by omega) (by omega)]
    · have hc : List.count g.addr [a] = 0 := by
        rw [List.count_singleton]
        simp [ha]
      simp only [List.count_append, hc, Nat.add_zero] at hr ⊢
      rw [ih hr]
      rw [Guard.eval_of_ne _ _ (by simpa using fun h => ha h.symm)]

theorem Guard.evalAll_disabled (g : Guard) (addrs : List Nat) (he : g.enabled = false) :
    g.evalAll addrs = g := by
  induction addrs using List.reverseRecOn with
  | nil => rfl
  | append_singleton addrs a ih =>
    rw [Guard.evalAll_snoc, ih, Guard.eval_of_disabled _ _ he]

/-- C5: for an enabled guard with `hits = 0` and `skip = k`, the `i`-th evaluation of
`Guard::eval` at the own address of the guard returns true if and only if `i > k`,
where `i - 1` is the number of earlier evaluations at this address in the sequence
`addrs` of all earlier evaluations and `i` is below `2 ^ 63`, the range of `long`.
An evaluation at any other address returns false and leaves `hits` as it is. The
statement holds for every `k`, in particular for `k ≥ 0`. -/
theorem guard_eval_skips_first_hits (g : Guard) (addrs : List Nat)
    (he : g.enabled = true) (hh : g.hits = 0)
    (hr : (addrs.count g.addr : Int) + 1 < 2 ^ 63) :
    (((g.evalAll addrs).eval g.addr).1 = true ↔ g.skip < (addrs.count g.addr : Int) + 1) ∧
    ∀ addr, addr ≠ g.addr →
      ((g.evalAll addrs).eval addr).1 = false ∧
      ((g.evalAll addrs).eval addr).2.hits = (g.evalAll addrs).hits := by
  rw [Guard.evalAll_enabled g addrs he (by omega) hh]
  constructor
  · have h1 := Guard.eval_own { g with hits := (addrs.count g.addr : Int) } he
    simp only at h1
    rw [h1]
    simp only [decide_eq_true_eq]
    rw [wrapLong_of_range _ (by omega) (by omega)]
  · intro addr hne
    rw [Guard.eval_of_ne _ _ (by simpa using fun h => hne h.symm)]
    exact ⟨rfl, rfl⟩

/-- C6: a disabled guard never triggers. For every guard with `enabled = false` and
every address, `Guard::eval` returns false and leaves the hit counter (and the whole
guard) unchanged; hence after any sequence of evaluations of the disabled guard `hits`
is what it was, and these hits do not count towards the skip value. -/
theorem guard_eval_disabled_never_triggers (g : Guard) (addr : Nat) (addrs : List Nat)
    (he : g.enabled = false) :
    (g.eval addr).1 = false ∧ (g.eval addr).2.hits = g.hits ∧ (g.eval addr).2 = g ∧
    (g.evalAll addrs).hits = g.hits := by
  rw [Guard.eval_of_disabled g addr he, Guard.evalAll_disabled g addrs he]
  exact ⟨rfl, rfl, rfl, rfl⟩

theorem guard_eval_skips_first_hits_witness :
    (exampleGuard.enabled = true ∧ exampleGuard.hits = 0 ∧
      (([1545, 7, 1545] : List Nat).count exampleGuard.addr : Int) + 1 < 2 ^ 63) ∧
    ((((exampleGuard.evalAll [1545, 7, 1545]).eval exampleGuard.addr).1 = true ↔
        exampleGuard.skip < (([1545, 7, 1545] : List Nat).count exampleGuard.addr : Int) + 1) ∧
      ∀ addr, addr ≠ exampleGuard.addr →
        ((exampleGuard.evalAll [1545, 7, 1545]).eval addr).1 = false ∧
        ((exampleGuard.evalAll [1545, 7, 1545]).eval addr).2.hits =
          (exampleGuard.evalAll [1545, 7, 1545]).hits) :=
  ⟨⟨rfl, rfl, by decide⟩,
    guard_eval_skips_first_hits exampleGuard [1545, 7, 1545] rfl rfl (by decide)⟩

theorem guard_eval_disabled_never_triggers_witness :
    exampleDisabledGuard.enabled = false ∧
    ((exampleDisabledGuard.eval 1545).1 = false ∧
      (exampleDisabledGuard.eval 1545).2.hits = exampleDisabledGuard.hits ∧
      (exampleDisabledGuard.eval 1545).2 = exampleDisabledGuard ∧
      (exampleDisabledGuard.evalAll [1545, 7, 1545]).hits = exampleDisabledGuard.hits) :=
  ⟨rfl, guard_eval_disabled_never_triggers exampleDisabledGuard 1545 [1545, 7, 1545] rfl⟩

/-! ## Guard collections: the loops -/

theorem range_filterMap_getElem? {α : Type} (l : List α) (n : Nat) (h : n ≤ l.length) :
    (List.range n).filterMap (fun i => l[i]?) = l.take n := by
  induction n with
  | zero => simp
  | succ n ih =>
    rw [List.range_succ, List.filterMap_append, ih (by omega), List.take_succ]
    congr 1

/-- The stored guards are the first `count` cells of the array. -/
theorem Guards.stored_eq_take (g : Guards) (h : g.count ≤ g.guards.length) :
    g.stored = g.guards.take g.count := by
  unfold Guards.stored Guards.elements
  rw [← range_filterMap_getElem? g.guards g.count h]
  apply List.filterMap_congr
  intro nr hnr
  have hlt : nr < g.count := List.mem_range.mp hnr
  simp [Guards.guardWithNr, readAt, hlt]

theorem Guards.guardWithNr_natCast (g : Guards) (nr : Nat) (h : nr < g.count) :
    g.guardWithNr (nr : Int) = g.guards[nr]? := by
  simp [Guards.guardWithNr, readAt, h]

/-- What the search loop of `guardAtAddr` returns: the first index from `i` on whose
guard observes `addr`. -/
theorem Guards.guardAtAddrLoop_some (guards : List Guard) (addr left i j : Nat)
    (h : Guards.guardAtAddrLoop guards addr left i = some j) :
    i ≤ j ∧ j < i + left ∧ (∃ x, guards[j]? = some x ∧ x.addr = addr) ∧
    ∀ p y, i ≤ p → p < j → guards[p]? = some y → y.addr ≠ addr := by
  induction left generalizing i with
  | zero => simp [Guards.guardAtAddrLoop] at h
  | succ left ih =>
    unfold Guards.guardAtAddrLoop at h
    split at h
    · rename_i x hx
      split at h
      · rename_i hxa
        have hj : i = j := by simpa using h
        subst hj
        exact ⟨le_refl _, by omega, ⟨x, hx, hxa⟩, fun p y h1 h2 => by omega⟩
      · rename_i hxa
        obtain ⟨h1, h2, h3, h4⟩ := ih (i + 1) h
        refine ⟨by omega, by omega, h3, ?_⟩
        intro p y hp1 hp2 hy
        rcases Nat.eq_or_lt_of_le hp1 with heq | hlt
        · subst heq
          rw [hx] at hy
          cases hy
          exact hxa
        · exact h4 p y (by omega) hp2 hy
    · simp at h

theorem Guards.guardAtAddrLoop_none (guards : List Guard) (addr left i : Nat)
    (hlen : i + left ≤ guards.length)
    (h : Guards.guardAtAddrLoop guards addr left i = none) :
    ∀ p y, i ≤ p → p < i + left → guards[p]? = some y → y.addr ≠ addr := by
  induction left generalizing i with
  | zero => intro p y h1 h2; omega
  | succ left ih =>
    unfold Guards.guardAtAddrLoop at h
    split at h
    · rename_i x hx
      split at h
      · simp at h
      · rename_i hxa
        intro p y hp1 hp2 hy
        rcases Nat.eq_or_lt_of_le hp1 with heq | hlt
        · subst heq
          rw [hx] at hy
          cases hy
          exact hxa
        · exact ih (i + 1) (by omega) h p y (by omega) (by omega) hy
    · rename_i hx
      rw [List.getElem?_eq_getElem (by omega)] at hx
      simp at hx

/-- The copy loop of `addAt` overwrites the cells `i, ..., i + left - 1` of the new
array by those of the old array. -/
theorem Guards.copyLoop_spec (guards : List Guard) (left i : Nat) (newguards : List Guard)
    (h1 : i + left ≤ guards.length) (h2 : i + left ≤ newguards.length) :
    (Guards.copyLoop guards left i newguards).length = newguards.length ∧
    ∀ p, (Guards.copyLoop guards left i newguards)[p]? =
      if i ≤ p ∧ p < i + left then guards[p]? else newguards[p]? := by
  induction left generalizing i newguards with
  | zero =>
    refine ⟨rfl, fun p => ?_⟩
    rw [if_neg (by omega)]
    rfl
  | succ left ih =>
    unfold Guards.copyLoop
    have hx : guards[i]? = some guards[i] := List.getElem?_eq_getElem (by omega)
    rw [hx]
    simp only
    obtain ⟨ihl, ihp⟩ := ih (i + 1) (newguards.set i guards[i]) (by omega)
      (by rw [List.length_set]; omega)
    refine ⟨by rw [ihl, List.length_set], fun p => ?_⟩
    rw [ihp p]
    by_cases hp : i + 1 ≤ p ∧ p < i + 1 + left
    · rw [if_pos hp, if_pos (by omega)]
    · rw [if_neg hp]
      by_cases hpi : p = i
      · subst hpi
        rw [if_pos (by omega), List.getElem?_set_self (by omega), hx]
      · rw [if_neg (by omega), List.getElem?_set_ne (fun h => hpi h.symm)]

/-- The inner loop of `removeAt` moves the cells `j + 1, ..., j + left` one cell down. -/
theorem Guards.shiftLoop_spec (left j : Nat) (guards : List Guard)
    (h : j + left + 1 ≤ guards.length) :
    (Guards.shiftLoop left j guards).length = guards.length ∧
    ∀ p, (Guards.shiftLoop left j guards)[p]? =
      if j ≤ p ∧ p < j + left then guards[p + 1]? else guards[p]? := by
  induction left generalizing j guards with
  | zero =>
    refine ⟨rfl, fun p => ?_⟩
    rw [if_neg (by omega)]
    rfl
  | succ left ih =>
    unfold Guards.shiftLoop
    have hx : guards[j + 1]? = some guards[j + 1] := List.getElem?_eq_getElem (by omega)
    rw [hx]
    simp only
    obtain ⟨ihl, ihp⟩ := ih (j + 1) (guards.set j guards[j + 1])
      (by rw [List.length_set]; omega)
    refine ⟨by rw [ihl, List.length_set], fun p => ?_⟩
    rw [ihp p]
    by_cases hp : j + 1 ≤ p ∧ p < j + 1 + left
    · rw [if_pos hp, if_pos (by omega), List.getElem?_set_ne (by omega)]
    · rw [if_neg hp]
      by_cases hpj : p = j
      · subst hpj
        rw [if_pos (by omega), List.getElem?_set_self (by omega), hx]
      · rw [if_neg (by omega), List.getElem?_set_ne (fun h => hpj h.symm)]

/-- The outer loop of `removeAt` finds the same guard as `guardAtAddr`. -/
theorem Guards.removeLoop_eq (g : Guards) (addr left i : Nat) :
    Guards.removeLoop g addr left i =
      match Guards.guardAtAddrLoop g.guards addr left i with
      | some j =>
        { g with
            guards := Guards.shiftLoop (g.count - (j + 1)) j g.guards
            count := g.count - 1 }
      | none => g := by
  induction left generalizing i with
  | zero => simp [Guards.removeLoop, Guards.guardAtAddrLoop]
  | succ left ih =>
    unfold Guards.removeLoop Guards.guardAtAddrLoop
    cases hx : g.guards[i]? with
    | none => simp
    | some x =>
      simp only
      by_cases hxa : x.addr = addr
      · simp [hxa]
      · simp only [hxa, if_false]
        exact ih (i + 1)

/-! ## Guard collections: single operations -/

theorem Guards.isSetAt_iff (g : Guards) (addr : Nat) (h : g.count ≤ g.guards.length) :
    g.isSetAt addr = true ↔ addr ∈ (g.guards.take g.count).map (fun x => x.addr) := by
  unfold Guards.isSetAt Guards.guardAtAddr
  constructor
  · intro hs
    obtain ⟨j, hj⟩ := Option.isSome_iff_exists.mp hs
    obtain ⟨_, h2, ⟨x, hx, hxa⟩, _⟩ := Guards.guardAtAddrLoop_some _ _ _ _ _ hj
    rw [List.mem_map]
    refine ⟨x, ?_, hxa⟩
    rw [List.mem_iff_getElem?]
    refine ⟨j, ?_⟩
    rw [List.getElem?_take, if_pos (by omega)]
    exact hx
  · intro hm
    rw [List.mem_map] at hm
    obtain ⟨x, hx, hxa⟩ := hm
    rw [List.mem_iff_getElem?] at hx
    obtain ⟨p, hp⟩ := hx
    rw [List.getElem?_take] at hp
    split at hp
    · rename_i hpc
      cases hl : Guards.guardAtAddrLoop g.guards addr g.count 0 with
      | some j => rfl
      | none =>
        exact absurd hxa
          (Guards.guardAtAddrLoop_none _ _ _ _ (by omega) hl p x (Nat.zero_le _) (by omega) hp)
    · simp at hp

theorem Guards.isSetAt_iff_stored (g : Guards) (addr : Nat) (h : g.count ≤ g.guards.length) :
    g.isSetAt addr = true ↔ addr ∈ g.stored.map (fun x => x.addr) := by
  rw [Guards.stored_eq_take g h]
  exact Guards.isSetAt_iff g addr h

theorem take_set_succ {α : Type} (l l1 : List α) (n : Nat) (x : α) (hn : n < l1.length)
    (hl : n ≤ l.length) (hp : ∀ p, p < n → l1[p]? = l[p]?) :
    (l1.set n x).take (n + 1) = l.take n ++ [x] := by
  apply List.ext_getElem?
  intro p
  rw [List.getElem?_take]
  by_cases h1 : p < n
  · rw [if_pos (by omega), List.getElem?_set_ne (by omega), hp p h1,
      List.getElem?_append_left (by rw [List.length_take]; omega), List.getElem?_take,
      if_pos h1]
  · by_cases h2 : p = n
    · subst h2
      rw [if_pos (by omega), List.getElem?_set_self hn,
        List.getElem?_append_right (by rw [List.length_take]; omega)]
      simp [List.length_take, Nat.min_eq_left hl]
    · rw [if_neg (by omega), List.getElem?_eq_none]
      simp only [List.length_append, List.length_take, List.length_singleton]
      omega

/-- Effect of `addAt` for an address that is not guarded yet. -/
theorem Guards.addAt_new (snc : Peddle → Bool → Peddle) (g : Guards) (cpu : Peddle)
    (addr : Nat) (skip : Int) (hwf : g.WellFormed) (hset : g.isSetAt addr = false) :
    (g.addAt snc cpu addr skip).1.WellFormed ∧
    (g.addAt snc cpu addr skip).1.count = g.count + 1 ∧
    (g.addAt snc cpu addr skip).1.capacity =
      (if g.count ≥ g.capacity then g.capacity * 2 else g.capacity) ∧
    (g.addAt snc cpu addr skip).1.guards.take (g.count + 1) =
      g.guards.take g.count ++ [{ addr := addr, enabled := true, hits := 0, skip := skip }] := by
  obtain ⟨hcap, hlen, hcnt⟩ := hwf
  unfold Guards.addAt
  rw [hset]
  simp only [Bool.false_eq_true, if_false]
  by_cases hfull : g.count ≥ g.capacity
  · simp only [hfull, if_true]
    obtain ⟨cl, cp⟩ := Guards.copyLoop_spec g.guards g.capacity 0
      (List.replicate (2 * g.capacity) default) (by omega)
      (by rw [List.length_replicate]; omega)
    rw [List.length_replicate] at cl
    refine ⟨⟨?_, ?_, ?_⟩, trivial, trivial, ?_⟩
    · simp only; omega
    · simp only [List.length_set]; omega
    · simp only; omega
    · apply take_set_succ
      · omega
      · omega
      · intro p hp
        rw [cp p, if_pos (by omega)]
  · simp only [hfull, if_false]
    refine ⟨⟨?_, ?_, ?_⟩, trivial, trivial, ?_⟩
    · exact hcap
    · simp only [List.length_set]; exact hlen
    · simp only; omega
    · apply take_set_succ
      · omega
      · omega
      · intro p _
        rfl

theorem Guards.addAt_set (snc : Peddle → Bool → Peddle) (g : Guards) (cpu : Peddle)
    (addr : Nat) (skip : Int) (hset : g.isSetAt addr = true) :
    g.addAt snc cpu addr skip = (g, cpu) := by
  unfold Guards.addAt
  rw [hset]
  rfl

theorem take_shift_eq_eraseIdx {α : Type} (l l1 : List α) (n j : Nat) (hj : j < n)
    (hp : ∀ p, l1[p]? = if j ≤ p ∧ p < j + (n - (j + 1)) then l[p + 1]? else l[p]?) :
    l1.take (n - 1) = (l.take n).eraseIdx j := by
  apply List.ext_getElem?
  intro p
  rw [List.getElem?_take, List.getElem?_eraseIdx, List.getElem?_take, List.getElem?_take, hp p]
  by_cases h1 : p < j
  · rw [if_pos (by omega), if_neg (by omega), if_pos h1, if_pos (by omega)]
  · rw [if_neg h1]
    by_cases h2 : p < n - 1
    · rw [if_pos h2, if_pos (by omega), if_pos (by omega)]
    · rw [if_neg h2, if_neg (by omega)]

/-- Effect of the loop of `removeAt`: the first guard observing `addr`, if there is one,
is taken out of the stored guards. -/
theorem Guards.removeLoop_spec (g : Guards) (addr : Nat) (hwf : g.WellFormed) :
    (g.guardAtAddr addr = none → Guards.removeLoop g addr g.count 0 = g) ∧
    (∀ j, g.guardAtAddr addr = some j →
      (Guards.removeLoop g addr g.count 0).WellFormed ∧
      (Guards.removeLoop g addr g.count 0).capacity = g.capacity ∧
      (Guards.removeLoop g addr g.count 0).count = g.count - 1 ∧
      j < g.count ∧
      (Guards.removeLoop g addr g.count 0).guards.take (g.count - 1) =
        (g.guards.take g.count).eraseIdx j) := by
  obtain ⟨hcap, hlen, hcnt⟩ := hwf
  rw [Guards.removeLoop_eq]
  unfold Guards.guardAtAddr
  constructor
  · intro h
    rw [h]
  · intro j h
    rw [h]
    obtain ⟨_, hj, _, _⟩ := Guards.guardAtAddrLoop_some _ _ _ _ _ h
    obtain ⟨sl, sp⟩ := Guards.shiftLoop_spec (g.count - (j + 1)) j g.guards (by omega)
    refine ⟨⟨hcap, ?_, ?_⟩, rfl, rfl, by omega, ?_⟩
    · simp only; rw [sl]; exact hlen
    · simp only; omega
    · exact take_shift_eq_eraseIdx g.guards _ g.count j (by omega) sp

theorem map_set_of_eq {α β : Type} (f : α → β) (l : List α) (i : Nat) (x y : α)
    (hx : l[i]? = some x) (hf : f y = f x) : (l.set i y).map f = l.map f := by
  apply List.ext_getElem?
  intro p
  rw [List.getElem?_map, List.getElem?_map, List.getElem?_set]
  by_cases hp : i = p
  · subst hp
    have hi : i < l.length := by
      by_contra hcon
      rw [List.getElem?_eq_none (by omega)] at hx
      simp at hx
    rw [if_pos rfl, if_pos hi, hx]
    simp [hf]
  · rw [if_neg hp]

/-- The loop of `Guards::eval` changes nothing that is invariant under `Guard::eval`. -/
theorem Guards.evalLoop_map {β : Type} (f : Guard → β) (addr : Nat)
    (hf : ∀ x : Guard, f (x.eval addr).2 = f x) (left i : Nat) (guards : List Guard) :
    (Guards.evalLoop addr left i guards).2.length = guards.length ∧
    (Guards.evalLoop addr left i guards).2.map f = guards.map f := by
  induction left generalizing i guards with
  | zero => exact ⟨rfl, rfl⟩
  | succ left ih =>
    unfold Guards.evalLoop
    cases hx : guards[i]? with
    | none => exact ⟨rfl, rfl⟩
    | some x =>
      simp only
      have hm := map_set_of_eq f guards i x (x.eval addr).2 hx (hf x)
      split
      · exact ⟨List.length_set _ _ _, hm⟩
      · obtain ⟨h1, h2⟩ := ih (i + 1) (guards.set i (x.eval addr).2)
        exact ⟨by rw [h1, List.length_set], by rw [h2, hm]⟩

theorem Guards.eval_count (g : Guards) (addr : Nat) :
    (g.eval addr).2.count = g.count ∧ (g.eval addr).2.capacity = g.capacity := ⟨rfl, rfl⟩

theorem Guards.eval_map {β : Type} (f : Guard → β) (g : Guards) (addr : Nat)
    (hf : ∀ x : Guard, f (x.eval addr).2 = f x) :
    (g.eval addr).2.guards.length = g.guards.length ∧
    (g.eval addr).2.guards.map f = g.guards.map f :=
  Guards.evalLoop_map f addr hf g.count 0 g.guards

/-! ## Guard collections: invariants of the reachable states -/

theorem Guards.distinctAddrs_iff (g : Guards) (h : g.count ≤ g.guards.length) :
    g.DistinctAddrs ↔ ((g.guards.take g.count).map (fun x => x.addr)).Nodup := by
  unfold Guards.DistinctAddrs
  rw [Guards.stored_eq_take g h]

theorem Guards.inv_of_map_addr (g g1 : Guards) (hcap : g1.capacity = g.capacity)
    (hcnt : g1.count = g.count) (hlen : g1.guards.length = g.guards.length)
    (hmap : g1.guards.map (fun x => x.addr) = g.guards.map (fun x => x.addr))
    (h : g.WellFormed ∧ g.DistinctAddrs) : g1.WellFormed ∧ g1.DistinctAddrs := by
  obtain ⟨⟨h1, h2, h3⟩, hd⟩ := h
  have hwf : g1.WellFormed := ⟨by omega, by omega, by omega⟩
  refine ⟨hwf, ?_⟩
  rw [Guards.distinctAddrs_iff g (by omega)] at hd
  rw [Guards.distinctAddrs_iff g1 (by obtain ⟨_, _, _⟩ := hwf; omega)]
  rw [List.map_take, hmap, hcnt, ← List.map_take]
  exact hd

theorem Guards.inv_init : Guards.init.WellFormed ∧ Guards.init.DistinctAddrs := by
  constructor
  · decide
  · unfold Guards.DistinctAddrs Guards.stored
    simp [Guards.init, Guards.elements]

theorem Guards.inv_addAt (snc : Peddle → Bool → Peddle) (g : Guards) (cpu : Peddle)
    (addr : Nat) (skip : Int) (h : g.WellFormed ∧ g.DistinctAddrs) :
    (g.addAt snc cpu addr skip).1.WellFormed ∧ (g.addAt snc cpu addr skip).1.DistinctAddrs := by
  obtain ⟨hwf, hd⟩ := h
  cases hset : g.isSetAt addr with
  | true =>
    rw [Guards.addAt_set snc g cpu addr skip hset]
    exact ⟨hwf, hd⟩
  | false =>
    obtain ⟨hwf1, hc1, _, ht⟩ := Guards.addAt_new snc g cpu addr skip hwf hset
    refine ⟨hwf1, ?_⟩
    have hl : g.count ≤ g.guards.length := by obtain ⟨_, _, _⟩ := hwf; omega
    have hl1 : (g.addAt snc cpu addr skip).1.count ≤
        (g.addAt snc cpu addr skip).1.guards.length := by
      obtain ⟨_, _, _⟩ := hwf1; omega
    rw [Guards.distinctAddrs_iff _ hl1, hc1, ht]
    rw [Guards.distinctAddrs_iff _ hl] at hd
    have hnot : addr ∉ (g.guards.take g.count).map (fun x => x.addr) := by
      intro hm
      rw [← Guards.isSetAt_iff g addr hl, hset] at hm
      exact absurd hm (by simp)
    rw [List.map_append, List.nodup_append]
    refine ⟨hd, by simp, ?_⟩
    intro a ha hb
    simp only [List.map_cons, List.map_nil, List.mem_singleton] at hb
    subst hb
    exact hnot ha

theorem Guards.inv_removeLoop (g : Guards) (addr : Nat)
    (h : g.WellFormed ∧ g.DistinctAddrs) :
    (Guards.removeLoop g addr g.count 0).WellFormed ∧
    (Guards.removeLoop g addr g.count 0).DistinctAddrs := by
  obtain ⟨hwf, hd⟩ := h
  obtain ⟨hnone, hsome⟩ := Guards.removeLoop_spec g addr hwf
  cases hg : g.guardAtAddr addr with
  | none =>
    rw [hnone hg]
    exact ⟨hwf, hd⟩
  | some j =>
    obtain ⟨hwf1, _, hc1, _, ht⟩ := hsome j hg
    refine ⟨hwf1, ?_⟩
    have hl : g.count ≤ g.guards.length := by obtain ⟨_, _, _⟩ := hwf; omega
    have hl1 : (Guards.removeLoop g addr g.count 0).count ≤
        (Guards.removeLoop g addr g.count 0).guards.length := by
      obtain ⟨_, _, _⟩ := hwf1; omega
    rw [Guards.distinctAddrs_iff _ hl1, hc1, ht]
    rw [Guards.distinctAddrs_iff _ hl] at hd
    exact List.Nodup.sublist ((List.eraseIdx_sublist _ _).map _) hd

theorem Guards.inv_removeAt (snc : Peddle → Bool → Peddle) (g : Guards) (cpu : Peddle)
    (addr : Nat) (h : g.WellFormed ∧ g.DistinctAddrs) :
    (g.removeAt snc cpu addr).1.WellFormed ∧ (g.removeAt snc cpu addr).1.DistinctAddrs :=
  Guards.inv_removeLoop g addr h

theorem Guards.inv_remove (snc : Peddle → Bool → Peddle) (g : Guards) (cpu : Peddle)
    (nr : Int) (h : g.WellFormed ∧ g.DistinctAddrs) :
    (g.remove snc cpu nr).1.WellFormed ∧ (g.remove snc cpu nr).1.DistinctAddrs := by
  unfold Guards.remove
  split
  · split
    · exact Guards.inv_removeAt snc g cpu _ h
    · exact h
  · exact h

theorem Guards.inv_removeAll (snc : Peddle → Bool → Peddle) (g : Guards) (cpu : Peddle)
    (h : g.WellFormed ∧ g.DistinctAddrs) :
    (g.removeAll snc cpu).1.WellFormed ∧ (g.removeAll snc cpu).1.DistinctAddrs := by
  obtain ⟨⟨h1, h2, _⟩, _⟩ := h
  constructor
  · exact ⟨h1, h2, Nat.zero_le _⟩
  · unfold Guards.DistinctAddrs Guards.stored
    simp [Guards.removeAll, Guards.elements]

theorem Guards.inv_replace (g : Guards) (nr : Int) (addr : Nat)
    (h : g.WellFormed ∧ g.DistinctAddrs) :
    (g.replace nr addr).WellFormed ∧ (g.replace nr addr).DistinctAddrs := by
  unfold Guards.replace
  split
  · exact h
  · rename_i hc
    split
    · rename_i x hx
      obtain ⟨⟨h1, h2, h3⟩, hd⟩ := h
      have hset : g.isSetAt addr = false := by
        cases hs : g.isSetAt addr with
        | true => exact absurd (Or.inr hs) hc
        | false => rfl
      unfold readAt at hx
      split at hx
      · rename_i hnr
        have hlen1 : (writeAt g.guards nr { x with addr := addr, hits := 0 }).length =
            g.capacity := by
          simp only [writeAt, hnr, if_true, List.length_set]
          exact h2
        refine ⟨⟨h1, hlen1, h3⟩, ?_⟩
        rw [Guards.distinctAddrs_iff _ (by simp only [hlen1]; exact h3)]
        rw [Guards.distinctAddrs_iff _ (by omega)] at hd
        simp only [writeAt, hnr, if_true]
        rw [List.set_take, List.map_set]
        apply List.Nodup.set hd
        intro hm
        rw [← Guards.isSetAt_iff g addr (by omega), hset] at hm
        exact absurd hm (by simp)
      · simp at hx
    · exact h

theorem Guards.inv_setEnable (g : Guards) (nr : Int) (val : Bool)
    (h : g.WellFormed ∧ g.DistinctAddrs) :
    (g.setEnable nr val).WellFormed ∧ (g.setEnable nr val).DistinctAddrs := by
  unfold Guards.setEnable
  split
  · split
    · rename_i x hx
      unfold readAt at hx
      split at hx
      · rename_i hnr
        refine Guards.inv_of_map_addr g _ ?_ ?_ ?_ ?_ h
        · rfl
        · rfl
        · simp only [writeAt, hnr, if_true, List.length_set]
        · simp only [writeAt, hnr, if_true]
          exact map_set_of_eq _ _ _ x _ hx rfl
      · simp at hx
    · exact h
  · exact h

theorem Guards.inv_setEnableAt (g : Guards) (addr : Nat) (value : Bool)
    (h : g.WellFormed ∧ g.DistinctAddrs) :
    (g.setEnableAt addr value).WellFormed ∧ (g.setEnableAt addr value).DistinctAddrs := by
  unfold Guards.setEnableAt
  split
  · split
    · rename_i i _ x hx
      refine Guards.inv_of_map_addr g _ ?_ ?_ ?_ ?_ h
      · rfl
      · rfl
      · simp only [List.length_set]
      · exact map_set_of_eq _ _ _ x _ hx rfl
    · exact h
  · exact h

theorem Guards.inv_eval (g : Guards) (addr : Nat) (h : g.WellFormed ∧ g.DistinctAddrs) :
    (g.eval addr).2.WellFormed ∧ (g.eval addr).2.DistinctAddrs := by
  obtain ⟨h1, h2⟩ := Guards.eval_map (fun x => x.addr) g addr (fun x => Guard.eval_addr x addr)
  exact Guards.inv_of_map_addr g (g.eval addr).2 rfl rfl h1 h2 h

/-- Every reachable guard collection is well formed and guards no address twice. -/
theorem Guards.Reachable.inv {g : Guards} (h : g.Reachable) :
    g.WellFormed ∧ g.DistinctAddrs := by
  induction h with
  | init => exact Guards.inv_init
  | addAt g snc cpu addr skip _ ih => exact Guards.inv_addAt snc g cpu addr skip ih
  | removeAt g snc cpu addr _ ih => exact Guards.inv_removeAt snc g cpu addr ih
  | remove g snc cpu nr _ ih => exact Guards.inv_remove snc g cpu nr ih
  | removeAll g snc cpu _ ih => exact Guards.inv_removeAll snc g cpu ih
  | replace g nr addr _ ih => exact Guards.inv_replace g nr addr ih
  | setEnable g nr val _ ih => exact Guards.inv_setEnable g nr val ih
  | setEnableAt g addr value _ ih => exact Guards.inv_setEnableAt g addr value ih
  | eval g addr _ ih => exact Guards.inv_eval g addr ih

theorem filter_ne_eq_eraseIdx (addr : Nat) (l : List Guard) (j : Nat) (x : Guard)
    (hx : l[j]? = some x) (hxa : x.addr = addr) (hd : (l.map (fun y => y.addr)).Nodup) :
    l.filter (fun y => decide (y.addr ≠ addr)) = l.eraseIdx j := by
  induction l generalizing j with
  | nil => simp at hx
  | cons a l ih =>
    rw [List.map_cons, List.nodup_cons] at hd
    obtain ⟨hna, hdl⟩ := hd
    cases j with
    | zero =>
      simp only [List.getElem?_cons_zero, Option.some.injEq] at hx
      subst hx
      rw [List.eraseIdx_cons_zero, List.filter_cons]
      simp only [hxa, ne_eq, not_true_eq_false, decide_False, Bool.false_eq_true, if_false]
      rw [List.filter_eq_self]
      intro b hb
      simp only [ne_eq, decide_eq_true_eq]
      intro hba
      apply hna
      rw [List.mem_map]
      exact ⟨b, hb, by rw [hba, hxa]⟩
    | succ j =>
      simp only [List.getElem?_cons_succ] at hx
      rw [List.eraseIdx_cons_succ, List.filter_cons]
      have hne : a.addr ≠ addr := by
        intro haa
        apply hna
        rw [List.mem_map]
        exact ⟨x, List.mem_iff_getElem?.mpr ⟨j, hx⟩, by rw [hxa, haa]⟩
      simp only [ne_eq, hne, not_false_eq_true, decide_True, if_true]
      rw [← ih j hx hdl]

/-! ## Guard collections: the claims -/

/-- C7: for every (well formed) guard collection and address `addr`: if no guard is set
at `addr`, `addAt(addr, skip)` increases `elements()` by one, the new guard is the last
one, is enabled, has `hits = 0` and the given skip value, `isSetAt(addr)` holds
afterwards, and every guard stored before is returned by `guardWithNr` under the same
number with the same content, whether the array is regrown or not; if a guard is already
set at `addr`, `addAt` changes neither the collection nor the CPU state. -/
theorem addAt_appends_new_guard (snc : Peddle → Bool → Peddle) (g : Guards) (cpu : Peddle)
    (addr : Nat) (skip : Int) (hwf : g.WellFormed) :
    (g.isSetAt addr = false →
      (g.addAt snc cpu addr skip).1.elements = g.elements + 1 ∧
      (g.addAt snc cpu addr skip).1.guardWithNr
          (((g.addAt snc cpu addr skip).1.elements - 1 : Nat) : Int) =
        some { addr := addr, enabled := true, hits := 0, skip := skip } ∧
      (g.addAt snc cpu addr skip).1.isSetAt addr = true ∧
      ∀ nr : Nat, nr < g.elements →
        (g.guardWithNr (nr : Int)).isSome = true ∧
        (g.addAt snc cpu addr skip).1.guardWithNr (nr : Int) = g.guardWithNr (nr : Int)) ∧
    (g.isSetAt addr = true → g.addAt snc cpu addr skip = (g, cpu)) := by
  refine ⟨fun hset => ?_, Guards.addAt_set snc g cpu addr skip⟩
  obtain ⟨hwf1, hc1, _, ht⟩ := Guards.addAt_new snc g cpu addr skip hwf hset
  have hl : g.count ≤ g.guards.length := by obtain ⟨_, _, _⟩ := hwf; omega
  have hl1 : (g.addAt snc cpu addr skip).1.count ≤
      (g.addAt snc cpu addr skip).1.guards.length := by
    obtain ⟨_, _, _⟩ := hwf1; omega
  have hget : ∀ p, p < g.count + 1 → (g.addAt snc cpu addr skip).1.guards[p]? =
      (g.guards.take g.count ++
        [{ addr := addr, enabled := true, hits := 0, skip := skip }])[p]? := by
    intro p hp
    rw [← ht, List.getElem?_take, if_pos hp]
  refine ⟨hc1, ?_, ?_, ?_⟩
  · simp only [Guards.elements, hc1, Nat.add_sub_cancel]
    rw [Guards.guardWithNr_natCast _ _ (by omega), hget _ (by omega),
      List.getElem?_append_right (by rw [List.length_take]; omega)]
    simp [List.length_take, Nat.min_eq_left hl]
  · rw [Guards.isSetAt_iff _ _ hl1, hc1, ht]
    simp
  · intro nr hnr
    unfold Guards.elements at hnr
    rw [Guards.guardWithNr_natCast _ _ hnr, Guards.guardWithNr_natCast _ _ (by omega),
      hget _ (by omega), List.getElem?_append_left (by rw [List.length_take]; omega),
      List.getElem?_take, if_pos hnr]
    refine ⟨?_, rfl⟩
    rw [List.getElem?_eq_getElem (by omega)]
    rfl

/-- C8: for every guard collection reachable from the constructed (empty) one and every
address `addr`, after `removeAt(addr)` `isSetAt(addr)` is false, `elements()` is one less
if a guard was set at `addr` and unchanged otherwise, and the stored guards are the
guards stored before without the one observing `addr`, with unchanged content and in the
same order. -/
theorem removeAt_removes_guard (snc : Peddle → Bool → Peddle) (g : Guards) (cpu : Peddle)
    (addr : Nat) (hr : g.Reachable) :
    (g.removeAt snc cpu addr).1.isSetAt addr = false ∧
    (g.removeAt snc cpu addr).1.elements =
      (if g.isSetAt addr = true then g.elements - 1 else g.elements) ∧
    (g.removeAt snc cpu addr).1.stored =
      g.stored.filter (fun x => decide (x.addr ≠ addr)) := by
  obtain ⟨hwf, hd⟩ := hr.inv
  obtain ⟨hwf1, _⟩ := Guards.inv_removeAt snc g cpu addr ⟨hwf, hd⟩
  have hl : g.count ≤ g.guards.length := by obtain ⟨_, _, _⟩ := hwf; omega
  have hl1 : (g.removeAt snc cpu addr).1.count ≤ (g.removeAt snc cpu addr).1.guards.length := by
    obtain ⟨_, _, _⟩ := hwf1; omega
  have hstored : (g.removeAt snc cpu addr).1.stored =
        g.stored.filter (fun x => decide (x.addr ≠ addr)) ∧
      (g.removeAt snc cpu addr).1.elements =
        (if g.isSetAt addr = true then g.elements - 1 else g.elements) := by
    obtain ⟨hnone, hsome⟩ := Guards.removeLoop_spec g addr hwf
    cases hg : g.guardAtAddr addr with
    | none =>
      have hset : g.isSetAt addr = false := by simp [Guards.isSetAt, hg]
      have heq : (g.removeAt snc cpu addr).1 = g := hnone hg
      rw [heq, hset]
      refine ⟨?_, by simp⟩
      symm
      rw [List.filter_eq_self]
      intro x hx
      simp only [ne_eq, decide_eq_true_eq]
      intro hxa
      have hm : addr ∈ g.stored.map (fun x => x.addr) := List.mem_map.mpr ⟨x, hx, hxa⟩
      rw [← Guards.isSetAt_iff_stored g addr hl, hset] at hm
      exact absurd hm (by simp)
    | some j =>
      have hset : g.isSetAt addr = true := by simp [Guards.isSetAt, hg]
      obtain ⟨_, _, hc1, hj, ht⟩ := hsome j hg
      obtain ⟨_, _, ⟨x, hx, hxa⟩, _⟩ := Guards.guardAtAddrLoop_some _ _ _ _ _ hg
      rw [hset]
      refine ⟨?_, by simpa [Guards.elements] using hc1⟩
      rw [Guards.stored_eq_take _ hl1, Guards.stored_eq_take _ hl]
      have hc1' : (g.removeAt snc cpu addr).1.count = g.count - 1 := hc1
      have ht' : (g.removeAt snc cpu addr).1.guards.take (g.count - 1) =
          (g.guards.take g.count).eraseIdx j := ht
      rw [hc1', ht']
      symm
      apply filter_ne_eq_eraseIdx addr _ j x _ hxa
      · rw [← Guards.distinctAddrs_iff g hl]
        exact hd
      · rw [List.getElem?_take, if_pos hj]
        exact hx
  refine ⟨?_, hstored.2, hstored.1⟩
  cases hs : (g.removeAt snc cpu addr).1.isSetAt addr with
  | false => rfl
  | true =>
    rw [Guards.isSetAt_iff_stored _ _ hl1, hstored.1, List.mem_map] at hs
    obtain ⟨x, hx, hxa⟩ := hs
    rw [List.mem_filter] at hx
    simp only [ne_eq, decide_eq_true_eq] at hx
    exact absurd hxa hx.2

theorem addAt_appends_new_guard_witness :
    exampleFullGuards.WellFormed ∧
    ((exampleFullGuards.isSetAt 1541 = false →
      (exampleFullGuards.addAt (Breakpoints.setNeedsCheck exampleConfig) (exampleCpu 0)
        1541 1).1.elements = exampleFullGuards.elements + 1 ∧
      (exampleFullGuards.addAt (Breakpoints.setNeedsCheck exampleConfig) (exampleCpu 0)
        1541 1).1.guardWithNr
          (((exampleFullGuards.addAt (Breakpoints.setNeedsCheck exampleConfig) (exampleCpu 0)
            1541 1).1.elements - 1 : Nat) : Int) =
        some { addr := 1541, enabled := true, hits := 0, skip := 1 } ∧
      (exampleFullGuards.addAt (Breakpoints.setNeedsCheck exampleConfig) (exampleCpu 0)
        1541 1).1.isSetAt 1541 = true ∧
      ∀ nr : Nat, nr < exampleFullGuards.elements →
        (exampleFullGuards.guardWithNr (nr : Int)).isSome = true ∧
        (exampleFullGuards.addAt (Breakpoints.setNeedsCheck exampleConfig) (exampleCpu 0)
          1541 1).1.guardWithNr (nr : Int) = exampleFullGuards.guardWithNr (nr : Int)) ∧
    (exampleFullGuards.isSetAt 1541 = true →
      exampleFullGuards.addAt (Breakpoints.setNeedsCheck exampleConfig) (exampleCpu 0) 1541 1 =
        (exampleFullGuards, exampleCpu 0))) :=
  ⟨by decide,
    addAt_appends_new_guard (Breakpoints.setNeedsCheck exampleConfig) exampleFullGuards
      (exampleCpu 0) 1541 1 (by decide)⟩

theorem removeAt_removes_guard_witness :
    exampleGuards.Reachable ∧
    ((exampleGuards.removeAt (Breakpoints.setNeedsCheck exampleConfig) (exampleCpu 0)
        1538).1.isSetAt 1538 = false ∧
      (exampleGuards.removeAt (Breakpoints.setNeedsCheck exampleConfig) (exampleCpu 0)
        1538).1.elements =
        (if exampleGuards.isSetAt 1538 = true then exampleGuards.elements - 1
          else exampleGuards.elements) ∧
      (exampleGuards.removeAt (Breakpoints.setNeedsCheck exampleConfig) (exampleCpu 0)
        1538).1.stored = exampleGuards.stored.filter (fun x => decide (x.addr ≠ 1538))) :=
  ⟨Guards.Reachable.addAt _ _ _ 1541 1
      (Guards.Reachable.addAt _ _ _ 1538 0
        (Guards.Reachable.addAt _ _ _ 1545 2 Guards.Reachable.init)),
    removeAt_removes_guard (Breakpoints.setNeedsCheck exampleConfig) exampleGuards
      (exampleCpu 0) 1538
      (Guards.Reachable.addAt _ _ _ 1541 1
        (Guards.Reachable.addAt _ _ _ 1538 0
          (Guards.Reachable.addAt _ _ _ 1545 2 Guards.Reachable.init)))⟩

/-! ## Breakpoints and soft stops -/

/-- With the soft stop disabled and a 32 bit address, `breakpointMatches` is decided by
the hard breakpoints alone. -/
theorem breakpointMatches_of_disabled (cfg : Config) (d : Debugger) (cpu : Peddle)
    (addr : Nat) (haddr : addr < 2 ^ 32) (hs : d.softStop = UINT64_MAX - 1) :
    (d.breakpointMatches cfg cpu addr).1 = (d.breakpoints.eval addr).1 ∧
    (d.breakpointMatches cfg cpu addr).2.1.softStop = UINT64_MAX - 1 ∧
    (d.breakpointMatches cfg cpu addr).2.1.breakpoints = (d.breakpoints.eval addr).2 ∧
    (d.breakpointMatches cfg cpu addr).2.2 = cpu := by
  have h1 : ¬ (addr = d.softStop ∨ d.softStop = UINT64_MAX) := by
    rw [hs]
    unfold UINT64_MAX
    omega
  unfold Debugger.breakpointMatches
  rw [if_neg h1]
  simp only
  cases (d.breakpoints.eval addr).1 <;> simp [hs]

theorem breakpointMatches_of_soft (cfg : Config) (d : Debugger) (cpu : Peddle)
    (addr : Nat) (hs : addr = d.softStop ∨ d.softStop = UINT64_MAX) :
    d.breakpointMatches cfg cpu addr =
      (true, { d with softStop := UINT64_MAX - 1 },
        Breakpoints.setNeedsCheck cfg cpu (d.breakpoints.elements != 0)) := by
  unfold Debugger.breakpointMatches
  rw [if_pos hs]

/-- Whatever `breakpointMatches` returns, the breakpoint collection keeps its guards:
only hit counters change. -/
theorem breakpointMatches_keeps_guards (cfg : Config) (d : Debugger) (cpu : Peddle)
    (addr : Nat) :
    (d.breakpointMatches cfg cpu addr).2.1.breakpoints.elements = d.breakpoints.elements ∧
    ∀ nr : Int,
      ((d.breakpointMatches cfg cpu addr).2.1.breakpoints.guardWithNr nr).map
          (fun x => (x.addr, x.enabled, x.skip)) =
        (d.breakpoints.guardWithNr nr).map (fun x => (x.addr, x.enabled, x.skip)) := by
  have hkey : ∀ x : Guard, (fun x : Guard => (x.addr, x.enabled, x.skip)) (x.eval addr).2 =
      (fun x : Guard => (x.addr, x.enabled, x.skip)) x := fun x => by
    simp only [Guard.eval_addr, Guard.eval_enabled, Guard.eval_skip]
  have hev := (Guards.eval_map (fun x => (x.addr, x.enabled, x.skip)) d.breakpoints addr hkey).2
  have hg : (d.breakpointMatches cfg cpu addr).2.1.breakpoints = d.breakpoints ∨
      (d.breakpointMatches cfg cpu addr).2.1.breakpoints = (d.breakpoints.eval addr).2 := by
    unfold Debugger.breakpointMatches
    split
    · exact Or.inl rfl
    · simp only
      split <;> exact Or.inr rfl
  rcases hg with hg | hg
  · rw [hg]
    exact ⟨rfl, fun _ => rfl⟩
  · rw [hg]
    refine ⟨rfl, fun nr => ?_⟩
    unfold Guards.guardWithNr readAt
    rw [(Guards.eval_count d.breakpoints addr).1]
    split
    · split
      · rw [← List.getElem?_map, ← List.getElem?_map, hev]
      · rfl
    · rfl

theorem Guard.eval_eq_true (g : Guard) (addr : Nat) (h : (g.eval addr).1 = true) :
    g.addr = addr ∧ g.enabled = true ∧ g.skip < wrapLong (g.hits + 1) := by
  simp only [Guard.eval] at h
  split at h
  · rename_i hc
    split at h
    · rename_i hgt
      exact ⟨hc.1, hc.2, hgt⟩
    · simp at h
  · simp at h

theorem Guards.evalLoop_true (addr left i : Nat) (guards : List Guard)
    (h : (Guards.evalLoop addr left i guards).1 = true) :
    ∃ p x, i ≤ p ∧ p < i + left ∧ guards[p]? = some x ∧ (x.eval addr).1 = true := by
  induction left generalizing i guards with
  | zero => simp [Guards.evalLoop] at h
  | succ left ih =>
    unfold Guards.evalLoop at h
    cases hx : guards[i]? with
    | none => simp [hx] at h
    | some x =>
      rw [hx] at h
      simp only at h
      by_cases hr : (x.eval addr).1 = true
      · exact ⟨i, x, le_refl _, by omega, hx, hr⟩
      · rw [if_neg hr] at h
        obtain ⟨p, y, h1, h2, h3, h4⟩ := ih (i + 1) _ h
        rw [List.getElem?_set_ne (by omega)] at h3
        exact ⟨p, y, by omega, by omega, h3, h4⟩

/-- A collection only signals an address at which an enabled guard is stored whose hit
counter has exceeded the skip value. -/
theorem Guards.eval_true (g : Guards) (addr : Nat) (h : (g.eval addr).1 = true) :
    ∃ (nr : Nat) (x : Guard), nr < g.elements ∧ g.guardWithNr (nr : Int) = some x ∧
      x.addr = addr ∧ x.enabled = true ∧ x.skip < wrapLong (x.hits + 1) := by
  obtain ⟨p, x, _, h2, h3, h4⟩ := Guards.evalLoop_true addr g.count 0 g.guards h
  refine ⟨p, x, by unfold Guards.elements; omega, ?_, Guard.eval_eq_true x addr h4⟩
  rw [Guards.guardWithNr_natCast g p (by omega), h3]

/-- C9: a soft breakpoint is deleted when reached. If `softStop` equals the (32 bit)
address `addr`, `breakpointMatches(addr)` returns true, sets `softStop` to the disabled
value `UINT64_MAX - 1` and does not touch the hard breakpoints, so that an immediately
following `breakpointMatches(addr)` returns what the hard breakpoints evaluate to at
`addr`, i.e. true only if a hard breakpoint hits: an enabled guard at `addr` whose hit
counter exceeds its skip value. A hard breakpoint stays in the
collection: after any call of `breakpointMatches` the collection has as many guards as
before and each guard has kept its address, enabled state and skip value. -/
theorem soft_breakpoint_deleted_when_reached (cfg : Config) (d : Debugger)
    (cpu cpu2 : Peddle) (addr : Nat) (haddr : addr < 2 ^ 32) (hs : d.softStop = addr) :
    (d.breakpointMatches cfg cpu addr).1 = true ∧
    (d.breakpointMatches cfg cpu addr).2.1.softStop = UINT64_MAX - 1 ∧
    (d.breakpointMatches cfg cpu addr).2.1.breakpoints = d.breakpoints ∧
    ((d.breakpointMatches cfg cpu addr).2.1.breakpointMatches cfg cpu2 addr).1 =
      (d.breakpoints.eval addr).1 ∧
    (((d.breakpointMatches cfg cpu addr).2.1.breakpointMatches cfg cpu2 addr).1 = true →
      ∃ (nr : Nat) (x : Guard), nr < d.breakpoints.elements ∧
        d.breakpoints.guardWithNr (nr : Int) = some x ∧ x.addr = addr ∧ x.enabled = true ∧
        x.skip < wrapLong (x.hits + 1)) ∧
    (∀ (d1 : Debugger) (cpu1 : Peddle) (a : Nat),
      (d1.breakpointMatches cfg cpu1 a).2.1.breakpoints.elements = d1.breakpoints.elements ∧
      ∀ nr : Int,
        ((d1.breakpointMatches cfg cpu1 a).2.1.breakpoints.guardWithNr nr).map
            (fun x => (x.addr, x.enabled, x.skip)) =
          (d1.breakpoints.guardWithNr nr).map (fun x => (x.addr, x.enabled, x.skip))) := by
  rw [breakpointMatches_of_soft cfg d cpu addr (Or.inl hs.symm)]
  obtain ⟨h1, _, _, _⟩ := breakpointMatches_of_disabled cfg
    { d with softStop := UINT64_MAX - 1 } cpu2 addr haddr rfl
  refine ⟨rfl, rfl, rfl, h1, fun ht => ?_,
    fun d1 cpu1 a => breakpointMatches_keeps_guards cfg d1 cpu1 a⟩
  rw [h1] at ht
  exact Guards.eval_true d.breakpoints addr ht

/-- C10: step into. When `softStop` equals `UINT64_MAX`, `breakpointMatches(addr)`
returns true for every address `addr`, whatever breakpoints are stored, and disarms the
soft stop: `softStop` becomes `UINT64_MAX - 1`, the hard breakpoints are not evaluated,
and a following call for a 32 bit address is decided by the hard breakpoints alone. -/
theorem step_into_always_matches (cfg : Config) (d : Debugger) (cpu : Peddle) (addr : Nat)
    (hs : d.softStop = UINT64_MAX) :
    (d.breakpointMatches cfg cpu addr).1 = true ∧
    (d.breakpointMatches cfg cpu addr).2.1.softStop = UINT64_MAX - 1 ∧
    (d.breakpointMatches cfg cpu addr).2.1.breakpoints = d.breakpoints ∧
    ∀ (cpu2 : Peddle) (addr2 : Nat), addr2 < 2 ^ 32 →
      ((d.breakpointMatches cfg cpu addr).2.1.breakpointMatches cfg cpu2 addr2).1 =
        (d.breakpoints.eval addr2).1 := by
  rw [breakpointMatches_of_soft cfg d cpu addr (Or.inr hs)]
  refine ⟨rfl, rfl, rfl, fun cpu2 addr2 h2 => ?_⟩
  exact (breakpointMatches_of_disabled cfg { d with softStop := UINT64_MAX - 1 } cpu2 addr2
    h2 rfl).1

theorem soft_breakpoint_deleted_when_reached_witness :
    ((1545 : Nat) < 2 ^ 32 ∧ exampleStepOver.softStop = 1545) ∧
    ((exampleStepOver.breakpointMatches exampleConfig (exampleCpu 9) 1545).1 = true ∧
    (exampleStepOver.breakpointMatches exampleConfig (exampleCpu 9) 1545).2.1.softStop =
      UINT64_MAX - 1 ∧
    (exampleStepOver.breakpointMatches exampleConfig (exampleCpu 9) 1545).2.1.breakpoints =
      exampleStepOver.breakpoints ∧
    ((exampleStepOver.breakpointMatches exampleConfig (exampleCpu 9)
        1545).2.1.breakpointMatches exampleConfig (exampleCpu 9) 1545).1 =
      (exampleStepOver.breakpoints.eval 1545).1 ∧
    (((exampleStepOver.breakpointMatches exampleConfig (exampleCpu 9)
        1545).2.1.breakpointMatches exampleConfig (exampleCpu 9) 1545).1 = true →
      ∃ (nr : Nat) (x : Guard), nr < exampleStepOver.breakpoints.elements ∧
        exampleStepOver.breakpoints.guardWithNr (nr : Int) = some x ∧ x.addr = 1545 ∧
        x.enabled = true ∧ x.skip < wrapLong (x.hits + 1)) ∧
    (∀ (d1 : Debugger) (cpu1 : Peddle) (a : Nat),
      (d1.breakpointMatches exampleConfig cpu1 a).2.1.breakpoints.elements =
        d1.breakpoints.elements ∧
      ∀ nr : Int,
        ((d1.breakpointMatches exampleConfig cpu1 a).2.1.breakpoints.guardWithNr nr).map
            (fun x => (x.addr, x.enabled, x.skip)) =
          (d1.breakpoints.guardWithNr nr).map (fun x => (x.addr, x.enabled, x.skip)))) :=
  ⟨⟨by decide, rfl⟩,
    soft_breakpoint_deleted_when_reached exampleConfig exampleStepOver (exampleCpu 9)
      (exampleCpu 9) 1545 (by decide) rfl⟩

theorem step_into_always_matches_witness :
    exampleStepInto.softStop = UINT64_MAX ∧
    ((exampleStepInto.breakpointMatches exampleConfig (exampleCpu 9) 1536).1 = true ∧
    (exampleStepInto.breakpointMatches exampleConfig (exampleCpu 9) 1536).2.1.softStop =
      UINT64_MAX - 1 ∧
    (exampleStepInto.breakpointMatches exampleConfig (exampleCpu 9) 1536).2.1.breakpoints =
      exampleStepInto.breakpoints ∧
    ∀ (cpu2 : Peddle) (addr2 : Nat), addr2 < 2 ^ 32 →
      ((exampleStepInto.breakpointMatches exampleConfig (exampleCpu 9)
          1536).2.1.breakpointMatches exampleConfig cpu2 addr2).1 =
        (exampleStepInto.breakpoints.eval addr2).1) :=
  ⟨rfl, step_into_always_matches exampleConfig exampleStepInto (exampleCpu 9) 1536 rfl⟩

/-! ## Printing: digits and numerals -/

theorem exists_cons_of_length {α : Type} {n : Nat} {l : List α} (h : l.length = n + 1) :
    ∃ a t, l = a :: t ∧ t.length = n := by
  cases l with
  | nil => simp at h
  | cons a t => exact ⟨a, t, rfl, by simpa using h⟩

theorem hexChar_ne_NUL (x : Nat) : (hexChar (x % 16) != NUL) = true := by
  have h : x % 16 < 16 := Nat.mod_lt _ (by norm_num)
  generalize x % 16 = k at h
  interval_cases k <;> decide

theorem decChar_ne_NUL (x : Nat) : (decChar (x % 10) != NUL) = true := by
  have h : x % 10 < 10 := Nat.mod_lt _ (by norm_num)
  generalize x % 10 = k at h
  interval_cases k <;> decide

theorem digitValue_hexChar (x : Nat) : digitValue (hexChar (x % 16)) = some (x % 16) := by
  have h : x % 16 < 16 := Nat.mod_lt _ (by norm_num)
  generalize x % 16 = k at h
  interval_cases k <;> decide

theorem digitValue_decChar (x : Nat) : digitValue (decChar (x % 10)) = some (x % 10) := by
  have h : x % 10 < 10 := Nat.mod_lt _ (by norm_num)
  generalize x % 10 = k at h
  interval_cases k <;> decide

theorem numeralValue_hex2 (v : Nat) (h : v < 256) :
    numeralValue 16 [hexChar (v / 16 % 16), hexChar (v % 16)] = some v := by
  simp only [numeralValue, numeralValueFrom, digitValue_hexChar]
  have h1 : v / 16 % 16 < 16 := Nat.mod_lt _ (by norm_num)
  have h2 : v % 16 < 16 := Nat.mod_lt _ (by norm_num)
  simp only [h1, h2, if_true]
  congr 1
  omega

theorem numeralValue_hex4 (v : Nat) (h : v < 65536) :
    numeralValue 16 [hexChar (v / 16 / 16 / 16 % 16), hexChar (v / 16 / 16 % 16),
      hexChar (v / 16 % 16), hexChar (v % 16)] = some v := by
  simp only [numeralValue, numeralValueFrom, digitValue_hexChar]
  have h1 : v / 16 / 16 / 16 % 16 < 16 := Nat.mod_lt _ (by norm_num)
  have h2 : v / 16 / 16 % 16 < 16 := Nat.mod_lt _ (by norm_num)
  have h3 : v / 16 % 16 < 16 := Nat.mod_lt _ (by norm_num)
  have h4 : v % 16 < 16 := Nat.mod_lt _ (by norm_num)
  simp only [h1, h2, h3, h4, if_true]
  congr 1
  omega

theorem numeralValue_dec3 (v : Nat) (h : v < 256) :
    numeralValue 10 [decChar (v / 10 / 10 % 10), decChar (v / 10 % 10), decChar (v % 10)] =
      some v := by
  simp only [numeralValue, numeralValueFrom, digitValue_decChar]
  have h1 : v / 10 / 10 % 10 < 10 := Nat.mod_lt _ (by norm_num)
  have h2 : v / 10 % 10 < 10 := Nat.mod_lt _ (by norm_num)
  have h3 : v % 10 < 10 := Nat.mod_lt _ (by norm_num)
  simp only [h1, h2, h3, if_true]
  congr 1
  omega

theorem numeralValue_dec5 (v : Nat) (h : v < 65536) :
    numeralValue 10 [decChar (v / 10 / 10 / 10 / 10 % 10), decChar (v / 10 / 10 / 10 % 10),
      decChar (v / 10 / 10 % 10), decChar (v / 10 % 10), decChar (v % 10)] = some v := by
  simp only [numeralValue, numeralValueFrom, digitValue_decChar]
  have h1 : v / 10 / 10 / 10 / 10 % 10 < 10 := Nat.mod_lt _ (by norm_num)
  have h2 : v / 10 / 10 / 10 % 10 < 10 := Nat.mod_lt _ (by norm_num)
  have h3 : v / 10 / 10 % 10 < 10 := Nat.mod_lt _ (by norm_num)
  have h4 : v / 10 % 10 < 10 := Nat.mod_lt _ (by norm_num)
  have h5 : v % 10 < 10 := Nat.mod_lt _ (by norm_num)
  simp only [h1, h2, h3, h4, h5, if_true]
  congr 1
  omega

/-! ## Disassembler: the text of an instruction -/

/-- The operand array after the conversion, for the modes with a one byte operand. -/
theorem convertOperand_byte (hex : Bool) (d : Debugger) (instr : RecordedInstruction)
    (hmode : d.addressingMode instr.byte1 = ADDR_IMMEDIATE ∨
      d.addressingMode instr.byte1 = ADDR_ZERO_PAGE ∨
      d.addressingMode instr.byte1 = ADDR_ZERO_PAGE_X ∨
      d.addressingMode instr.byte1 = ADDR_ZERO_PAGE_Y ∨
      d.addressingMode instr.byte1 = ADDR_INDIRECT_X ∨
      d.addressingMode instr.byte1 = ADDR_INDIRECT_Y) :
    d.convertOperand hex instr =
      if hex then [hexChar (instr.byte2 / 16 % 16), hexChar (instr.byte2 % 16),
        NUL, NUL, NUL, NUL]
      else [decChar (instr.byte2 / 10 / 10 % 10), decChar (instr.byte2 / 10 % 10),
        decChar (instr.byte2 % 10), NUL, NUL, NUL] := by
  rcases hmode with h | h | h | h | h | h <;> cases hex <;>
    simp [Debugger.convertOperand, h, sprint8x, sprint8d, sprintLoop, List.replicate]

/-- The operand array after the conversion of a 16 bit value. -/
theorem sprint16_operand (hex : Bool) (v : Nat) :
    (if hex then sprint16x (List.replicate 6 NUL) 0 v
      else sprint16d (List.replicate 6 NUL) 0 v) =
      if hex then [hexChar (v / 16 / 16 / 16 % 16), hexChar (v / 16 / 16 % 16),
        hexChar (v / 16 % 16), hexChar (v % 16), NUL, NUL]
      else [decChar (v / 10 / 10 / 10 / 10 % 10), decChar (v / 10 / 10 / 10 % 10),
        decChar (v / 10 / 10 % 10), decChar (v / 10 % 10), decChar (v % 10), NUL] := by
  cases hex <;> simp [sprint16x, sprint16d, sprintLoop, List.replicate]

theorem convertOperand_word (hex : Bool) (d : Debugger) (instr : RecordedInstruction)
    (hmode : d.addressingMode instr.byte1 = ADDR_ABSOLUTE ∨
      d.addressingMode instr.byte1 = ADDR_ABSOLUTE_X ∨
      d.addressingMode instr.byte1 = ADDR_ABSOLUTE_Y ∨
      d.addressingMode instr.byte1 = ADDR_DIRECT ∨
      d.addressingMode instr.byte1 = ADDR_INDIRECT) :
    d.convertOperand hex instr =
      if hex then sprint16x (List.replicate 6 NUL) 0 (LO_HI instr.byte2 instr.byte3)
      else sprint16d (List.replicate 6 NUL) 0 (LO_HI instr.byte2 instr.byte3) := by
  rcases hmode with h | h | h | h | h <;> simp [Debugger.convertOperand, h]

theorem convertOperand_relative (hex : Bool) (d : Debugger) (instr : RecordedInstruction)
    (hmode : d.addressingMode instr.byte1 = ADDR_RELATIVE) :
    d.convertOperand hex instr =
      if hex then sprint16x (List.replicate 6 NUL) 0
        (toU16 ((instr.pc : Int) + 2 + toI8 instr.byte2))
      else sprint16d (List.replicate 6 NUL) 0
        (toU16 ((instr.pc : Int) + 2 + toI8 instr.byte2)) := by
  simp [Debugger.convertOperand, hmode]

theorem cstr_cons_of_ne (c : Char) (l : List Char) (h : (c != NUL) = true) :
    cstr (c :: l) = c :: cstr l := by
  simp only [cstr, List.takeWhile_cons, h, if_true]

theorem cstr_NUL_cons (l : List Char) : cstr (NUL :: l) = [] := by
  simp [cstr, List.takeWhile_cons]

theorem pattern_chars_ne_NUL :
    ((' ' != NUL) = true) ∧ (('#' != NUL) = true) ∧ (('(' != NUL) = true) ∧
    ((')' != NUL) = true) ∧ ((',' != NUL) = true) ∧ (('X' != NUL) = true) ∧
    (('Y' != NUL) = true) := by decide

/-- The text in `result` after the pattern was filled with the operand and the mnemonic
was copied over its first three characters. -/
theorem fillPattern_cstr (hex : Bool) (d : Debugger) (result op m : List Char)
    (instr : RecordedInstruction) (h16 : result.length = 16) (hop : op.length = 6)
    (hm : m.length = 3) (hmn : ∀ c ∈ m, (c != NUL) = true)
    (hon : ∀ c ∈ op.take (operandWidth hex (d.addressingMode instr.byte1)),
      (c != NUL) = true) :
    cstr (strncpy (d.fillPattern hex result op instr) m 3) =
      match d.addressingMode instr.byte1 with
      | ADDR_IMPLIED | ADDR_ACCUMULATOR => m
      | mode => m ++ [' '] ++ operandPrefix mode ++ op.take (operandWidth hex mode) ++
          operandSuffix mode := by
  obtain ⟨r0, rt0, rfl, h16_0⟩ := exists_cons_of_length h16
  obtain ⟨r1, rt1, rfl, h16_1⟩ := exists_cons_of_length h16_0
  obtain ⟨r2, rt2, rfl, h16_2⟩ := exists_cons_of_length h16_1
  obtain ⟨r3, rt3, rfl, h16_3⟩ := exists_cons_of_length h16_2
  obtain ⟨r4, rt4, rfl, h16_4⟩ := exists_cons_of_length h16_3
  obtain ⟨r5, rt5, rfl, h16_5⟩ := exists_cons_of_length h16_4
  obtain ⟨r6, rt6, rfl, h16_6⟩ := exists_cons_of_length h16_5
  obtain ⟨r7, rt7, rfl, h16_7⟩ := exists_cons_of_length h16_6
  obtain ⟨r8, rt8, rfl, h16_8⟩ := exists_cons_of_length h16_7
  obtain ⟨r9, rt9, rfl, h16_9⟩ := exists_cons_of_length h16_8
  obtain ⟨r10, rt10, rfl, h16_10⟩ := exists_cons_of_length h16_9
  obtain ⟨r11, rt11, rfl, h16_11⟩ := exists_cons_of_length h16_10
  obtain ⟨r12, rt12, rfl, h16_12⟩ := exists_cons_of_length h16_11
  obtain ⟨r13, rt13, rfl, h16_13⟩ := exists_cons_of_length h16_12
  obtain ⟨r14, rt14, rfl, h16_14⟩ := exists_cons_of_length h16_13
  obtain ⟨r15, rt15, rfl, h16_15⟩ := exists_cons_of_length h16_14
  obtain rfl := List.length_eq_zero.mp h16_15
  obtain ⟨o0, ot0, rfl, hop_0⟩ := exists_cons_of_length hop
  obtain ⟨o1, ot1, rfl, hop_1⟩ := exists_cons_of_length hop_0
  obtain ⟨o2, ot2, rfl, hop_2⟩ := exists_cons_of_length hop_1
  obtain ⟨o3, ot3, rfl, hop_3⟩ := exists_cons_of_length hop_2
  obtain ⟨o4, ot4, rfl, hop_4⟩ := exists_cons_of_length hop_3
  obtain ⟨o5, ot5, rfl, hop_5⟩ := exists_cons_of_length hop_4
  obtain rfl := List.length_eq_zero.mp hop_5
  obtain ⟨m0, mt0, rfl, hm_0⟩ := exists_cons_of_length hm
  obtain ⟨m1, mt1, rfl, hm_1⟩ := exists_cons_of_length hm_0
  obtain ⟨m2, mt2, rfl, hm_2⟩ := exists_cons_of_length hm_1
  obtain rfl := List.length_eq_zero.mp hm_2
  obtain ⟨p1, p2, p3, p4, p5, p6, p7⟩ := pattern_chars_ne_NUL
  have hm0 := hmn m0 (by simp)
  have hm1 := hmn m1 (by simp)
  have hm2 := hmn m2 (by simp)
  clear h16 h16_0 h16_1 h16_2 h16_3 h16_4 h16_5 h16_6 h16_7 h16_8 h16_9 h16_10 h16_11 h16_12
    h16_13 h16_14 h16_15 hop hop_0 hop_1 hop_2 hop_3 hop_4 hop_5 hm hm_0 hm_1 hm_2 hmn
  unfold Debugger.fillPattern
  cases hmode : d.addressingMode instr.byte1 <;> cases hex <;>
    rw [hmode] at hon <;>
    dsimp only [operandWidth, List.take, if_true, if_false, Bool.false_eq_true] at hon <;>
    simp only [List.mem_cons, List.mem_singleton, forall_eq_or_imp, forall_eq,
      List.not_mem_nil, IsEmpty.forall_iff, implies_true, and_true, if_true, if_false,
      Bool.false_eq_true, List.take] at hon <;>
    dsimp only [operandPrefix, operandSuffix, operandWidth, if_true, if_false,
      Bool.false_eq_true] <;>
    dsimp only [strcpy, memcpy, strncpy, List.take, List.cons_append, List.nil_append,
      List.length_cons, List.length_nil, List.replicate, List.append_nil, writeChars,
      List.set] <;>
    simp only [cstr_cons_of_ne, cstr_NUL_cons, hm0, hm1, hm2, hon, p1, p2, p3, p4, p5,
      p6, p7, if_true, if_false, Bool.false_eq_true, List.take, List.cons_append,
      List.nil_append, List.append_nil]

/-- The digits `sprint8x` resp. `sprint8d` produce for `v`. -/
theorem byteDigits_ne_NUL (hex : Bool) (v : Nat) :
    ∀ c ∈ (if hex then [hexChar (v / 16 % 16), hexChar (v % 16)]
      else [decChar (v / 10 / 10 % 10), decChar (v / 10 % 10), decChar (v % 10)]),
      (c != NUL) = true := by
  intro c hc
  cases hex
  · simp only [Bool.false_eq_true, if_false, List.mem_cons, List.mem_singleton,
      List.not_mem_nil, or_false] at hc
    rcases hc with rfl | rfl | rfl <;> exact decChar_ne_NUL _
  · simp only [if_true, List.mem_cons, List.mem_singleton, List.not_mem_nil, or_false] at hc
    rcases hc with rfl | rfl <;> exact hexChar_ne_NUL _

theorem wordDigits_ne_NUL (hex : Bool) (v : Nat) :
    ∀ c ∈ (if hex then [hexChar (v / 16 / 16 / 16 % 16), hexChar (v / 16 / 16 % 16),
        hexChar (v / 16 % 16), hexChar (v % 16)]
      else [decChar (v / 10 / 10 / 10 / 10 % 10), decChar (v / 10 / 10 / 10 % 10),
        decChar (v / 10 / 10 % 10), decChar (v / 10 % 10), decChar (v % 10)]),
      (c != NUL) = true := by
  intro c hc
  cases hex
  · simp only [Bool.false_eq_true, if_false, List.mem_cons, List.mem_singleton,
      List.not_mem_nil, or_false] at hc
    rcases hc with rfl | rfl | rfl | rfl | rfl <;> exact decChar_ne_NUL _
  · simp only [if_true, List.mem_cons, List.mem_singleton, List.not_mem_nil, or_false] at hc
    rcases hc with rfl | rfl | rfl | rfl <;> exact hexChar_ne_NUL _

/-- Text of an instruction whose operand is one byte. -/
theorem disassembleInstrT_byte (hex : Bool) (d : Debugger) (result : List Char)
    (instr : RecordedInstruction) (h16 : result.length = 16)
    (hm : (d.mnemonic instr.byte1).length = 3)
    (hmn : ∀ c ∈ d.mnemonic instr.byte1, (c != NUL) = true)
    (hmode : d.addressingMode instr.byte1 = ADDR_IMMEDIATE ∨
      d.addressingMode instr.byte1 = ADDR_ZERO_PAGE ∨
      d.addressingMode instr.byte1 = ADDR_ZERO_PAGE_X ∨
      d.addressingMode instr.byte1 = ADDR_ZERO_PAGE_Y ∨
      d.addressingMode instr.byte1 = ADDR_INDIRECT_X ∨
      d.addressingMode instr.byte1 = ADDR_INDIRECT_Y) :
    cstr (d.disassembleInstrT hex result instr).1 =
      d.mnemonic instr.byte1 ++ [' '] ++ operandPrefix (d.addressingMode instr.byte1) ++
        (if hex then [hexChar (instr.byte2 / 16 % 16), hexChar (instr.byte2 % 16)]
          else [decChar (instr.byte2 / 10 / 10 % 10), decChar (instr.byte2 / 10 % 10),
            decChar (instr.byte2 % 10)]) ++
        operandSuffix (d.addressingMode instr.byte1) := by
  have hop := convertOperand_byte hex d instr hmode
  have htake : (d.convertOperand hex instr).take
      (operandWidth hex (d.addressingMode instr.byte1)) =
      (if hex then [hexChar (instr.byte2 / 16 % 16), hexChar (instr.byte2 % 16)]
        else [decChar (instr.byte2 / 10 / 10 % 10), decChar (instr.byte2 / 10 % 10),
          decChar (instr.byte2 % 10)]) := by
    rw [hop]
    rcases hmode with h | h | h | h | h | h <;> cases hex <;> simp [h, operandWidth]
  have h := fillPattern_cstr hex d result (d.convertOperand hex instr)
    (d.mnemonic instr.byte1) instr h16 (by rw [hop]; cases hex <;> rfl) hm hmn
    (by rw [htake]; exact byteDigits_ne_NUL hex instr.byte2)
  simp only [Debugger.disassembleInstrT]
  rw [h]
  rcases hmode with hmd | hmd | hmd | hmd | hmd | hmd <;>
    simp only [hmd] at htake ⊢ <;> rw [htake]

/-- Text of an instruction whose operand is a 16 bit value `v`. -/
theorem disassembleInstrT_word (hex : Bool) (d : Debugger) (result : List Char)
    (instr : RecordedInstruction) (v : Nat) (h16 : result.length = 16)
    (hm : (d.mnemonic instr.byte1).length = 3)
    (hmn : ∀ c ∈ d.mnemonic instr.byte1, (c != NUL) = true)
    (hmode : (v = LO_HI instr.byte2 instr.byte3 ∧
        (d.addressingMode instr.byte1 = ADDR_ABSOLUTE ∨
        d.addressingMode instr.byte1 = ADDR_ABSOLUTE_X ∨
        d.addressingMode instr.byte1 = ADDR_ABSOLUTE_Y ∨
        d.addressingMode instr.byte1 = ADDR_DIRECT ∨
        d.addressingMode instr.byte1 = ADDR_INDIRECT)) ∨
      (v = toU16 ((instr.pc : Int) + 2 + toI8 instr.byte2) ∧
        d.addressingMode instr.byte1 = ADDR_RELATIVE)) :
    cstr (d.disassembleInstrT hex result instr).1 =
      d.mnemonic instr.byte1 ++ [' '] ++ operandPrefix (d.addressingMode instr.byte1) ++
        (if hex then [hexChar (v / 16 / 16 / 16 % 16), hexChar (v / 16 / 16 % 16),
            hexChar (v / 16 % 16), hexChar (v % 16)]
          else [decChar (v / 10 / 10 / 10 / 10 % 10), decChar (v / 10 / 10 / 10 % 10),
            decChar (v / 10 / 10 % 10), decChar (v / 10 % 10), decChar (v % 10)]) ++
        operandSuffix (d.addressingMode instr.byte1) := by
  have hop : d.convertOperand hex instr =
      if hex then [hexChar (v / 16 / 16 / 16 % 16), hexChar (v / 16 / 16 % 16),
        hexChar (v / 16 % 16), hexChar (v % 16), NUL, NUL]
      else [decChar (v / 10 / 10 / 10 / 10 % 10), decChar (v / 10 / 10 / 10 % 10),
        decChar (v / 10 / 10 % 10), decChar (v / 10 % 10), decChar (v % 10), NUL] := by
    rw [← sprint16_operand hex v]
    rcases hmode with ⟨hv, hw⟩ | ⟨hv, hr⟩
    · rw [hv]; exact convertOperand_word hex d instr hw
    · rw [hv]; exact convertOperand_relative hex d instr hr
  have hmode1 : d.addressingMode instr.byte1 = ADDR_ABSOLUTE ∨
      d.addressingMode instr.byte1 = ADDR_ABSOLUTE_X ∨
      d.addressingMode instr.byte1 = ADDR_ABSOLUTE_Y ∨
      d.addressingMode instr.byte1 = ADDR_DIRECT ∨
      d.addressingMode instr.byte1 = ADDR_INDIRECT ∨
      d.addressingMode instr.byte1 = ADDR_RELATIVE := by
    rcases hmode with ⟨_, h | h | h | h | h⟩ | ⟨_, h⟩ <;> simp [h]
  have htake : (d.convertOperand hex instr).take
      (operandWidth hex (d.addressingMode instr.byte1)) =
      (if hex then [hexChar (v / 16 / 16 / 16 % 16), hexChar (v / 16 / 16 % 16),
          hexChar (v / 16 % 16), hexChar (v % 16)]
        else [decChar (v / 10 / 10 / 10 / 10 % 10), decChar (v / 10 / 10 / 10 % 10),
          decChar (v / 10 / 10 % 10), decChar (v / 10 % 10), decChar (v % 10)]) := by
    rw [hop]
    rcases hmode1 with h | h | h | h | h | h <;> cases hex <;> simp [h, operandWidth]
  have h := fillPattern_cstr hex d result (d.convertOperand hex instr)
    (d.mnemonic instr.byte1) instr h16 (by rw [hop]; cases hex <;> rfl) hm hmn
    (by rw [htake]; exact wordDigits_ne_NUL hex v)
  simp only [Debugger.disassembleInstrT]
  rw [h]
  rcases hmode1 with hmd | hmd | hmd | hmd | hmd | hmd <;>
    simp only [hmd] at htake ⊢ <;> rw [htake]

/-- Text of an instruction without operand. -/
theorem disassembleInstrT_implied (hex : Bool) (d : Debugger) (result : List Char)
    (instr : RecordedInstruction) (h16 : result.length = 16)
    (hm : (d.mnemonic instr.byte1).length = 3)
    (hmn : ∀ c ∈ d.mnemonic instr.byte1, (c != NUL) = true)
    (hmode : d.addressingMode instr.byte1 = ADDR_IMPLIED ∨
      d.addressingMode instr.byte1 = ADDR_ACCUMULATOR) :
    cstr (d.disassembleInstrT hex result instr).1 = d.mnemonic instr.byte1 := by
  have hop : (d.convertOperand hex instr).length = 6 := by
    rcases hmode with h | h <;> simp [Debugger.convertOperand, h]
  have h := fillPattern_cstr hex d result (d.convertOperand hex instr)
    (d.mnemonic instr.byte1) instr h16 hop hm hmn
    (by rcases hmode with h | h <;> simp [h, operandWidth])
  simp only [Debugger.disassembleInstrT]
  rw [h]
  rcases hmode with h | h <;> simp only [h]

/-! ## Soft stops, instruction lengths and the processor port: the claims -/

theorem Guards.eval_of_empty (g : Guards) (addr : Nat) (h : g.elements = 0) :
    g.eval addr = (false, g) := by
  cases g with
  | mk capacity guards count =>
    simp only [Guards.elements] at h
    subst h
    rfl

/-- C11: `UINT64_MAX - 1` is an unreachable location. When `softStop = UINT64_MAX - 1`,
for every 32 bit address `addr` the call `breakpointMatches(addr)` returns exactly what
`breakpoints.eval(addr)` returns (and leaves the collection in the state `eval` leaves it
in), `softStop` is left unchanged, and with an empty breakpoint collection the result is
false. -/
theorem disabled_soft_stop_never_matches (cfg : Config) (d : Debugger) (cpu : Peddle)
    (addr : Nat) (haddr : addr < 2 ^ 32) (hs : d.softStop = UINT64_MAX - 1) :
    (d.breakpointMatches cfg cpu addr).1 = (d.breakpoints.eval addr).1 ∧
    (d.breakpointMatches cfg cpu addr).2.1.breakpoints = (d.breakpoints.eval addr).2 ∧
    (d.breakpointMatches cfg cpu addr).2.1.softStop = d.softStop ∧
    (d.breakpoints.elements = 0 → (d.breakpointMatches cfg cpu addr).1 = false) := by
  obtain ⟨h1, h2, h3, _⟩ := breakpointMatches_of_disabled cfg d cpu addr haddr hs
  refine ⟨h1, h3, by rw [h2, hs], fun he => ?_⟩
  rw [h1, Guards.eval_of_empty d.breakpoints addr he]

theorem disabled_soft_stop_never_matches_witness :
    ((1545 : Nat) < 2 ^ 32 ∧ exampleDebugger.softStop = UINT64_MAX - 1) ∧
    ((exampleDebugger.breakpointMatches exampleConfig (exampleCpu 9) 1545).1 =
      (exampleDebugger.breakpoints.eval 1545).1 ∧
    (exampleDebugger.breakpointMatches exampleConfig (exampleCpu 9) 1545).2.1.breakpoints =
      (exampleDebugger.breakpoints.eval 1545).2 ∧
    (exampleDebugger.breakpointMatches exampleConfig (exampleCpu 9) 1545).2.1.softStop =
      exampleDebugger.softStop ∧
    (exampleDebugger.breakpoints.elements = 0 →
      (exampleDebugger.breakpointMatches exampleConfig (exampleCpu 9) 1545).1 = false)) :=
  ⟨⟨by decide, rfl⟩,
    disabled_soft_stop_never_matches exampleConfig exampleDebugger (exampleCpu 9) 1545
      (by decide) rfl⟩

/-- C12: for every opcode, `getLengthOfInstruction` returns 1, 2 or 3, and the value is
determined by the addressing mode of the opcode: 1 exactly for Implied and Accumulator;
2 exactly for Immediate, ZeroPage, ZeroPageX, ZeroPageY, IndirectX, IndirectY and
Relative; 3 exactly for Absolute, AbsoluteX, AbsoluteY, Direct and Indirect. -/
theorem getLengthOfInstruction_by_mode (d : Debugger) (opcode : Nat) :
    (d.getLengthOfInstruction opcode = 1 ∨ d.getLengthOfInstruction opcode = 2 ∨
      d.getLengthOfInstruction opcode = 3) ∧
    (d.getLengthOfInstruction opcode = 1 ↔
      d.addressingMode opcode = ADDR_IMPLIED ∨ d.addressingMode opcode = ADDR_ACCUMULATOR) ∧
    (d.getLengthOfInstruction opcode = 2 ↔
      d.addressingMode opcode = ADDR_IMMEDIATE ∨ d.addressingMode opcode = ADDR_ZERO_PAGE ∨
      d.addressingMode opcode = ADDR_ZERO_PAGE_X ∨ d.addressingMode opcode = ADDR_ZERO_PAGE_Y ∨
      d.addressingMode opcode = ADDR_INDIRECT_X ∨ d.addressingMode opcode = ADDR_INDIRECT_Y ∨
      d.addressingMode opcode = ADDR_RELATIVE) ∧
    (d.getLengthOfInstruction opcode = 3 ↔
      d.addressingMode opcode = ADDR_ABSOLUTE ∨ d.addressingMode opcode = ADDR_ABSOLUTE_X ∨
      d.addressingMode opcode = ADDR_ABSOLUTE_Y ∨ d.addressingMode opcode = ADDR_DIRECT ∨
      d.addressingMode opcode = ADDR_INDIRECT) := by
  unfold Debugger.getLengthOfInstruction
  cases d.addressingMode opcode <;> simp

/-- C20: the direction and data registers of the processor port are written
independently. For every byte `v`, after `writePortDir(v)` `readPortDir()` returns `v`
and the data register is unchanged; `writePort(v)` sets the data register to `v` and
leaves the direction register, hence `readPortDir()`, unchanged. Neither call changes
another register, the clock or the flags. -/
theorem port_registers_written_independently (cpu : Peddle) (v : Nat) :
    (cpu.writePortDir v).readPortDir = v ∧
    (cpu.writePortDir v).reg.pport.data = cpu.reg.pport.data ∧
    (cpu.writePort v).reg.pport.data = v ∧
    (cpu.writePort v).reg.pport.direction = cpu.reg.pport.direction ∧
    (cpu.writePort v).readPortDir = cpu.readPortDir ∧
    (cpu.writePortDir v).reg = { cpu.reg with pport := { cpu.reg.pport with direction := v } } ∧
    (cpu.writePort v).reg = { cpu.reg with pport := { cpu.reg.pport with data := v } } ∧
    (cpu.writePortDir v).clock = cpu.clock ∧ (cpu.writePortDir v).flags = cpu.flags ∧
    (cpu.writePort v).clock = cpu.clock ∧ (cpu.writePort v).flags = cpu.flags :=
  ⟨rfl, rfl, rfl, rfl, rfl, rfl, rfl, rfl, rfl, rfl, rfl⟩

/-! ## Disassembler: the claims about instructions -/

theorem Debugger.disassembleInstr_eq (d : Debugger) (result : List Char)
    (instr : RecordedInstruction) :
    d.disassembleInstr result instr = d.disassembleInstrT d.hex result instr := by
  unfold Debugger.disassembleInstr
  cases d.hex <;> rfl

theorem ne_NUL_of_not_mem (m : List Char) (h : NUL ∉ m) : ∀ c ∈ m, (c != NUL) = true := by
  intro c hc
  simp only [bne_iff_ne, ne_eq]
  rintro rfl
  exact h hc

theorem LO_HI_eq (x y : Nat) (hx : x < 256) (hy : y < 256) : LO_HI x y = x + 256 * y := by
  unfold LO_HI
  rw [Nat.shiftLeft_eq, Nat.mul_comm y (2 ^ 8), ← Nat.mul_add_lt_is_or (by omega) y]
  omega

theorem toI8_eq (b : Nat) (hb : b < 256) :
    toI8 b = if b < 128 then (b : Int) else (b : Int) - 256 := by
  unfold toI8
  rw [Nat.mod_eq_of_lt hb]

theorem toU16_lt (x : Int) : toU16 x < 65536 := by
  unfold toU16
  omega

theorem isSome_digitValue_hexChar (x : Nat) : (digitValue (hexChar (x % 16))).isSome = true := by
  rw [digitValue_hexChar]
  rfl

/-- The digits of a one byte operand denote the byte. -/
theorem byteDigits_value (hex : Bool) (v : Nat) (hv : v < 256) :
    (if hex then [hexChar (v / 16 % 16), hexChar (v % 16)]
      else [decChar (v / 10 / 10 % 10), decChar (v / 10 % 10), decChar (v % 10)]).length =
      (if hex then 2 else 3) ∧
    numeralValue (if hex then 16 else 10)
      (if hex then [hexChar (v / 16 % 16), hexChar (v % 16)]
      else [decChar (v / 10 / 10 % 10), decChar (v / 10 % 10), decChar (v % 10)]) =
      some v := by
  cases hex
  · exact ⟨rfl, numeralValue_dec3 v hv⟩
  · exact ⟨rfl, numeralValue_hex2 v hv⟩

/-- The digits of a 16 bit operand denote its value. -/
theorem wordDigits_value (hex : Bool) (v : Nat) (hv : v < 65536) :
    (if hex then [hexChar (v / 16 / 16 / 16 % 16), hexChar (v / 16 / 16 % 16),
        hexChar (v / 16 % 16), hexChar (v % 16)]
      else [decChar (v / 10 / 10 / 10 / 10 % 10), decChar (v / 10 / 10 / 10 % 10),
        decChar (v / 10 / 10 % 10), decChar (v / 10 % 10), decChar (v % 10)]).length =
      (if hex then 4 else 5) ∧
    numeralValue (if hex then 16 else 10)
      (if hex then [hexChar (v / 16 / 16 / 16 % 16), hexChar (v / 16 / 16 % 16),
        hexChar (v / 16 % 16), hexChar (v % 16)]
      else [decChar (v / 10 / 10 / 10 / 10 % 10), decChar (v / 10 / 10 / 10 % 10),
        decChar (v / 10 / 10 % 10), decChar (v / 10 % 10), decChar (v % 10)]) =
      some v := by
  cases hex
  · exact ⟨rfl, numeralValue_dec5 v hv⟩
  · exact ⟨rfl, numeralValue_hex4 v hv⟩

/-- The text of every instruction starts with the mnemonic. -/
theorem disassembleInstrT_mnemonic (hex : Bool) (d : Debugger) (result : List Char)
    (instr : RecordedInstruction) (h16 : result.length = 16)
    (hm : (d.mnemonic instr.byte1).length = 3)
    (hmn : ∀ c ∈ d.mnemonic instr.byte1, (c != NUL) = true) :
    ∃ rest, cstr (d.disassembleInstrT hex result instr).1 = d.mnemonic instr.byte1 ++ rest := by
  cases hmode : d.addressingMode instr.byte1
  case ADDR_IMPLIED =>
    exact ⟨[], by rw [disassembleInstrT_implied hex d result instr h16 hm hmn (Or.inl hmode),
      List.append_nil]⟩
  case ADDR_ACCUMULATOR =>
    exact ⟨[], by rw [disassembleInstrT_implied hex d result instr h16 hm hmn (Or.inr hmode),
      List.append_nil]⟩
  case ADDR_RELATIVE =>
    exact ⟨_, by rw [disassembleInstrT_word hex d result instr _ h16 hm hmn
      (Or.inr ⟨rfl, hmode⟩), List.append_assoc, List.append_assoc, List.append_assoc]⟩
  case ADDR_ABSOLUTE | ADDR_ABSOLUTE_X | ADDR_ABSOLUTE_Y | ADDR_DIRECT | ADDR_INDIRECT =>
    exact ⟨_, by rw [disassembleInstrT_word hex d result instr _ h16 hm hmn
      (Or.inl ⟨rfl, by simp [hmode]⟩), List.append_assoc, List.append_assoc,
      List.append_assoc]⟩
  all_goals
    exact ⟨_, by rw [disassembleInstrT_byte hex d result instr h16 hm hmn (by simp [hmode]),
      List.append_assoc, List.append_assoc, List.append_assoc]⟩

/-- C13, counterexample: for `LDX #$01` (bytes A2 01) in hex mode `disassembleInstr`
returns `LDX #01`, not `LDX #$01`: the patterns of the source hold no `$`. -/
theorem disassembleInstr_hex_dollar_counterexample :
    sampleDebugger.hex = true ∧
    sampleDebugger.addressingMode (sampleRecord 1536 162 1 142).byte1 = ADDR_IMMEDIATE ∧
    cstr (sampleDebugger.disassembleInstr sampleResult16 (sampleRecord 1536 162 1 142)).1 =
      ['L', 'D', 'X', ' ', '#', '0', '1'] ∧
    cstr (sampleDebugger.disassembleInstr sampleResult16 (sampleRecord 1536 162 1 142)).1 ≠
      ['L', 'D', 'X', ' ', '#', '$', '0', '1'] := by
  decide

/-- C13, amended: in hex mode, for every instruction record whose opcode has a three
character mnemonic, `disassembleInstr` renders the operand in 6502 syntax without a `$`
in front of the hex digits: `#hh` for Immediate, `hh` for ZeroPage, `hh,X` / `hh,Y` for
ZeroPageX / ZeroPageY, `hhhh` for Absolute, `hhhh,X` / `hhhh,Y` for AbsoluteX /
AbsoluteY, `(hhhh)` for Indirect, `(hh,X)` for IndirectX and `(hh),Y` for IndirectY,
preceded by the mnemonic and one space. Here `hh` and `hhhh` are two resp. four
characters of `0-9A-F`. -/
theorem disassembleInstr_hex_operand_syntax (d : Debugger) (result : List Char)
    (instr : RecordedInstruction) (hhex : d.hex = true) (h16 : result.length = 16)
    (hm : (d.mnemonic instr.byte1).length = 3) (hmn : NUL ∉ d.mnemonic instr.byte1) :
    ∃ hh hhhh : List Char, hh.length = 2 ∧ hhhh.length = 4 ∧
      (∀ c ∈ hh ++ hhhh, (digitValue c).isSome = true) ∧
      (d.addressingMode instr.byte1 = ADDR_IMMEDIATE →
        cstr (d.disassembleInstr result instr).1 =
          d.mnemonic instr.byte1 ++ [' ', '#'] ++ hh) ∧
      (d.addressingMode instr.byte1 = ADDR_ZERO_PAGE →
        cstr (d.disassembleInstr result instr).1 = d.mnemonic instr.byte1 ++ [' '] ++ hh) ∧
      (d.addressingMode instr.byte1 = ADDR_ZERO_PAGE_X →
        cstr (d.disassembleInstr result instr).1 =
          d.mnemonic instr.byte1 ++ [' '] ++ hh ++ [',', 'X']) ∧
      (d.addressingMode instr.byte1 = ADDR_ZERO_PAGE_Y →
        cstr (d.disassembleInstr result instr).1 =
          d.mnemonic instr.byte1 ++ [' '] ++ hh ++ [',', 'Y']) ∧
      (d.addressingMode instr.byte1 = ADDR_ABSOLUTE →
        cstr (d.disassembleInstr result instr).1 = d.mnemonic instr.byte1 ++ [' '] ++ hhhh) ∧
      (d.addressingMode instr.byte1 = ADDR_ABSOLUTE_X →
        cstr (d.disassembleInstr result instr).1 =
          d.mnemonic instr.byte1 ++ [' '] ++ hhhh ++ [',', 'X']) ∧
      (d.addressingMode instr.byte1 = ADDR_ABSOLUTE_Y →
        cstr (d.disassembleInstr result instr).1 =
          d.mnemonic instr.byte1 ++ [' '] ++ hhhh ++ [',', 'Y']) ∧
      (d.addressingMode instr.byte1 = ADDR_INDIRECT →
        cstr (d.disassembleInstr result instr).1 =
          d.mnemonic instr.byte1 ++ [' ', '('] ++ hhhh ++ [')']) ∧
      (d.addressingMode instr.byte1 = ADDR_INDIRECT_X →
        cstr (d.disassembleInstr result instr).1 =
          d.mnemonic instr.byte1 ++ [' ', '('] ++ hh ++ [',', 'X', ')']) ∧
      (d.addressingMode instr.byte1 = ADDR_INDIRECT_Y →
        cstr (d.disassembleInstr result instr).1 =
          d.mnemonic instr.byte1 ++ [' ', '('] ++ hh ++ [')', ',', 'Y']) := by
  have hmn1 := ne_NUL_of_not_mem _ hmn
  rw [Debugger.disassembleInstr_eq, hhex]
  have hb := disassembleInstrT_byte true d result instr h16 hm hmn1
  have hw := fun h => disassembleInstrT_word true d result instr
    (LO_HI instr.byte2 instr.byte3) h16 hm hmn1 (Or.inl ⟨rfl, h⟩)
  simp only [if_true] at hb hw
  refine ⟨[hexChar (instr.byte2 / 16 % 16), hexChar (instr.byte2 % 16)],
    [hexChar (LO_HI instr.byte2 instr.byte3 / 16 / 16 / 16 % 16),
      hexChar (LO_HI instr.byte2 instr.byte3 / 16 / 16 % 16),
      hexChar (LO_HI instr.byte2 instr.byte3 / 16 % 16),
      hexChar (LO_HI instr.byte2 instr.byte3 % 16)], rfl, rfl, ?_, ?_⟩
  · intro c hc
    simp only [List.cons_append, List.nil_append, List.mem_cons, List.mem_singleton,
      List.not_mem_nil, or_false] at hc
    rcases hc with rfl | rfl | rfl | rfl | rfl | rfl <;> exact isSome_digitValue_hexChar _
  · refine ⟨fun h => ?_, fun h => ?_, fun h => ?_, fun h => ?_, fun h => ?_, fun h => ?_,
      fun h => ?_, fun h => ?_, fun h => ?_, fun h => ?_⟩
    · rw [hb (by simp [h]), h]; simp [operandPrefix, operandSuffix]
    · rw [hb (by simp [h]), h]; simp [operandPrefix, operandSuffix]
    · rw [hb (by simp [h]), h]; simp [operandPrefix, operandSuffix]
    · rw [hb (by simp [h]), h]; simp [operandPrefix, operandSuffix]
    · rw [hw (by simp [h]), h]; simp [operandPrefix, operandSuffix]
    · rw [hw (by simp [h]), h]; simp [operandPrefix, operandSuffix]
    · rw [hw (by simp [h]), h]; simp [operandPrefix, operandSuffix]
    · rw [hw (by simp [h]), h]; simp [operandPrefix, operandSuffix]
    · rw [hb (by simp [h]), h]; simp [operandPrefix, operandSuffix]
    · rw [hb (by simp [h]), h]; simp [operandPrefix, operandSuffix]

theorem disassembleInstr_hex_operand_syntax_witness :
    (sampleDebugger.hex = true ∧ sampleResult16.length = 16 ∧
      (sampleDebugger.mnemonic (sampleRecord 1536 162 1 142).byte1).length = 3 ∧
      NUL ∉ sampleDebugger.mnemonic (sampleRecord 1536 162 1 142).byte1) ∧
    ∃ hh hhhh : List Char, hh.length = 2 ∧ hhhh.length = 4 ∧
      (∀ c ∈ hh ++ hhhh, (digitValue c).isSome = true) ∧
      (sampleDebugger.addressingMode (sampleRecord 1536 162 1 142).byte1 = ADDR_IMMEDIATE →
        cstr (sampleDebugger.disassembleInstr sampleResult16
            (sampleRecord 1536 162 1 142)).1 =
          sampleDebugger.mnemonic (sampleRecord 1536 162 1 142).byte1 ++ [' ', '#'] ++ hh) ∧
      (sampleDebugger.addressingMode (sampleRecord 1536 162 1 142).byte1 = ADDR_ZERO_PAGE →
        cstr (sampleDebugger.disassembleInstr sampleResult16
            (sampleRecord 1536 162 1 142)).1 =
          sampleDebugger.mnemonic (sampleRecord 1536 162 1 142).byte1 ++ [' '] ++ hh) ∧
      (sampleDebugger.addressingMode (sampleRecord 1536 162 1 142).byte1 = ADDR_ZERO_PAGE_X →
        cstr (sampleDebugger.disassembleInstr sampleResult16
            (sampleRecord 1536 162 1 142)).1 =
          sampleDebugger.mnemonic (sampleRecord 1536 162 1 142).byte1 ++ [' '] ++ hh ++
            [',', 'X']) ∧
      (sampleDebugger.addressingMode (sampleRecord 1536 162 1 142).byte1 = ADDR_ZERO_PAGE_Y →
        cstr (sampleDebugger.disassembleInstr sampleResult16
            (sampleRecord 1536 162 1 142)).1 =
          sampleDebugger.mnemonic (sampleRecord 1536 162 1 142).byte1 ++ [' '] ++ hh ++
            [',', 'Y']) ∧
      (sampleDebugger.addressingMode (sampleRecord 1536 162 1 142).byte1 = ADDR_ABSOLUTE →
        cstr (sampleDebugger.disassembleInstr sampleResult16
            (sampleRecord 1536 162 1 142)).1 =
          sampleDebugger.mnemonic (sampleRecord 1536 162 1 142).byte1 ++ [' '] ++ hhhh) ∧
      (sampleDebugger.addressingMode (sampleRecord 1536 162 1 142).byte1 = ADDR_ABSOLUTE_X →
        cstr (sampleDebugger.disassembleInstr sampleResult16
            (sampleRecord 1536 162 1 142)).1 =
          sampleDebugger.mnemonic (sampleRecord 1536 162 1 142).byte1 ++ [' '] ++ hhhh ++
            [',', 'X']) ∧
      (sampleDebugger.addressingMode (sampleRecord 1536 162 1 142).byte1 = ADDR_ABSOLUTE_Y →
        cstr (sampleDebugger.disassembleInstr sampleResult16
            (sampleRecord 1536 162 1 142)).1 =
          sampleDebugger.mnemonic (sampleRecord 1536 162 1 142).byte1 ++ [' '] ++ hhhh ++
            [',', 'Y']) ∧
      (sampleDebugger.addressingMode (sampleRecord 1536 162 1 142).byte1 = ADDR_INDIRECT →
        cstr (sampleDebugger.disassembleInstr sampleResult16
            (sampleRecord 1536 162 1 142)).1 =
          sampleDebugger.mnemonic (sampleRecord 1536 162 1 142).byte1 ++ [' ', '('] ++ hhhh ++
            [')']) ∧
      (sampleDebugger.addressingMode (sampleRecord 1536 162 1 142).byte1 = ADDR_INDIRECT_X →
        cstr (sampleDebugger.disassembleInstr sampleResult16
            (sampleRecord 1536 162 1 142)).1 =
          sampleDebugger.mnemonic (sampleRecord 1536 162 1 142).byte1 ++ [' ', '('] ++ hh ++
            [',', 'X', ')']) ∧
      (sampleDebugger.addressingMode (sampleRecord 1536 162 1 142).byte1 = ADDR_INDIRECT_Y →
        cstr (sampleDebugger.disassembleInstr sampleResult16
            (sampleRecord 1536 162 1 142)).1 =
          sampleDebugger.mnemonic (sampleRecord 1536 162 1 142).byte1 ++ [' ', '('] ++ hh ++
            [')', ',', 'Y']) :=
  ⟨⟨rfl, rfl, rfl, by decide⟩,
    disassembleInstr_hex_operand_syntax sampleDebugger sampleResult16
      (sampleRecord 1536 162 1 142) rfl rfl rfl (by decide)⟩

/-- The first three characters of a C string that has at least three characters. -/
theorem take_three_of_cstr (m : List Char) (h : 3 ≤ (cstr m).length) :
    3 ≤ m.length ∧ (m.take 3).length = 3 ∧ ∀ c ∈ m.take 3, (c != NUL) = true := by
  unfold cstr at h
  have hsplit := List.takeWhile_append_dropWhile (fun c => c != NUL) m
  have hlen : 3 ≤ m.length := by
    have := congrArg List.length hsplit
    rw [List.length_append] at this
    omega
  refine ⟨hlen, by rw [List.length_take]; omega, ?_⟩
  intro c hc
  have htake : m.take 3 = (m.takeWhile (fun c => c != NUL)).take 3 := by
    conv_lhs => rw [← hsplit]
    exact List.take_append_of_le_length h
  rw [htake] at hc
  have hmem : c ∈ m.takeWhile (fun c => c != NUL) := List.mem_of_mem_take hc
  exact @List.mem_takeWhile_imp Char (fun c => c != NUL) m c hmem

/-- Copying three characters of a string with at least three characters copies its
first three characters. -/
theorem strncpy_take (dst m : List Char) (h : 3 ≤ m.length) :
    strncpy dst m 3 = strncpy dst (m.take 3) 3 := by
  unfold strncpy
  rw [List.take_take, List.length_take]
  have h1 : 3 - m.length = 0 := by omega
  have h2 : 3 - min 3 m.length = 0 := by omega
  rw [h1, h2, Nat.min_self]

/-- Only the first three characters of the mnemonic reach the text of an instruction. -/
theorem disassembleInstrT_take (hex : Bool) (d : Debugger) (result : List Char)
    (instr : RecordedInstruction) (h : 3 ≤ (d.mnemonic instr.byte1).length) :
    d.disassembleInstrT hex result instr =
      d.truncateMnemonics.disassembleInstrT hex result instr := by
  unfold Debugger.disassembleInstrT
  simp only [strncpy_take _ _ h]
  rfl

/-- C14, as stated, fails: `registerInstruction` accepts any string as mnemonic. With
the two character mnemonic `LX` registered for the Immediate opcode `0xA2`, the text that
`disassembleInstr` returns for the bytes A2 01 is `LX` in hex mode and in decimal mode:
`strncpy(result, mnemonic[opcode], 3)` fills the third character with NUL, so no
operand digit is printed. -/
theorem disassembleInstr_short_mnemonic_no_operand :
    shortMnemonics.addressingMode (sampleRecord 1536 162 1 142).byte1 = ADDR_IMMEDIATE ∧
    shortMnemonics.mnemonic (sampleRecord 1536 162 1 142).byte1 = ['L', 'X'] ∧
    shortMnemonics.hex = true ∧
    cstr (shortMnemonics.disassembleInstr sampleResult16 (sampleRecord 1536 162 1 142)).1 =
      ['L', 'X'] ∧
    cstr (({ shortMnemonics with hex := false } : Debugger).disassembleInstr sampleResult16
      (sampleRecord 1536 162 1 142)).1 = ['L', 'X'] ∧
    ∀ c ∈ cstr (shortMnemonics.disassembleInstr sampleResult16
      (sampleRecord 1536 162 1 142)).1, digitValue c = none := by
  decide

/-- C14, amended: for every instruction record (bytes below 256) whose opcode has a
mnemonic of at least three characters, the digits that `disassembleInstr` prints for the
operand, behind the first three characters of the mnemonic and one space, denote `byte2`
for the modes with a one byte operand (Immediate, ZeroPage, ZeroPageX/Y, IndirectX,
IndirectY) and the little-endian word `byte2 + 256 * byte3` for the modes with a two
byte operand (Absolute, AbsoluteX/Y, Direct, Indirect). They are 2 resp. 4 digits of
`0-9A-F` read in base 16 in hex mode and 3 resp. 5 decimal digits in decimal mode, so
they are padded with zeros. -/
theorem disassembleInstr_operand_digits (d : Debugger) (result : List Char)
    (instr : RecordedInstruction) (h16 : result.length = 16)
    (hm : 3 ≤ (cstr (d.mnemonic instr.byte1)).length)
    (hb2 : instr.byte2 < 256) (hb3 : instr.byte3 < 256) :
    (d.addressingMode instr.byte1 = ADDR_IMMEDIATE ∨
      d.addressingMode instr.byte1 = ADDR_ZERO_PAGE ∨
      d.addressingMode instr.byte1 = ADDR_ZERO_PAGE_X ∨
      d.addressingMode instr.byte1 = ADDR_ZERO_PAGE_Y ∨
      d.addressingMode instr.byte1 = ADDR_INDIRECT_X ∨
      d.addressingMode instr.byte1 = ADDR_INDIRECT_Y →
      ∃ digits : List Char,
        cstr (d.disassembleInstr result instr).1 =
          (d.mnemonic instr.byte1).take 3 ++ [' '] ++
            operandPrefix (d.addressingMode instr.byte1) ++
            digits ++ operandSuffix (d.addressingMode instr.byte1) ∧
        digits.length = (if d.hex then 2 else 3) ∧
        numeralValue (if d.hex then 16 else 10) digits = some instr.byte2) ∧
    (d.addressingMode instr.byte1 = ADDR_ABSOLUTE ∨
      d.addressingMode instr.byte1 = ADDR_ABSOLUTE_X ∨
      d.addressingMode instr.byte1 = ADDR_ABSOLUTE_Y ∨
      d.addressingMode instr.byte1 = ADDR_DIRECT ∨
      d.addressingMode instr.byte1 = ADDR_INDIRECT →
      ∃ digits : List Char,
        cstr (d.disassembleInstr result instr).1 =
          (d.mnemonic instr.byte1).take 3 ++ [' '] ++
            operandPrefix (d.addressingMode instr.byte1) ++
            digits ++ operandSuffix (d.addressingMode instr.byte1) ∧
        digits.length = (if d.hex then 4 else 5) ∧
        numeralValue (if d.hex then 16 else 10) digits =
          some (instr.byte2 + 256 * instr.byte3)) := by
  obtain ⟨hlen, hm3, hmn3⟩ := take_three_of_cstr _ hm
  rw [Debugger.disassembleInstr_eq, disassembleInstrT_take d.hex d result instr hlen]
  constructor
  · intro hmode
    obtain ⟨hl, hv⟩ := byteDigits_value d.hex instr.byte2 hb2
    exact ⟨_, disassembleInstrT_byte d.hex d.truncateMnemonics result instr h16 hm3 hmn3
      hmode, hl, hv⟩
  · intro hmode
    have hlo := LO_HI_eq instr.byte2 instr.byte3 hb2 hb3
    obtain ⟨hl, hv⟩ := wordDigits_value d.hex (LO_HI instr.byte2 instr.byte3)
      (by rw [hlo]; omega)
    refine ⟨_, disassembleInstrT_word d.hex d.truncateMnemonics result instr _ h16 hm3 hmn3
      (Or.inl ⟨rfl, hmode⟩), hl, ?_⟩
    rw [hv, hlo]

theorem disassembleInstr_operand_digits_witness :
    (sampleResult16.length = 16 ∧
      3 ≤ (cstr (longMnemonics.mnemonic (sampleRecord 1538 142 0 2).byte1)).length ∧
      (sampleRecord 1538 142 0 2).byte2 < 256 ∧ (sampleRecord 1538 142 0 2).byte3 < 256) ∧
    ((longMnemonics.addressingMode (sampleRecord 1538 142 0 2).byte1 = ADDR_IMMEDIATE ∨
      longMnemonics.addressingMode (sampleRecord 1538 142 0 2).byte1 = ADDR_ZERO_PAGE ∨
      longMnemonics.addressingMode (sampleRecord 1538 142 0 2).byte1 = ADDR_ZERO_PAGE_X ∨
      longMnemonics.addressingMode (sampleRecord 1538 142 0 2).byte1 = ADDR_ZERO_PAGE_Y ∨
      longMnemonics.addressingMode (sampleRecord 1538 142 0 2).byte1 = ADDR_INDIRECT_X ∨
      longMnemonics.addressingMode (sampleRecord 1538 142 0 2).byte1 = ADDR_INDIRECT_Y →
      ∃ digits : List Char,
        cstr (longMnemonics.disassembleInstr sampleResult16
            (sampleRecord 1538 142 0 2)).1 =
          (longMnemonics.mnemonic (sampleRecord 1538 142 0 2).byte1).take 3 ++ [' '] ++
            operandPrefix (longMnemonics.addressingMode (sampleRecord 1538 142 0 2).byte1) ++
            digits ++
            operandSuffix (longMnemonics.addressingMode (sampleRecord 1538 142 0 2).byte1) ∧
        digits.length = (if longMnemonics.hex then 2 else 3) ∧
        numeralValue (if longMnemonics.hex then 16 else 10) digits =
          some (sampleRecord 1538 142 0 2).byte2) ∧
    (longMnemonics.addressingMode (sampleRecord 1538 142 0 2).byte1 = ADDR_ABSOLUTE ∨
      longMnemonics.addressingMode (sampleRecord 1538 142 0 2).byte1 = ADDR_ABSOLUTE_X ∨
      longMnemonics.addressingMode (sampleRecord 1538 142 0 2).byte1 = ADDR_ABSOLUTE_Y ∨
      longMnemonics.addressingMode (sampleRecord 1538 142 0 2).byte1 = ADDR_DIRECT ∨
      longMnemonics.addressingMode (sampleRecord 1538 142 0 2).byte1 = ADDR_INDIRECT →
      ∃ digits : List Char,
        cstr (longMnemonics.disassembleInstr sampleResult16
            (sampleRecord 1538 142 0 2)).1 =
          (longMnemonics.mnemonic (sampleRecord 1538 142 0 2).byte1).take 3 ++ [' '] ++
            operandPrefix (longMnemonics.addressingMode (sampleRecord 1538 142 0 2).byte1) ++
            digits ++
            operandSuffix (longMnemonics.addressingMode (sampleRecord 1538 142 0 2).byte1) ∧
        digits.length = (if longMnemonics.hex then 4 else 5) ∧
        numeralValue (if longMnemonics.hex then 16 else 10) digits =
          some ((sampleRecord 1538 142 0 2).byte2 + 256 * (sampleRecord 1538 142 0 2).byte3))) :=
  ⟨⟨rfl, by decide, by decide, by decide⟩,
    disassembleInstr_operand_digits longMnemonics sampleResult16
      (sampleRecord 1538 142 0 2) rfl (by decide) (by decide) (by decide)⟩

/-- C15, as stated, fails: with the one character mnemonic `J` registered for the
Relative opcode `0xD0`, the text that `disassembleInstr` returns for the bytes D0 F2 at
`$0615` is `J`, in hex mode and in decimal mode: `strncpy` fills the second and the
third character with NUL, so no branch target is shown. -/
theorem disassembleInstr_short_mnemonic_no_target :
    shortMnemonics.addressingMode (sampleRecord 1557 208 242 0).byte1 = ADDR_RELATIVE ∧
    shortMnemonics.mnemonic (sampleRecord 1557 208 242 0).byte1 = ['J'] ∧
    shortMnemonics.hex = true ∧
    cstr (shortMnemonics.disassembleInstr sampleResult16 (sampleRecord 1557 208 242 0)).1 =
      ['J'] ∧
    cstr (({ shortMnemonics with hex := false } : Debugger).disassembleInstr sampleResult16
      (sampleRecord 1557 208 242 0)).1 = ['J'] ∧
    cstr (shortMnemonics.disassembleInstr sampleResult16 (sampleRecord 1557 208 242 0)).1 ≠
      ['J', ' ', '0', '6', '0', '9'] := by
  decide

/-- C15, amended: for every instruction record with a Relative mode opcode that has a
mnemonic of at least three characters, located at address `pc` with operand byte `b`
(below 256), `disassembleInstr` shows behind the first three characters of the mnemonic
and one space the absolute branch target `(pc + 2 + s) mod 2 ^ 16`, where `s` is `b`
read as a signed 8 bit value, as 4 hex digits (5 decimal digits in decimal mode). In hex
mode `D0 F2` at `$0615` is shown with target `0609`, and a branch with operand `$10` at
`$02F0` with target `0302`. -/
theorem disassembleInstr_branch_target (d : Debugger) (result : List Char)
    (instr : RecordedInstruction) (h16 : result.length = 16)
    (hm : 3 ≤ (cstr (d.mnemonic instr.byte1)).length)
    (hrel : d.addressingMode instr.byte1 = ADDR_RELATIVE) (hb2 : instr.byte2 < 256) :
    (∃ digits : List Char,
      cstr (d.disassembleInstr result instr).1 =
        (d.mnemonic instr.byte1).take 3 ++ [' '] ++ digits ∧
      digits.length = (if d.hex then 4 else 5) ∧
      numeralValue (if d.hex then 16 else 10) digits =
        some (((instr.pc : Int) + 2 +
          (if instr.byte2 < 128 then (instr.byte2 : Int) else (instr.byte2 : Int) - 256)) %
            2 ^ 16).toNat) ∧
    (d.hex = true → instr.pc = 1557 → instr.byte2 = 242 →
      cstr (d.disassembleInstr result instr).1 =
        (d.mnemonic instr.byte1).take 3 ++ [' ', '0', '6', '0', '9']) ∧
    (d.hex = true → instr.pc = 752 → instr.byte2 = 16 →
      cstr (d.disassembleInstr result instr).1 =
        (d.mnemonic instr.byte1).take 3 ++ [' ', '0', '3', '0', '2']) := by
  obtain ⟨hlen, hm3, hmn3⟩ := take_three_of_cstr _ hm
  rw [Debugger.disassembleInstr_eq, disassembleInstrT_take d.hex d result instr hlen]
  have hw := fun v hv => disassembleInstrT_word d.hex d.truncateMnemonics result instr v h16
    hm3 hmn3 (Or.inr ⟨hv, hrel⟩)
  have hrel1 : d.truncateMnemonics.addressingMode instr.byte1 = ADDR_RELATIVE := hrel
  have hmt : d.truncateMnemonics.mnemonic instr.byte1 = (d.mnemonic instr.byte1).take 3 := rfl
  have hhx : d.truncateMnemonics.hex = d.hex := rfl
  simp only [hrel1, hmt, operandPrefix, operandSuffix, List.append_nil] at hw
  refine ⟨?_, ?_, ?_⟩
  · obtain ⟨hl, hv⟩ := wordDigits_value d.hex
      (toU16 ((instr.pc : Int) + 2 + toI8 instr.byte2)) (toU16_lt _)
    refine ⟨_, hw _ rfl, hl, ?_⟩
    rw [hv, toI8_eq _ hb2]
    rfl
  · intro hhex hpc hb
    rw [hw 1545 (by rw [hpc, hb]; decide), hhex, List.append_assoc]
    congr 1
  · intro hhex hpc hb
    rw [hw 770 (by rw [hpc, hb]; decide), hhex, List.append_assoc]
    congr 1

theorem disassembleInstr_branch_target_witness :
    (sampleResult16.length = 16 ∧
      3 ≤ (cstr (longMnemonics.mnemonic (sampleRecord 1557 208 242 0).byte1)).length ∧
      longMnemonics.addressingMode (sampleRecord 1557 208 242 0).byte1 = ADDR_RELATIVE ∧
      (sampleRecord 1557 208 242 0).byte2 < 256) ∧
    ((∃ digits : List Char,
      cstr (longMnemonics.disassembleInstr sampleResult16 (sampleRecord 1557 208 242 0)).1 =
        (longMnemonics.mnemonic (sampleRecord 1557 208 242 0).byte1).take 3 ++ [' '] ++
          digits ∧
      digits.length = (if longMnemonics.hex then 4 else 5) ∧
      numeralValue (if longMnemonics.hex then 16 else 10) digits =
        some ((((sampleRecord 1557 208 242 0).pc : Int) + 2 +
          (if (sampleRecord 1557 208 242 0).byte2 < 128
            then ((sampleRecord 1557 208 242 0).byte2 : Int)
            else ((sampleRecord 1557 208 242 0).byte2 : Int) - 256)) % 2 ^ 16).toNat) ∧
    (longMnemonics.hex = true → (sampleRecord 1557 208 242 0).pc = 1557 →
      (sampleRecord 1557 208 242 0).byte2 = 242 →
      cstr (longMnemonics.disassembleInstr sampleResult16 (sampleRecord 1557 208 242 0)).1 =
        (longMnemonics.mnemonic (sampleRecord 1557 208 242 0).byte1).take 3 ++
          [' ', '0', '6', '0', '9']) ∧
    (longMnemonics.hex = true → (sampleRecord 1557 208 242 0).pc = 752 →
      (sampleRecord 1557 208 242 0).byte2 = 16 →
      cstr (longMnemonics.disassembleInstr sampleResult16 (sampleRecord 1557 208 242 0)).1 =
        (longMnemonics.mnemonic (sampleRecord 1557 208 242 0).byte1).take 3 ++
          [' ', '0', '3', '0', '2'])) :=
  ⟨⟨rfl, by decide, rfl, by decide⟩,
    disassembleInstr_branch_target longMnemonics sampleResult16
      (sampleRecord 1557 208 242 0) rfl (by decide) rfl (by decide)⟩

/-- C19: for every opcode with a registered three character mnemonic `m` and every
record with this opcode, the first three characters of the result of `disassembleInstr`
are `m`; for Implied and Accumulator opcodes the result is exactly `m`, with no operand;
and the length reported through `len` equals `getLengthOfInstruction(opcode)`.
`registerInstruction` enters the mnemonic and the addressing mode of an opcode in the
tables. -/
theorem disassembleInstr_mnemonic_and_length (d : Debugger) (result : List Char)
    (instr : RecordedInstruction) (m : List Char) (h16 : result.length = 16)
    (hreg : d.mnemonic instr.byte1 = m) (hm : m.length = 3) (hmn : NUL ∉ m) :
    (cstr (d.disassembleInstr result instr).1).take 3 = m ∧
    (d.addressingMode instr.byte1 = ADDR_IMPLIED ∨
      d.addressingMode instr.byte1 = ADDR_ACCUMULATOR →
      cstr (d.disassembleInstr result instr).1 = m) ∧
    (d.disassembleInstr result instr).2 = d.getLengthOfInstruction instr.byte1 ∧
    (∀ (d0 : Debugger) (opcode : Nat) (mode : AddressingMode),
      (d0.registerInstruction opcode m mode).mnemonic opcode = m ∧
      (d0.registerInstruction opcode m mode).addressingMode opcode = mode) := by
  subst hreg
  have hmn1 := ne_NUL_of_not_mem _ hmn
  rw [Debugger.disassembleInstr_eq]
  refine ⟨?_, fun hmode => disassembleInstrT_implied d.hex d result instr h16 hm hmn1 hmode,
    rfl, fun d0 opcode mode => ?_⟩
  · obtain ⟨rest, hrest⟩ := disassembleInstrT_mnemonic d.hex d result instr h16 hm hmn1
    rw [hrest, List.take_append_of_le_length (by omega), List.take_of_length_le (by omega)]
  · simp [Debugger.registerInstruction]

theorem disassembleInstr_mnemonic_and_length_witness :
    (sampleResult16.length = 16 ∧
      sampleDebugger.mnemonic (sampleRecord 1544 202 189 0).byte1 = ['D', 'E', 'X'] ∧
      ['D', 'E', 'X'].length = 3 ∧ NUL ∉ ['D', 'E', 'X']) ∧
    ((cstr (sampleDebugger.disassembleInstr sampleResult16
        (sampleRecord 1544 202 189 0)).1).take 3 = ['D', 'E', 'X'] ∧
    (sampleDebugger.addressingMode (sampleRecord 1544 202 189 0).byte1 = ADDR_IMPLIED ∨
      sampleDebugger.addressingMode (sampleRecord 1544 202 189 0).byte1 = ADDR_ACCUMULATOR →
      cstr (sampleDebugger.disassembleInstr sampleResult16
        (sampleRecord 1544 202 189 0)).1 = ['D', 'E', 'X']) ∧
    (sampleDebugger.disassembleInstr sampleResult16 (sampleRecord 1544 202 189 0)).2 =
      sampleDebugger.getLengthOfInstruction (sampleRecord 1544 202 189 0).byte1 ∧
    (∀ (d0 : Debugger) (opcode : Nat) (mode : AddressingMode),
      (d0.registerInstruction opcode ['D', 'E', 'X'] mode).mnemonic opcode = ['D', 'E', 'X'] ∧
      (d0.registerInstruction opcode ['D', 'E', 'X'] mode).addressingMode opcode = mode)) :=
  ⟨⟨rfl, rfl, rfl, by decide⟩,
    disassembleInstr_mnemonic_and_length sampleDebugger sampleResult16
      (sampleRecord 1544 202 189 0) ['D', 'E', 'X'] rfl rfl rfl (by decide)⟩

/-! ## Disassembler: flags, addresses and instruction bytes -/

theorem and_two_pow_ne_zero (p i : Nat) : p &&& 2 ^ i ≠ 0 ↔ p.testBit i = true := by
  have h : p &&& 2 ^ i = if p.testBit i = true then 2 ^ i else 0 := by
    apply Nat.eq_of_testBit_eq
    intro j
    rw [Nat.testBit_and, Nat.testBit_two_pow]
    by_cases hij : i = j
    · subst hij
      cases hp : p.testBit i <;> simp [Nat.testBit_two_pow]
    · cases hp : p.testBit i <;> simp [hij, Nat.testBit_two_pow]
  rw [h]
  cases hp : p.testBit i
  · simp
  · simp

theorem ite_ne_NUL (c : Prop) [Decidable c] (a b : Char) (ha : (a != NUL) = true)
    (hb : (b != NUL) = true) : ((if c then a else b) != NUL) = true := by
  split
  · exact ha
  · exact hb

/-- The text that `disassembleRecordedFlags` leaves in `result`. -/
theorem disassembleRecordedFlags_cstr (result : List Char) (instr : RecordedInstruction)
    (h9 : result.length = 9) :
    cstr (Debugger.disassembleRecordedFlags result instr) =
      [if instr.flags.testBit 7 = true then 'N' else 'n',
       if instr.flags.testBit 6 = true then 'V' else 'v',
       '-',
       if instr.flags.testBit 4 = true then 'B' else 'b',
       if instr.flags.testBit 3 = true then 'D' else 'd',
       if instr.flags.testBit 2 = true then 'I' else 'i',
       if instr.flags.testBit 1 = true then 'Z' else 'z',
       if instr.flags.testBit 0 = true then 'C' else 'c'] := by
  obtain ⟨r0, rt0, rfl, h9_0⟩ := exists_cons_of_length h9
  obtain ⟨r1, rt1, rfl, h9_1⟩ := exists_cons_of_length h9_0
  obtain ⟨r2, rt2, rfl, h9_2⟩ := exists_cons_of_length h9_1
  obtain ⟨r3, rt3, rfl, h9_3⟩ := exists_cons_of_length h9_2
  obtain ⟨r4, rt4, rfl, h9_4⟩ := exists_cons_of_length h9_3
  obtain ⟨r5, rt5, rfl, h9_5⟩ := exists_cons_of_length h9_4
  obtain ⟨r6, rt6, rfl, h9_6⟩ := exists_cons_of_length h9_5
  obtain ⟨r7, rt7, rfl, h9_7⟩ := exists_cons_of_length h9_6
  obtain ⟨r8, rt8, rfl, h9_8⟩ := exists_cons_of_length h9_7
  obtain rfl := List.length_eq_zero.mp h9_8
  have e7 : ¬ instr.flags &&& 128 = 0 ↔ instr.flags.testBit 7 = true :=
    and_two_pow_ne_zero instr.flags 7
  have e6 : ¬ instr.flags &&& 64 = 0 ↔ instr.flags.testBit 6 = true :=
    and_two_pow_ne_zero instr.flags 6
  have e4 : ¬ instr.flags &&& 16 = 0 ↔ instr.flags.testBit 4 = true :=
    and_two_pow_ne_zero instr.flags 4
  have e3 : ¬ instr.flags &&& 8 = 0 ↔ instr.flags.testBit 3 = true :=
    and_two_pow_ne_zero instr.flags 3
  have e2 : ¬ instr.flags &&& 4 = 0 ↔ instr.flags.testBit 2 = true :=
    and_two_pow_ne_zero instr.flags 2
  have e1 : ¬ instr.flags &&& 2 = 0 ↔ instr.flags.testBit 1 = true :=
    and_two_pow_ne_zero instr.flags 1
  have e0 : ¬ instr.flags &&& 1 = 0 ↔ instr.flags.testBit 0 = true :=
    and_two_pow_ne_zero instr.flags 0
  have f7 := ite_ne_NUL (instr.flags.testBit 7 = true) 'N' 'n' (by decide) (by decide)
  have f6 := ite_ne_NUL (instr.flags.testBit 6 = true) 'V' 'v' (by decide) (by decide)
  have f5 : ('-' != NUL) = true := by decide
  have f4 := ite_ne_NUL (instr.flags.testBit 4 = true) 'B' 'b' (by decide) (by decide)
  have f3 := ite_ne_NUL (instr.flags.testBit 3 = true) 'D' 'd' (by decide) (by decide)
  have f2 := ite_ne_NUL (instr.flags.testBit 2 = true) 'I' 'i' (by decide) (by decide)
  have f1 := ite_ne_NUL (instr.flags.testBit 1 = true) 'Z' 'z' (by decide) (by decide)
  have f0 := ite_ne_NUL (instr.flags.testBit 0 = true) 'C' 'c' (by decide) (by decide)
  simp only [Debugger.disassembleRecordedFlags, List.set, N_FLAG, V_FLAG, B_FLAG, D_FLAG,
    I_FLAG, Z_FLAG, C_FLAG, ne_eq, e7, e6, e4, e3, e2, e1, e0]
  simp only [cstr_cons_of_ne, cstr_NUL_cons, f7, f6, f5, f4, f3, f2, f1, f0]

/-- The text that `disassembleAddr` leaves in `result`. -/
theorem disassembleAddr_cstr (d : Debugger) (result : List Char) (addr : Nat)
    (h6 : result.length = 6) :
    cstr (d.disassembleAddr result addr) =
      if d.hex then [hexChar (addr / 16 / 16 / 16 % 16), hexChar (addr / 16 / 16 % 16),
        hexChar (addr / 16 % 16), hexChar (addr % 16)]
      else [decChar (addr / 10 / 10 / 10 / 10 % 10), decChar (addr / 10 / 10 / 10 % 10),
        decChar (addr / 10 / 10 % 10), decChar (addr / 10 % 10), decChar (addr % 10)] := by
  obtain ⟨r0, rt0, rfl, h6_0⟩ := exists_cons_of_length h6
  obtain ⟨r1, rt1, rfl, h6_1⟩ := exists_cons_of_length h6_0
  obtain ⟨r2, rt2, rfl, h6_2⟩ := exists_cons_of_length h6_1
  obtain ⟨r3, rt3, rfl, h6_3⟩ := exists_cons_of_length h6_2
  obtain ⟨r4, rt4, rfl, h6_4⟩ := exists_cons_of_length h6_3
  obtain ⟨r5, rt5, rfl, h6_5⟩ := exists_cons_of_length h6_4
  obtain rfl := List.length_eq_zero.mp h6_5
  unfold Debugger.disassembleAddr
  cases d.hex
  · simp only [Bool.false_eq_true, if_false, sprint16d, sprintLoop, List.set, Nat.zero_add,
      Nat.reduceAdd]
    simp only [cstr_cons_of_ne, cstr_NUL_cons, decChar_ne_NUL]
  · simp only [if_true, sprint16x, sprintLoop, List.set, Nat.zero_add, Nat.reduceAdd]
    simp only [cstr_cons_of_ne, cstr_NUL_cons, hexChar_ne_NUL]

theorem getLengthOfInstruction_cases (d : Debugger) (opcode : Nat) :
    d.getLengthOfInstruction opcode = 1 ∨ d.getLengthOfInstruction opcode = 2 ∨
      d.getLengthOfInstruction opcode = 3 := by
  unfold Debugger.getLengthOfInstruction
  cases d.addressingMode opcode <;> simp

/-- The text that `disassembleBytes` leaves in `result`. -/
theorem disassembleBytes_cstr (d : Debugger) (result : List Char)
    (instr : RecordedInstruction) (h13 : result.length = 13) :
    cstr (d.disassembleBytes result instr) =
      (if d.hex then [hexChar (instr.byte1 / 16 % 16), hexChar (instr.byte1 % 16)]
        else [decChar (instr.byte1 / 10 / 10 % 10), decChar (instr.byte1 / 10 % 10),
          decChar (instr.byte1 % 10)]) ++ [' '] ++
      (if 2 ≤ d.getLengthOfInstruction instr.byte1 then
        (if d.hex then [hexChar (instr.byte2 / 16 % 16), hexChar (instr.byte2 % 16)]
          else [decChar (instr.byte2 / 10 / 10 % 10), decChar (instr.byte2 / 10 % 10),
            decChar (instr.byte2 % 10)]) ++ [' ']
        else []) ++
      (if d.getLengthOfInstruction instr.byte1 = 3 then
        (if d.hex then [hexChar (instr.byte3 / 16 % 16), hexChar (instr.byte3 % 16)]
          else [decChar (instr.byte3 / 10 / 10 % 10), decChar (instr.byte3 / 10 % 10),
            decChar (instr.byte3 % 10)]) ++ [' ']
        else []) := by
  obtain ⟨r0, rt0, rfl, h13_0⟩ := exists_cons_of_length h13
  obtain ⟨r1, rt1, rfl, h13_1⟩ := exists_cons_of_length h13_0
  obtain ⟨r2, rt2, rfl, h13_2⟩ := exists_cons_of_length h13_1
  obtain ⟨r3, rt3, rfl, h13_3⟩ := exists_cons_of_length h13_2
  obtain ⟨r4, rt4, rfl, h13_4⟩ := exists_cons_of_length h13_3
  obtain ⟨r5, rt5, rfl, h13_5⟩ := exists_cons_of_length h13_4
  obtain ⟨r6, rt6, rfl, h13_6⟩ := exists_cons_of_length h13_5
  obtain ⟨r7, rt7, rfl, h13_7⟩ := exists_cons_of_length h13_6
  obtain ⟨r8, rt8, rfl, h13_8⟩ := exists_cons_of_length h13_7
  obtain ⟨r9, rt9, rfl, h13_9⟩ := exists_cons_of_length h13_8
  obtain ⟨r10, rt10, rfl, h13_10⟩ := exists_cons_of_length h13_9
  obtain ⟨r11, rt11, rfl, h13_11⟩ := exists_cons_of_length h13_10
  obtain ⟨r12, rt12, rfl, h13_12⟩ := exists_cons_of_length h13_11
  obtain rfl := List.length_eq_zero.mp h13_12
  have hsp : (' ' != NUL) = true := by decide
  clear h13 h13_0 h13_1 h13_2 h13_3 h13_4 h13_5 h13_6 h13_7 h13_8 h13_9 h13_10 h13_11 h13_12
  unfold Debugger.disassembleBytes
  rcases getLengthOfInstruction_cases d instr.byte1 with hL | hL | hL <;> rw [hL] <;>
    cases d.hex <;>
    simp only [Debugger.bytesStepX, Debugger.bytesStepD, Bool.false_eq_true, if_true,
      if_false, ge_iff_le, Int.reduceLE, Int.reduceEq, le_refl] <;>
    simp only [sprint8x, sprint8d, sprintLoop] <;>
    simp only [List.set, Nat.zero_add, Nat.reduceAdd] <;>
    simp only [cstr_cons_of_ne, cstr_NUL_cons, decChar_ne_NUL, hexChar_ne_NUL, hsp,
      List.cons_append, List.nil_append, List.append_nil]

/-- C16: for every recorded status byte `p`, `disassembleRecordedFlags` returns a string
of exactly 8 characters laid out as N V - B D I Z C: position 2 is always `-`, and each
of the other positions holds the upper-case letter if the corresponding bit of `p`
(N = bit 7, V = bit 6, B = bit 4, D = bit 3, I = bit 2, Z = bit 1, C = bit 0) is set and
the lower-case letter if it is cleared; bit 5 of `p` has no influence on the output: two
status bytes that agree in all other bits give the same string. -/
theorem disassembleRecordedFlags_layout (result : List Char) (instr : RecordedInstruction)
    (h9 : result.length = 9) :
    cstr (Debugger.disassembleRecordedFlags result instr) =
      [if instr.flags.testBit 7 = true then 'N' else 'n',
       if instr.flags.testBit 6 = true then 'V' else 'v',
       '-',
       if instr.flags.testBit 4 = true then 'B' else 'b',
       if instr.flags.testBit 3 = true then 'D' else 'd',
       if instr.flags.testBit 2 = true then 'I' else 'i',
       if instr.flags.testBit 1 = true then 'Z' else 'z',
       if instr.flags.testBit 0 = true then 'C' else 'c'] ∧
    (cstr (Debugger.disassembleRecordedFlags result instr)).length = 8 ∧
    ∀ (result2 : List Char) (instr2 : RecordedInstruction), result2.length = 9 →
      (∀ i, i ≠ 5 → instr2.flags.testBit i = instr.flags.testBit i) →
      cstr (Debugger.disassembleRecordedFlags result2 instr2) =
        cstr (Debugger.disassembleRecordedFlags result instr) := by
  have h := disassembleRecordedFlags_cstr result instr h9
  refine ⟨h, by rw [h]; rfl, fun result2 instr2 h2 hbits => ?_⟩
  rw [h, disassembleRecordedFlags_cstr result2 instr2 h2, hbits 7 (by decide),
    hbits 6 (by decide), hbits 4 (by decide), hbits 3 (by decide), hbits 2 (by decide),
    hbits 1 (by decide), hbits 0 (by decide)]

theorem disassembleRecordedFlags_layout_witness :
    sampleResult9.length = 9 ∧
    (cstr (Debugger.disassembleRecordedFlags sampleResult9 (sampleRecord 1538 142 0 2)) =
      [if (sampleRecord 1538 142 0 2).flags.testBit 7 = true then 'N' else 'n',
       if (sampleRecord 1538 142 0 2).flags.testBit 6 = true then 'V' else 'v',
       '-',
       if (sampleRecord 1538 142 0 2).flags.testBit 4 = true then 'B' else 'b',
       if (sampleRecord 1538 142 0 2).flags.testBit 3 = true then 'D' else 'd',
       if (sampleRecord 1538 142 0 2).flags.testBit 2 = true then 'I' else 'i',
       if (sampleRecord 1538 142 0 2).flags.testBit 1 = true then 'Z' else 'z',
       if (sampleRecord 1538 142 0 2).flags.testBit 0 = true then 'C' else 'c'] ∧
    (cstr (Debugger.disassembleRecordedFlags sampleResult9
      (sampleRecord 1538 142 0 2))).length = 8 ∧
    ∀ (result2 : List Char) (instr2 : RecordedInstruction), result2.length = 9 →
      (∀ i, i ≠ 5 → instr2.flags.testBit i = (sampleRecord 1538 142 0 2).flags.testBit i) →
      cstr (Debugger.disassembleRecordedFlags result2 instr2) =
        cstr (Debugger.disassembleRecordedFlags sampleResult9 (sampleRecord 1538 142 0 2))) :=
  ⟨rfl, disassembleRecordedFlags_layout sampleResult9 (sampleRecord 1538 142 0 2) rfl⟩

/-- C17: for every 16 bit address `a`, `disassembleAddr(a)` returns a numeral of fixed
width, padded with zeros, whose value is `a`: exactly 4 characters of `0-9A-F` read in
base 16 in hex mode, exactly 5 decimal digits in decimal mode; distinct addresses give
distinct strings. -/
theorem disassembleAddr_numeral (d : Debugger) (result : List Char) (a : Nat)
    (h6 : result.length = 6) (ha : a < 2 ^ 16) :
    (cstr (d.disassembleAddr result a)).length = (if d.hex then 4 else 5) ∧
    numeralValue (if d.hex then 16 else 10) (cstr (d.disassembleAddr result a)) = some a ∧
    ∀ (result2 : List Char) (b : Nat), result2.length = 6 → b < 2 ^ 16 →
      cstr (d.disassembleAddr result a) = cstr (d.disassembleAddr result2 b) → a = b := by
  have hv : ∀ (r : List Char) (x : Nat), r.length = 6 → x < 2 ^ 16 →
      (cstr (d.disassembleAddr r x)).length = (if d.hex then 4 else 5) ∧
      numeralValue (if d.hex then 16 else 10) (cstr (d.disassembleAddr r x)) = some x := by
    intro r x hr hx
    rw [disassembleAddr_cstr d r x hr]
    exact wordDigits_value d.hex x (by omega)
  refine ⟨(hv result a h6 ha).1, (hv result a h6 ha).2, fun result2 b h2 hb heq => ?_⟩
  have h1 := (hv result a h6 ha).2
  rw [heq, (hv result2 b h2 hb).2] at h1
  exact (Option.some.inj h1).symm

theorem disassembleAddr_numeral_witness :
    (sampleResult6.length = 6 ∧ (1545 : Nat) < 2 ^ 16) ∧
    ((cstr (sampleDebugger.disassembleAddr sampleResult6 1545)).length =
      (if sampleDebugger.hex then 4 else 5) ∧
    numeralValue (if sampleDebugger.hex then 16 else 10)
      (cstr (sampleDebugger.disassembleAddr sampleResult6 1545)) = some 1545 ∧
    ∀ (result2 : List Char) (b : Nat), result2.length = 6 → b < 2 ^ 16 →
      cstr (sampleDebugger.disassembleAddr sampleResult6 1545) =
        cstr (sampleDebugger.disassembleAddr result2 b) → 1545 = b) :=
  ⟨⟨rfl, by decide⟩,
    disassembleAddr_numeral sampleDebugger sampleResult6 1545 rfl (by decide)⟩

/-- C18: for every instruction record (bytes below 256), `disassembleBytes` prints
exactly `L = getLengthOfInstruction(byte1)` byte groups, namely `byte1`, then `byte2` if
`L >= 2`, then `byte3` if `L = 3`, each as a numeral of the value of the byte, padded
with zeros (2 digits of `0-9A-F` in hex mode, 3 decimal digits in decimal mode) and
followed by one space, so the string has length `3 * L` resp. `4 * L` and bytes beyond
the instruction length are not shown. -/
theorem disassembleBytes_groups (d : Debugger) (result : List Char)
    (instr : RecordedInstruction) (h13 : result.length = 13)
    (hb1 : instr.byte1 < 256) (hb2 : instr.byte2 < 256) (hb3 : instr.byte3 < 256) :
    ∃ g1 g2 g3 : List Char,
      (g1.length = (if d.hex then 2 else 3) ∧
        numeralValue (if d.hex then 16 else 10) g1 = some instr.byte1) ∧
      (g2.length = (if d.hex then 2 else 3) ∧
        numeralValue (if d.hex then 16 else 10) g2 = some instr.byte2) ∧
      (g3.length = (if d.hex then 2 else 3) ∧
        numeralValue (if d.hex then 16 else 10) g3 = some instr.byte3) ∧
      cstr (d.disassembleBytes result instr) =
        g1 ++ [' '] ++
        (if 2 ≤ d.getLengthOfInstruction instr.byte1 then g2 ++ [' '] else []) ++
        (if d.getLengthOfInstruction instr.byte1 = 3 then g3 ++ [' '] else []) ∧
      ((cstr (d.disassembleBytes result instr)).length : Int) =
        (if d.hex then 3 else 4) * d.getLengthOfInstruction instr.byte1 := by
  have h := disassembleBytes_cstr d result instr h13
  obtain ⟨l1, v1⟩ := byteDigits_value d.hex instr.byte1 hb1
  obtain ⟨l2, v2⟩ := byteDigits_value d.hex instr.byte2 hb2
  obtain ⟨l3, v3⟩ := byteDigits_value d.hex instr.byte3 hb3
  refine ⟨_, _, _, ⟨l1, v1⟩, ⟨l2, v2⟩, ⟨l3, v3⟩, h, ?_⟩
  rw [h]
  rcases getLengthOfInstruction_cases d instr.byte1 with hL | hL | hL <;> rw [hL] <;>
    cases d.hex <;> simp

theorem disassembleBytes_groups_witness :
    (sampleResult13.length = 13 ∧ (sampleRecord 1536 162 1 142).byte1 < 256 ∧
      (sampleRecord 1536 162 1 142).byte2 < 256 ∧
      (sampleRecord 1536 162 1 142).byte3 < 256) ∧
    ∃ g1 g2 g3 : List Char,
      (g1.length = (if sampleDebugger.hex then 2 else 3) ∧
        numeralValue (if sampleDebugger.hex then 16 else 10) g1 =
          some (sampleRecord 1536 162 1 142).byte1) ∧
      (g2.length = (if sampleDebugger.hex then 2 else 3) ∧
        numeralValue (if sampleDebugger.hex then 16 else 10) g2 =
          some (sampleRecord 1536 162 1 142).byte2) ∧
      (g3.length = (if sampleDebugger.hex then 2 else 3) ∧
        numeralValue (if sampleDebugger.hex then 16 else 10) g3 =
          some (sampleRecord 1536 162 1 142).byte3) ∧
      cstr (sampleDebugger.disassembleBytes sampleResult13 (sampleRecord 1536 162 1 142)) =
        g1 ++ [' '] ++
        (if 2 ≤ sampleDebugger.getLengthOfInstruction (sampleRecord 1536 162 1 142).byte1
          then g2 ++ [' '] else []) ++
        (if sampleDebugger.getLengthOfInstruction (sampleRecord 1536 162 1 142).byte1 = 3
          then g3 ++ [' '] else []) ∧
      ((cstr (sampleDebugger.disassembleBytes sampleResult13
          (sampleRecord 1536 162 1 142))).length : Int) =
        (if sampleDebugger.hex then 3 else 4) *
          sampleDebugger.getLengthOfInstruction (sampleRecord 1536 162 1 142).byte1 :=
  ⟨⟨rfl, by decide, by decide, by decide⟩,
    disassembleBytes_groups sampleDebugger sampleResult13 (sampleRecord 1536 162 1 142) rfl
      (by decide) (by decide) (by decide)⟩

/-! ## Guard collections: the invariants as claims -/

/-- C22: in every guard collection reachable from the constructed (empty) one by `addAt`,
`removeAt`, `remove`, `removeAll`, `replace`, `setEnable`, `setEnableAt` and `eval`, the
stored guards observe pairwise distinct addresses: the list of their addresses has no
duplicates, and two guards with different numbers never observe the same address. -/
theorem reachable_guards_distinct_addresses (g : Guards) (hr : g.Reachable) :
    g.DistinctAddrs ∧
    ∀ (i j : Nat) (x y : Guard), i < j → j < g.elements →
      g.guardWithNr (i : Int) = some x → g.guardWithNr (j : Int) = some y →
      x.addr ≠ y.addr := by
  obtain ⟨hwf, hd⟩ := hr.inv
  refine ⟨hd, ?_⟩
  intro i j x y hij hj hx hy hxy
  have hl : g.count ≤ g.guards.length := by obtain ⟨_, _, _⟩ := hwf; omega
  unfold Guards.elements at hj
  rw [Guards.guardWithNr_natCast _ _ (by omega)] at hx
  rw [Guards.guardWithNr_natCast _ _ hj] at hy
  rw [Guards.distinctAddrs_iff g hl, List.nodup_iff_getElem?_ne_getElem?] at hd
  have hlen : ((g.guards.take g.count).map (fun x => x.addr)).length = g.count := by
    rw [List.length_map, List.length_take]
    omega
  apply hd i j hij (by omega)
  rw [List.getElem?_map, List.getElem?_map, List.getElem?_take, List.getElem?_take,
    if_pos (by omega), if_pos hj, hx, hy]
  simp [hxy]

theorem reachable_guards_distinct_addresses_witness :
    exampleGuards.Reachable ∧
    (exampleGuards.DistinctAddrs ∧
      ∀ (i j : Nat) (x y : Guard), i < j → j < exampleGuards.elements →
        exampleGuards.guardWithNr (i : Int) = some x →
        exampleGuards.guardWithNr (j : Int) = some y → x.addr ≠ y.addr) :=
  ⟨Guards.Reachable.addAt _ _ _ 1541 1
      (Guards.Reachable.addAt _ _ _ 1538 0
        (Guards.Reachable.addAt _ _ _ 1545 2 Guards.Reachable.init)),
    reachable_guards_distinct_addresses exampleGuards
      (Guards.Reachable.addAt _ _ _ 1541 1
        (Guards.Reachable.addAt _ _ _ 1538 0
          (Guards.Reachable.addAt _ _ _ 1545 2 Guards.Reachable.init)))⟩

/-- C23, as stated, fails: the collection holding one guard at `0x609` is reachable and
full (`count = capacity = 1`), and `addAt(0x609)` is called on it, yet the capacity is
still one afterwards, because `addAt` returns before regrowing the array when the
address is guarded already. -/
theorem addAt_full_known_address_keeps_capacity :
    exampleOneGuard.Reachable ∧
    exampleOneGuard.count = exampleOneGuard.capacity ∧
    exampleOneGuard.isSetAt 1545 = true ∧
    (exampleOneGuard.addAt (Breakpoints.setNeedsCheck exampleConfig) (exampleCpu 0)
      1545 0).1.capacity = 1 ∧
    (exampleOneGuard.addAt (Breakpoints.setNeedsCheck exampleConfig) (exampleCpu 0)
      1545 0).1.capacity ≠ 2 * exampleOneGuard.capacity :=
  ⟨Guards.Reachable.addAt _ _ _ 1545 2 Guards.Reachable.init, by decide, by decide,
    by decide, by decide⟩

/-- C23, amended: in every guard collection reachable from the constructed one
(capacity 1, count 0), `capacity >= 1`, `0 <= count <= capacity` and the array has
`capacity` cells, so every cell `guards[i]` with `i < count` exists; a call of `addAt`
for an address that is not guarded yet writes the new guard into the cell `guards[count]`
of the array it leaves behind; and `addAt` doubles the capacity exactly when it is called
with `count = capacity` for an address that is not guarded yet, and leaves the capacity
unchanged otherwise. -/
theorem reachable_guards_within_capacity (g : Guards) (hr : g.Reachable) :
    (1 ≤ g.capacity ∧ 0 ≤ g.count ∧ g.count ≤ g.capacity ∧ g.guards.length = g.capacity) ∧
    (∀ i : Nat, i < g.count → (readAt g.guards (i : Int)).isSome = true) ∧
    ∀ (snc : Peddle → Bool → Peddle) (cpu : Peddle) (addr : Nat) (skip : Int),
      (g.isSetAt addr = false →
        g.count < (g.addAt snc cpu addr skip).1.guards.length ∧
        readAt (g.addAt snc cpu addr skip).1.guards (g.count : Int) =
          some { addr := addr, enabled := true, hits := 0, skip := skip }) ∧
      ((g.addAt snc cpu addr skip).1.capacity = 2 * g.capacity ↔
        (g.count = g.capacity ∧ g.isSetAt addr = false)) ∧
      ((g.addAt snc cpu addr skip).1.capacity ≠ 2 * g.capacity →
        (g.addAt snc cpu addr skip).1.capacity = g.capacity) := by
  obtain ⟨hwf, _⟩ := hr.inv
  obtain ⟨hcap, hlen, hcnt⟩ := hwf
  refine ⟨⟨hcap, Nat.zero_le _, hcnt, hlen⟩, ?_, ?_⟩
  · intro i hi
    unfold readAt
    simp only [Int.natCast_nonneg, Int.toNat_ofNat, not_lt_of_ge, if_false]
    rw [List.getElem?_eq_getElem (by omega)]
    rfl
  · intro snc cpu addr skip
    cases hset : g.isSetAt addr with
    | true =>
      rw [Guards.addAt_set snc g cpu addr skip hset]
      refine ⟨fun h => absurd h (by simp), ?_, fun _ => rfl⟩
      constructor
      · intro h
        simp only at h
        omega
      · intro h
        exact absurd h.2 (by simp)
    | false =>
      obtain ⟨hwf1, hc1, hcap1, ht⟩ :=
        Guards.addAt_new snc g cpu addr skip ⟨hcap, hlen, hcnt⟩ hset
      obtain ⟨_, hlen1, hcnt1⟩ := hwf1
      have hlt : g.count < (g.addAt snc cpu addr skip).1.guards.length := by omega
      refine ⟨fun _ => ⟨hlt, ?_⟩, ?_, ?_⟩
      · have hget : (g.addAt snc cpu addr skip).1.guards[g.count]? =
            ((g.addAt snc cpu addr skip).1.guards.take (g.count + 1))[g.count]? := by
          rw [List.getElem?_take, if_pos (by omega)]
        unfold readAt
        simp only [Int.natCast_nonneg, Int.toNat_ofNat, not_lt_of_ge, if_false]
        rw [hget, ht, List.getElem?_append_right (by rw [List.length_take]; omega)]
        simp [List.length_take, Nat.min_eq_left (show g.count ≤ g.guards.length by omega)]
      · rw [hcap1]
        constructor
        · intro h
          split at h
          · exact ⟨by omega, rfl⟩
          · omega
        · intro h
          rw [if_pos (by omega)]
          omega
      · intro h
        rw [hcap1] at h ⊢
        split
        · rename_i hfull
          rw [if_pos hfull] at h
          omega
        · rfl

theorem reachable_guards_within_capacity_witness :
    exampleGuards.Reachable ∧
    ((1 ≤ exampleGuards.capacity ∧ 0 ≤ exampleGuards.count ∧
        exampleGuards.count ≤ exampleGuards.capacity ∧
        exampleGuards.guards.length = exampleGuards.capacity) ∧
      (∀ i : Nat, i < exampleGuards.count →
        (readAt exampleGuards.guards (i : Int)).isSome = true) ∧
      ∀ (snc : Peddle → Bool → Peddle) (cpu : Peddle) (addr : Nat) (skip : Int),
        (exampleGuards.isSetAt addr = false →
          exampleGuards.count < (exampleGuards.addAt snc cpu addr skip).1.guards.length ∧
          readAt (exampleGuards.addAt snc cpu addr skip).1.guards (exampleGuards.count : Int) =
            some { addr := addr, enabled := true, hits := 0, skip := skip }) ∧
        ((exampleGuards.addAt snc cpu addr skip).1.capacity = 2 * exampleGuards.capacity ↔
          (exampleGuards.count = exampleGuards.capacity ∧
            exampleGuards.isSetAt addr = false)) ∧
        ((exampleGuards.addAt snc cpu addr skip).1.capacity ≠ 2 * exampleGuards.capacity →
          (exampleGuards.addAt snc cpu addr skip).1.capacity = exampleGuards.capacity)) :=
  ⟨Guards.Reachable.addAt _ _ _ 1541 1
      (Guards.Reachable.addAt _ _ _ 1538 0
        (Guards.Reachable.addAt _ _ _ 1545 2 Guards.Reachable.init)),
    reachable_guards_within_capacity exampleGuards
      (Guards.Reachable.addAt _ _ _ 1541 1
        (Guards.Reachable.addAt _ _ _ 1538 0
          (Guards.Reachable.addAt _ _ _ 1545 2 Guards.Reachable.init)))⟩

/-! ## Check flags -/

theorem land_compl_self (x m : Nat) (hm : m ≤ UINT64_MAX) :
    (x &&& (UINT64_MAX - m)) &&& m = 0 := by
  apply Nat.eq_of_testBit_eq
  intro i
  have h : UINT64_MAX - m = 2 ^ 64 - (m + 1) := by unfold UINT64_MAX; omega
  have hlt : m < 2 ^ 64 := by unfold UINT64_MAX at hm; omega
  rw [h, Nat.testBit_land, Nat.testBit_land, Nat.testBit_two_pow_sub_succ hlt]
  simp only [Nat.zero_testBit]
  cases m.testBit i <;> simp

theorem land_compl_other (x m1 m2 : Nat) (h1 : m1 ≤ UINT64_MAX) (h2 : m2 ≤ UINT64_MAX)
    (hd : m1 &&& m2 = 0) : (x &&& (UINT64_MAX - m1)) &&& m2 = x &&& m2 := by
  apply Nat.eq_of_testBit_eq
  intro i
  have h : UINT64_MAX - m1 = 2 ^ 64 - (m1 + 1) := by unfold UINT64_MAX; omega
  have hlt : m1 < 2 ^ 64 := by unfold UINT64_MAX at h1; omega
  have hlt2 : m2 < 2 ^ 64 := by unfold UINT64_MAX at h2; omega
  have hdi : (m1 &&& m2).testBit i = false := by rw [hd]; exact Nat.zero_testBit i
  rw [Nat.testBit_land] at hdi
  rw [h, Nat.testBit_land, Nat.testBit_land, Nat.testBit_land,
    Nat.testBit_two_pow_sub_succ hlt]
  cases hm2 : m2.testBit i with
  | false => simp
  | true =>
    have hi : i < 64 := by
      by_contra hge
      have hpow : m2 < 2 ^ i :=
        Nat.lt_of_lt_of_le hlt2 (Nat.pow_le_pow_right (by decide) (by omega))
      rw [Nat.testBit_lt_two_pow hpow] at hm2
      exact absurd hm2 (by simp)
    simp [hm2] at hdi
    simp [hdi, hi]

theorem lor_land_self_ne_zero (x m : Nat) (hm : m ≠ 0) : (x ||| m) &&& m ≠ 0 := by
  have h : (x ||| m) &&& m = m := by
    apply Nat.eq_of_testBit_eq
    intro i
    rw [Nat.testBit_land, Nat.testBit_lor]
    cases m.testBit i <;> simp
  rw [h]
  exact hm

theorem lor_land_other (x m1 m2 : Nat) (hd : m1 &&& m2 = 0) :
    (x ||| m1) &&& m2 = x &&& m2 := by
  apply Nat.eq_of_testBit_eq
  intro i
  have hdi : (m1 &&& m2).testBit i = false := by rw [hd]; exact Nat.zero_testBit i
  rw [Nat.testBit_land] at hdi
  rw [Nat.testBit_land, Nat.testBit_land, Nat.testBit_lor]
  cases hm2 : m2.testBit i with
  | false => simp
  | true =>
    simp [hm2] at hdi
    simp [hdi]

/-- After `Breakpoints::setNeedsCheck(value)` the flag `CPU_CHECK_BP` is set if and only
if `value` holds. -/
theorem flagSet_bp_setNeedsCheck (cfg : Config) (cpu : Peddle) (value : Bool)
    (hbp : cfg.CPU_CHECK_BP ≠ 0) (hbpr : cfg.CPU_CHECK_BP ≤ UINT64_MAX) :
    (Breakpoints.setNeedsCheck cfg cpu value).flagSet cfg.CPU_CHECK_BP = value := by
  cases value with
  | true =>
    simp only [Breakpoints.setNeedsCheck, if_true, Peddle.flagSet, bne_iff_ne, ne_eq]
    exact lor_land_self_ne_zero _ _ hbp
  | false =>
    simp only [Breakpoints.setNeedsCheck, Bool.false_eq_true, if_false, Peddle.flagSet]
    rw [land_compl_self _ _ hbpr]
    rfl

/-- `Breakpoints::setNeedsCheck` leaves the flag `CPU_CHECK_WP` as it is. -/
theorem flagSet_wp_of_bp_setNeedsCheck (cfg : Config) (cpu : Peddle) (value : Bool)
    (hbpr : cfg.CPU_CHECK_BP ≤ UINT64_MAX) (hwpr : cfg.CPU_CHECK_WP ≤ UINT64_MAX)
    (hd : cfg.CPU_CHECK_BP &&& cfg.CPU_CHECK_WP = 0) :
    (Breakpoints.setNeedsCheck cfg cpu value).flagSet cfg.CPU_CHECK_WP =
      cpu.flagSet cfg.CPU_CHECK_WP := by
  cases value with
  | true =>
    simp only [Breakpoints.setNeedsCheck, if_true, Peddle.flagSet]
    rw [lor_land_other _ _ _ hd]
  | false =>
    simp only [Breakpoints.setNeedsCheck, Bool.false_eq_true, if_false, Peddle.flagSet]
    rw [land_compl_other _ _ _ hbpr hwpr hd]

/-- After `Watchpoints::setNeedsCheck(value)` the flag `CPU_CHECK_WP` is set if and only
if `value` holds. -/
theorem flagSet_wp_setNeedsCheck (cfg : Config) (cpu : Peddle) (value : Bool)
    (hwp : cfg.CPU_CHECK_WP ≠ 0) (hwpr : cfg.CPU_CHECK_WP ≤ UINT64_MAX) :
    (Watchpoints.setNeedsCheck cfg cpu value).flagSet cfg.CPU_CHECK_WP = value := by
  cases value with
  | true =>
    simp only [Watchpoints.setNeedsCheck, if_true, Peddle.flagSet, bne_iff_ne, ne_eq]
    exact lor_land_self_ne_zero _ _ hwp
  | false =>
    simp only [Watchpoints.setNeedsCheck, Bool.false_eq_true, if_false, Peddle.flagSet]
    rw [land_compl_self _ _ hwpr]
    rfl

/-- `Watchpoints::setNeedsCheck` leaves the flag `CPU_CHECK_BP` as it is. -/
theorem flagSet_bp_of_wp_setNeedsCheck (cfg : Config) (cpu : Peddle) (value : Bool)
    (hbpr : cfg.CPU_CHECK_BP ≤ UINT64_MAX) (hwpr : cfg.CPU_CHECK_WP ≤ UINT64_MAX)
    (hd : cfg.CPU_CHECK_BP &&& cfg.CPU_CHECK_WP = 0) :
    (Watchpoints.setNeedsCheck cfg cpu value).flagSet cfg.CPU_CHECK_BP =
      cpu.flagSet cfg.CPU_CHECK_BP := by
  have hd' : cfg.CPU_CHECK_WP &&& cfg.CPU_CHECK_BP = 0 := by rw [Nat.land_comm]; exact hd
  cases value with
  | true =>
    simp only [Watchpoints.setNeedsCheck, if_true, Peddle.flagSet]
    rw [lor_land_other _ _ _ hd']
  | false =>
    simp only [Watchpoints.setNeedsCheck, Bool.false_eq_true, if_false, Peddle.flagSet]
    rw [land_compl_other _ _ _ hwpr hbpr hd']

/-- The CPU state that `addAt` leaves behind. -/
theorem Guards.addAt_cpu (snc : Peddle → Bool → Peddle) (g : Guards) (cpu : Peddle)
    (addr : Nat) (skip : Int) :
    (g.addAt snc cpu addr skip).2 = if g.isSetAt addr = true then cpu else snc cpu true := by
  unfold Guards.addAt
  split <;> rfl

/-- What `remove` does: nothing, or what `removeAt` does for some address. -/
theorem Guards.remove_cases (snc : Peddle → Bool → Peddle) (g : Guards) (cpu : Peddle)
    (nr : Int) :
    g.remove snc cpu nr = (g, cpu) ∨ ∃ addr, g.remove snc cpu nr = g.removeAt snc cpu addr := by
  unfold Guards.remove
  split
  · split
    · rename_i x _
      exact Or.inr ⟨x.addr, rfl⟩
    · exact Or.inl rfl
  · exact Or.inl rfl

/-- The CPU state that `removeAt` leaves behind. -/
theorem Guards.removeAt_cpu (snc : Peddle → Bool → Peddle) (g : Guards) (cpu : Peddle)
    (addr : Nat) :
    (g.removeAt snc cpu addr).2 = snc cpu ((g.removeAt snc cpu addr).1.count != 0) := rfl

/-- A call of `replace` keeps the number of guards. -/
theorem Guards.replace_count (g : Guards) (nr : Int) (addr : Nat) :
    (g.replace nr addr).count = g.count := by
  unfold Guards.replace
  split
  · rfl
  · split <;> rfl

/-- C24: let the masks `CPU_CHECK_BP` and `CPU_CHECK_WP` be non-zero, disjoint flags of
the 64 bits of `flags`. Each call of `addAt`, `removeAt`, `remove`, `removeAll` or
`replace` on the breakpoints or on the watchpoints, of `setSoftStop`, of
`breakpointMatches` and of `Debugger::reset` preserves "the breakpoints are non-empty
implies `CPU_CHECK_BP` is set" and "the watchpoints are non-empty implies `CPU_CHECK_WP`
is set"; and after `removeAt`, `removeAll` or `Debugger::reset` the flag of a collection
is set if and only if the collection is non-empty. -/
theorem check_flags_follow_guard_counts (cfg : Config)
    (hbp : cfg.CPU_CHECK_BP ≠ 0) (hwp : cfg.CPU_CHECK_WP ≠ 0)
    (hbpr : cfg.CPU_CHECK_BP ≤ UINT64_MAX) (hwpr : cfg.CPU_CHECK_WP ≤ UINT64_MAX)
    (hd : cfg.CPU_CHECK_BP &&& cfg.CPU_CHECK_WP = 0)
    (c : DebuggerCall) (d : Debugger) (cpu : Peddle) :
    ((d.breakpoints.elements ≠ 0 → cpu.flagSet cfg.CPU_CHECK_BP = true) →
      ((Debugger.call cfg c (d, cpu)).1.breakpoints.elements ≠ 0 →
        (Debugger.call cfg c (d, cpu)).2.flagSet cfg.CPU_CHECK_BP = true)) ∧
    ((d.watchpoints.elements ≠ 0 → cpu.flagSet cfg.CPU_CHECK_WP = true) →
      ((Debugger.call cfg c (d, cpu)).1.watchpoints.elements ≠ 0 →
        (Debugger.call cfg c (d, cpu)).2.flagSet cfg.CPU_CHECK_WP = true)) ∧
    ((c = DebuggerCall.bpRemoveAll ∨ (∃ addr, c = DebuggerCall.bpRemoveAt addr) ∨
        c = DebuggerCall.reset) →
      ((Debugger.call cfg c (d, cpu)).2.flagSet cfg.CPU_CHECK_BP = true ↔
        (Debugger.call cfg c (d, cpu)).1.breakpoints.elements ≠ 0)) ∧
    ((c = DebuggerCall.wpRemoveAll ∨ (∃ addr, c = DebuggerCall.wpRemoveAt addr) ∨
        c = DebuggerCall.reset) →
      ((Debugger.call cfg c (d, cpu)).2.flagSet cfg.CPU_CHECK_WP = true ↔
        (Debugger.call cfg c (d, cpu)).1.watchpoints.elements ≠ 0)) := by
  have bb := fun cpu v => flagSet_bp_setNeedsCheck cfg cpu v hbp hbpr
  have bw := fun cpu v => flagSet_wp_of_bp_setNeedsCheck cfg cpu v hbpr hwpr hd
  have ww := fun cpu v => flagSet_wp_setNeedsCheck cfg cpu v hwp hwpr
  have wb := fun cpu v => flagSet_bp_of_wp_setNeedsCheck cfg cpu v hbpr hwpr hd
  cases c with
  | bpAddAt addr skip =>
    simp only [Debugger.call, Guards.addAt_cpu, reduceCtorEq, false_or, exists_false,
      false_implies, and_true]
    cases hset : d.breakpoints.isSetAt addr with
    | true =>
      rw [Guards.addAt_set _ _ _ _ _ hset]
      simp only [if_true]
      exact ⟨fun h => h, fun h => h⟩
    | false =>
      simp only [Bool.false_eq_true, if_false, bb, bw]
      exact ⟨fun _ _ => trivial, fun h => h⟩
  | bpRemoveAt addr =>
    simp only [Debugger.call, Guards.removeAt_cpu, bb, bw, Guards.elements, reduceCtorEq,
      false_or, or_false, exists_false, false_implies, and_true, bne_iff_ne, ne_eq,
      DebuggerCall.bpRemoveAt.injEq, exists_eq', true_implies, or_true]
    exact ⟨fun _ h => h, fun h => h⟩
  | bpRemove nr =>
    simp only [Debugger.call, reduceCtorEq, false_or, or_false, exists_false,
      false_implies, and_true]
    rcases Guards.remove_cases (Breakpoints.setNeedsCheck cfg) d.breakpoints cpu nr with
      h | ⟨addr, h⟩
    · rw [h]
      exact ⟨fun h => h, fun h => h⟩
    · rw [h]
      simp only [Guards.removeAt_cpu, bb, bw, Guards.elements, bne_iff_ne, ne_eq]
      exact ⟨fun _ h => h, fun h => h⟩
  | bpRemoveAll =>
    simp only [Debugger.call, Guards.removeAll, bb, bw, Guards.elements, reduceCtorEq,
      false_or, or_false, exists_false, false_implies, and_true, true_or, true_implies,
      ne_eq, not_true_eq_false, Bool.false_eq_true]
    exact ⟨fun _ => trivial, fun h => h⟩
  | bpReplace nr addr =>
    simp only [Debugger.call, Guards.elements, Guards.replace_count, reduceCtorEq,
      false_or, or_false, exists_false, false_implies, and_true]
    exact ⟨fun h => h, fun h => h⟩
  | wpAddAt addr skip =>
    simp only [Debugger.call, Guards.addAt_cpu, reduceCtorEq, false_or, exists_false,
      false_implies, and_true]
    cases hset : d.watchpoints.isSetAt addr with
    | true =>
      rw [Guards.addAt_set _ _ _ _ _ hset]
      simp only [if_true]
      exact ⟨fun h => h, fun h => h⟩
    | false =>
      simp only [Bool.false_eq_true, if_false, ww, wb]
      exact ⟨fun h => h, fun _ _ => trivial⟩
  | wpRemoveAt addr =>
    simp only [Debugger.call, Guards.removeAt_cpu, ww, wb, Guards.elements, reduceCtorEq,
      false_or, or_false, exists_false, false_implies, and_true, true_and, bne_iff_ne, ne_eq,
      DebuggerCall.wpRemoveAt.injEq, exists_eq', true_implies, or_true]
    exact ⟨fun h => h, fun _ h => h⟩
  | wpRemove nr =>
    simp only [Debugger.call, reduceCtorEq, false_or, or_false, exists_false,
      false_implies, and_true]
    rcases Guards.remove_cases (Watchpoints.setNeedsCheck cfg) d.watchpoints cpu nr with
      h | ⟨addr, h⟩
    · rw [h]
      exact ⟨fun h => h, fun h => h⟩
    · rw [h]
      simp only [Guards.removeAt_cpu, ww, wb, Guards.elements, bne_iff_ne, ne_eq]
      exact ⟨fun h => h, fun _ h => h⟩
  | wpRemoveAll =>
    simp only [Debugger.call, Guards.removeAll, ww, wb, Guards.elements, reduceCtorEq,
      false_or, or_false, exists_false, false_implies, and_true, true_and, true_or,
      true_implies, ne_eq, not_true_eq_false, Bool.false_eq_true]
    exact ⟨fun h => h, fun _ => trivial⟩
  | wpReplace nr addr =>
    simp only [Debugger.call, Guards.elements, Guards.replace_count, reduceCtorEq,
      false_or, or_false, exists_false, false_implies, and_true]
    exact ⟨fun h => h, fun h => h⟩
  | setSoftStop addr =>
    simp only [Debugger.call, Debugger.setSoftStop, bb, bw, reduceCtorEq,
      false_or, or_false, exists_false, false_implies, and_true]
    exact ⟨fun _ _ => trivial, fun h => h⟩
  | breakpointMatches addr =>
    simp only [Debugger.call, Debugger.breakpointMatches, reduceCtorEq,
      false_or, or_false, exists_false, false_implies, and_true]
    split
    · simp only [bb, bw, Guards.elements, bne_iff_ne, ne_eq]
      exact ⟨fun _ h => h, fun h => h⟩
    · split
      · simp only [Guards.elements, Guards.eval_count]
        exact ⟨fun h => h, fun h => h⟩
      · simp only [Guards.elements, Guards.eval_count]
        exact ⟨fun h => h, fun h => h⟩
  | reset =>
    simp only [Debugger.call, Debugger.reset, Debugger.clearLog, ww, wb, bb, bw,
      Guards.elements, or_true, true_implies, bne_iff_ne, ne_eq]
    exact ⟨fun _ h => h, fun _ h => h, trivial, trivial⟩

theorem check_flags_follow_guard_counts_witness :
    (exampleConfig.CPU_CHECK_BP ≠ 0 ∧ exampleConfig.CPU_CHECK_WP ≠ 0 ∧
      exampleConfig.CPU_CHECK_BP ≤ UINT64_MAX ∧ exampleConfig.CPU_CHECK_WP ≤ UINT64_MAX ∧
      exampleConfig.CPU_CHECK_BP &&& exampleConfig.CPU_CHECK_WP = 0) ∧
    (((exampleStepOver.breakpoints.elements ≠ 0 →
        (exampleCpu 0).flagSet exampleConfig.CPU_CHECK_BP = true) →
      ((Debugger.call exampleConfig DebuggerCall.reset
          (exampleStepOver, exampleCpu 0)).1.breakpoints.elements ≠ 0 →
        (Debugger.call exampleConfig DebuggerCall.reset
          (exampleStepOver, exampleCpu 0)).2.flagSet exampleConfig.CPU_CHECK_BP = true)) ∧
    ((exampleStepOver.watchpoints.elements ≠ 0 →
        (exampleCpu 0).flagSet exampleConfig.CPU_CHECK_WP = true) →
      ((Debugger.call exampleConfig DebuggerCall.reset
          (exampleStepOver, exampleCpu 0)).1.watchpoints.elements ≠ 0 →
        (Debugger.call exampleConfig DebuggerCall.reset
          (exampleStepOver, exampleCpu 0)).2.flagSet exampleConfig.CPU_CHECK_WP = true)) ∧
    ((DebuggerCall.reset = DebuggerCall.bpRemoveAll ∨
        (∃ addr, DebuggerCall.reset = DebuggerCall.bpRemoveAt addr) ∨
        DebuggerCall.reset = DebuggerCall.reset) →
      ((Debugger.call exampleConfig DebuggerCall.reset
          (exampleStepOver, exampleCpu 0)).2.flagSet exampleConfig.CPU_CHECK_BP = true ↔
        (Debugger.call exampleConfig DebuggerCall.reset
          (exampleStepOver, exampleCpu 0)).1.breakpoints.elements ≠ 0)) ∧
    ((DebuggerCall.reset = DebuggerCall.wpRemoveAll ∨
        (∃ addr, DebuggerCall.reset = DebuggerCall.wpRemoveAt addr) ∨
        DebuggerCall.reset = DebuggerCall.reset) →
      ((Debugger.call exampleConfig DebuggerCall.reset
          (exampleStepOver, exampleCpu 0)).2.flagSet exampleConfig.CPU_CHECK_WP = true ↔
        (Debugger.call exampleConfig DebuggerCall.reset
          (exampleStepOver, exampleCpu 0)).1.watchpoints.elements ≠ 0))) :=
  ⟨by decide,
    check_flags_follow_guard_counts exampleConfig (by decide) (by decide) (by decide)
      (by decide) (by decide) DebuggerCall.reset exampleStepOver (exampleCpu 0)⟩

/-! ## Armed soft stops -/

/-- C25 fails on the code. On a debugger without breakpoints, `setSoftStop(0x609)` arms
the soft stop and sets `CPU_CHECK_BP`; a following `breakpoints.removeAll()`, a
`breakpoints.removeAt(0x602)` or a `Debugger::reset()` clears the flag although
`breakpointMatches` was not called and the soft stop is still armed. The same happens
when the last breakpoint is removed by `removeAt` or `remove`. -/
theorem soft_stop_left_unchecked :
    (Debugger.calls exampleConfig [DebuggerCall.setSoftStop 1545]
      (exampleDebugger, exampleCpu 0)).2.flagSet exampleConfig.CPU_CHECK_BP = true ∧
    (∀ c ∈ [DebuggerCall.bpRemoveAll, DebuggerCall.bpRemoveAt 1538, DebuggerCall.reset],
      c.keepsSoftStop = true ∧
      (Debugger.calls exampleConfig [DebuggerCall.setSoftStop 1545, c]
        (exampleDebugger, exampleCpu 0)).1.softStop = 1545 ∧
      (Debugger.calls exampleConfig [DebuggerCall.setSoftStop 1545, c]
        (exampleDebugger, exampleCpu 0)).2.flagSet exampleConfig.CPU_CHECK_BP = false) ∧
    (∀ c ∈ [DebuggerCall.bpRemoveAt 1545, DebuggerCall.bpRemove 0],
      c.keepsSoftStop = true ∧
      (Debugger.calls exampleConfig
        [DebuggerCall.bpAddAt 1545 0, DebuggerCall.setSoftStop 1541, c]
        (exampleDebugger, exampleCpu 0)).1.softStop = 1541 ∧
      (Debugger.calls exampleConfig
        [DebuggerCall.bpAddAt 1545 0, DebuggerCall.setSoftStop 1541, c]
        (exampleDebugger, exampleCpu 0)).2.flagSet exampleConfig.CPU_CHECK_BP = false) := by
  decide

/-! ## Execution of the sample program -/

end peddle
